import Mathlib

/-!
PlusServerLauncher: process supervisor and remote control handler

A shallow embedding of `PlusServerLauncher/PlusServerLauncherMainWindow.cxx`.

* The members of `PlusServerLauncherMainWindow` that the supervisor reads or writes are the
  fields of `Launcher`; every member function is a function on `Launcher`.
* Calls that leave the class (process control, the logger, the remote control connector) are
  appended to `Launcher.effects` in program order.
* What the outside world answers (does a wait on the child return, did the child start) is an
  explicit argument of the function that asks.
* An access the C++ standard leaves undefined (dereferencing a null connector, an iterator at
  `end()`, `substr` past the end) makes the function return `none`, or the outcome `outOfRange`
  in the handler of the server output.
* `std::string` is `String` for names and paths and `List Char` for log text.
* Of the widgets of the window the state keeps what the supervisor reads back or the claims
  speak of: the log level selector, the two permission check boxes and the connection flag,
  description suffix and button text of the device set selector. The rows of the server table
  are presentation only and are left out, with `AddServerToTable` and `RemoveServerFromTable`.
-/

namespace PlusServerLauncher

/-! ## Log levels -/

/-- Modelled from the spec: `vtkPlusLogger::LOG_LEVEL_UNDEFINED`, declared in the logger header
that is not part of the sources; the level list of the data model starts at Undefined = 0. -/
def LOG_LEVEL_UNDEFINED : Int := 0

/-- Modelled from the spec: `vtkPlusLogger::LOG_LEVEL_ERROR`. -/
def LOG_LEVEL_ERROR : Int := 1

/-- Modelled from the spec: `vtkPlusLogger::LOG_LEVEL_WARNING`. -/
def LOG_LEVEL_WARNING : Int := 2

/-- Modelled from the spec: `vtkPlusLogger::LOG_LEVEL_INFO`, the floor level. -/
def LOG_LEVEL_INFO : Int := 3

/-- Modelled from the spec: `vtkPlusLogger::LOG_LEVEL_DEBUG`. -/
def LOG_LEVEL_DEBUG : Int := 4

/-- Modelled from the spec: `vtkPlusLogger::LOG_LEVEL_TRACE`. -/
def LOG_LEVEL_TRACE : Int := 5

/-! ## Processes and the instance table -/

/-- The values of `QProcess::state()`. -/
inductive ProcessState
  | NotRunning
  | Starting
  | Running
  deriving DecidableEq, Repr

/-- A `QProcess*`: the address of the object and the state `state()` reports. -/
structure QProcess where
  ptr : Nat
  state : ProcessState
  deriving DecidableEq, Repr

/-- The type of `m_ServerInstances`, a `std::map<std::string, QProcess*>`, as an association
list. Every operation below treats it as a map: a key is looked up, assigned or erased as a
whole. -/
abbrev ServerMap := List (String × QProcess)

/-- The call `m_ServerInstances.find(key)`, with `none` for `end()`. -/
def mapFind : ServerMap → String → Option QProcess
  | [], _ => none
  | (k, v) :: rest, key => if k = key then some v else mapFind rest key

/-- The call `m_ServerInstances.erase(m_ServerInstances.find(key))`. -/
def mapErase : ServerMap → String → ServerMap
  | [], _ => []
  | (k, v) :: rest, key => if k = key then mapErase rest key else (k, v) :: mapErase rest key

/-- The assignment `m_ServerInstances[key] = value`. -/
def mapSet (m : ServerMap) (key : String) (value : QProcess) : ServerMap :=
  (key, value) :: mapErase m key

/-- The loop of `ServerExecutableFinished` over the table: the key of the first entry whose
process is the sender. -/
def mapFindProcess : ServerMap → Nat → Option String
  | [], _ => none
  | (k, v) :: rest, p => if v.ptr = p then some k else mapFindProcess rest p

/-- Path separators of `vtksys::SystemTools::GetFilenameName`. -/
def isPathSeparator (c : Char) : Bool := c = '/' || c = '\\'

/-- Modelled from the spec: `vtksys::SystemTools::GetFilenameName`, a library function that is
not part of the sources: the configuration basename, the file name component without any
directory, that is the text after the last path separator. -/
def GetFilenameName (filename : String) : String :=
  String.mk (filename.data.reverse.takeWhile (fun c => !isPathSeparator c)).reverse

/-! ## Commands and effects -/

/-- An `igtlioCommand` as far as the launcher fills it in: name, metadata and, for a response,
the success flag, the error message and the response metadata. -/
structure Command where
  name : String
  clientId : Int
  commandMetaData : List (String × String)
  successful : Bool
  errorMessage : String
  responseMetaData : List (String × String)
  deriving DecidableEq, Repr

/-- One call of `vtkPlusLogger::LogMessage` made for a line of server output. -/
structure LogRecord where
  level : Int
  message : List Char
  file : Option (List Char)
  lineNumber : Option Int
  optionalPrefix : Option String
  deriving DecidableEq, Repr

/-- The calls that leave the class. -/
inductive Effect
  /-- The call `QProcess::start` with the configuration path and `--verbose` value. -/
  | processStart (ptr : Nat) (configFilePath : String) (verbose : Int)
  /-- The call `QProcess::waitForFinished(msecs)`. -/
  | processWaitForFinished (ptr : Nat) (msecs : Nat)
  /-- The call `QProcess::terminate`. -/
  | processTerminate (ptr : Nat)
  /-- The call `QProcess::kill`. -/
  | processKill (ptr : Nat)
  /-- The statement `delete process`. -/
  | processDelete (ptr : Nat)
  /-- One of the `LOG_ERROR`, `LOG_WARNING`, `LOG_INFO` statements of the launcher. -/
  | launcherLog (level : Int) (message : String)
  /-- A `LogMessage` call for a line of server output. -/
  | logMessage (record : LogRecord)
  /-- The statement `std::string line = *lineIt` of `SendServerOutputToLogger`: the line is
  handed on to be parsed and logged. -/
  | lineTaken (line : List Char)
  /-- The call `SendCommand(command)`; `connected` is what `IsConnected()` answered, that is
  whether the command was handed to the connector. -/
  | sendCommand (command : Command) (connected : Bool)
  /-- The call `SendCommandResponse(command)`. -/
  | sendCommandResponse (command : Command)
  /-- The call `vtkPlusLogger::Instance()->RemoveObserver` on the log message callback. -/
  | removeLogObserver
  /-- The call `vtkPlusLogger::Instance()->AddObserver` of the log message callback, for
  `WideMessageLogged` when `wide`, else for `MessageLogged`. -/
  | addLogObserver (wide : Bool)
  deriving DecidableEq, Repr

/-- The members of `PlusServerLauncherMainWindow` and of its widgets that the supervisor
uses. -/
structure Launcher where
  /-- Member `m_ServerInstances`. -/
  m_ServerInstances : ServerMap
  /-- Member `m_LocalConfigFile`. -/
  m_LocalConfigFile : String
  /-- Member `m_Suffix`. -/
  m_Suffix : List Char
  /-- Member `m_LogIncompleteLine`. -/
  m_LogIncompleteLine : List Char
  /-- Member `m_RemoteControlLogSubscribedClients`, a `std::set<int>`. -/
  m_RemoteControlLogSubscribedClients : List Int
  /-- Whether `m_RemoteControlServerConnector` is non-null. -/
  m_RemoteControlServerConnector : Bool
  /-- What `m_RemoteControlServerConnector->IsConnected()` answers. -/
  connectorIsConnected : Bool
  /-- What `m_RemoteControlServerConnector->SendCommandResponse` answers. -/
  connectorSendsResponse : Bool
  /-- What `m_RemoteControlServerConnector->GetClientIds()` answers. -/
  connectorClientIds : List Int
  /-- Whether `ui.comboBox_LogLevel` is enabled. -/
  comboBox_LogLevel_enabled : Bool
  /-- The value `ui.comboBox_LogLevel->currentData().toInt()`. -/
  comboBox_LogLevel_currentData : Int
  /-- Whether `ui.checkBox_writePermission` is checked. -/
  checkBox_writePermission : Bool
  /-- Whether `ui.checkBox_overwritePermission` is checked. -/
  checkBox_overwritePermission : Bool
  /-- The flag behind `m_DeviceSetSelectorWidget->SetConnectionSuccessful`. -/
  connectionSuccessful : Bool
  /-- The text behind `m_DeviceSetSelectorWidget->SetDescriptionSuffix`. -/
  descriptionSuffix : List Char
  /-- The text behind `m_DeviceSetSelectorWidget->SetConnectButtonText`. -/
  connectButtonText : String
  /-- The address the next `new QProcess()` returns. -/
  nextProcess : Nat
  /-- The files of the device set configuration directory, by name. -/
  configFiles : List (String × List Char)
  /-- The calls made so far, oldest first. -/
  effects : List Effect
  deriving DecidableEq, Repr

/-- Append one call to the record of effects. -/
def Launcher.emit (s : Launcher) (e : Effect) : Launcher :=
  { s with effects := s.effects ++ [e] }

/-- The function `SendCommand`: the command goes to the connector when `IsConnected()`; a null
connector is dereferenced. -/
def SendCommand (s : Launcher) (command : Command) : Option Launcher :=
  if s.m_RemoteControlServerConnector then
    some (s.emit (Effect.sendCommand command s.connectorIsConnected))
  else none

/-- The command `SendServerStoppedCommand` builds: name `ServerStopped`, metadata
`ConfigFileName`. The command content, an XML rendering of the same values, is not part of
`Command`. -/
def serverStoppedCommand (configFilePath : String) : Command :=
  { name := "ServerStopped", clientId := 0,
    commandMetaData := [("ConfigFileName", configFilePath)],
    successful := false, errorMessage := "", responseMetaData := [] }

/-- The function `SendServerStoppedCommand`. -/
def SendServerStoppedCommand (s : Launcher) (configFilePath : String) : Option Launcher :=
  SendCommand s (serverStoppedCommand configFilePath)

/-! ## The timer of `StopServer`

`timePassedSec` is a `double` that grows by `retryDelayTimeoutSec = 0.3` per retry and is compared
with `totalTimeoutSec = 15`. A binary64 value `x` with `0 ≤ x < 64` that is a multiple of
`2^-54` is represented by the natural number `x * 2^54`; the three values above and every sum
formed by the loop are of that kind. -/

/-- The number of binary digits of `n`, for `n < 2^fuel`. -/
def bitLength : Nat → Nat → Nat
  | 0, _ => 0
  | fuel + 1, n => if n = 0 then 0 else bitLength fuel (n / 2) + 1

/-- Round a non-negative real `n * 2^-54` below 1024 to the nearest binary64 value, ties to
even: keep the 53 leading bits. -/
def roundToDouble (n : Nat) : Nat :=
  let bits := bitLength 64 n
  if bits ≤ 53 then n
  else
    let shift := bits - 53
    let q := n / 2 ^ shift
    let r := n % 2 ^ shift
    let half := 2 ^ (shift - 1)
    if half < r ∨ (r = half ∧ q % 2 = 1) then (q + 1) * 2 ^ shift else q * 2 ^ shift

/-- The binary64 sum `a + b`. -/
def doubleAdd (a b : Nat) : Nat := roundToDouble (a + b)

/-- The constant `retryDelayTimeoutSec = 0.3`: the binary64 value `0x1.3333333333333p-2`. -/
def retryDelayTimeoutSec : Nat := 5404319552844595

/-- The constant `totalTimeoutSec = 15`, converted to `double` for the comparison. -/
def totalTimeoutSec : Nat := 15 * 2 ^ 54

/-- The argument `retryDelayTimeoutSec * 1000` of `waitForFinished`: the binary64 product is
exactly 300. -/
def retryDelayMsec : Nat := 300

/-! ## Stopping a server -/

/-- The result of the polling loop of `StopServer`: the value of `forcedShutdown`, the number of
waits that returned false, and the calls the loop made. -/
structure StopLoopResult where
  forcedShutdown : Bool
  unsuccessfulWaits : Nat
  calls : List Effect
  deriving DecidableEq, Repr

/-- The loop `while (!process->waitForFinished(retryDelayTimeoutSec * 1000))` of `StopServer`.
The argument `waitForFinished i` is what the call number `i` (from 0) on the child returns,
`waits` counts the calls made so far and `timePassedSec` is the accumulated time. The first
argument bounds the number of iterations; `none` means the bound was reached. -/
def stopLoop (waitForFinished : Nat → Bool) (ptr : Nat) :
    Nat → Nat → Nat → List Effect → Option StopLoopResult
  | 0, _, _, _ => none
  | fuel + 1, waits, timePassedSec, calls =>
    let calls := calls ++ [Effect.processWaitForFinished ptr retryDelayMsec]
    if waitForFinished waits then
      some { forcedShutdown := false, unsuccessfulWaits := waits, calls := calls }
    else
      let calls := calls ++ [Effect.processTerminate ptr]
      let timePassedSec := doubleAdd timePassedSec retryDelayTimeoutSec
      if totalTimeoutSec < timePassedSec then
        let calls := calls ++
          [Effect.launcherLog LOG_LEVEL_WARNING
            "Server process did not stop on request, force it to quit now",
           Effect.processKill ptr]
        some { forcedShutdown := true, unsuccessfulWaits := waits + 1, calls := calls }
      else
        stopLoop waitForFinished ptr fuel (waits + 1) timePassedSec calls

/-- The value of `timePassedSec` after `n` retries: `n` binary64 additions of 0.3 to 0. The
sums are rounded, and the fiftieth is 15.000000000000014, the first above 15. -/
def timeAfter : Nat → Nat
  | 0 => 0
  | n + 1 => doubleAdd (timeAfter n) retryDelayTimeoutSec

/-- The calls of a polling loop that saw `n` unsuccessful waits: each followed by a new
termination request, then either the warning and the kill or the wait that succeeded. -/
def pollingCalls (ptr : Nat) : Nat → Bool → List Effect
  | 0, true =>
    [Effect.launcherLog LOG_LEVEL_WARNING
      "Server process did not stop on request, force it to quit now",
     Effect.processKill ptr]
  | 0, false => [Effect.processWaitForFinished ptr retryDelayMsec]
  | n + 1, forced =>
    Effect.processWaitForFinished ptr retryDelayMsec :: Effect.processTerminate ptr ::
      pollingCalls ptr n forced

/-- A bound on the iterations of the polling loop that it never reaches. -/
def stopLoopFuel : Nat := 64

/-- The function `StopServer`; `waitForFinished i` is what the wait number `i` on the child
returns. The result is the returned flag and the state afterwards. -/
def StopServer (s : Launcher) (configFilePath : String) (waitForFinished : Nat → Bool) :
    Option (Bool × Launcher) :=
  match mapFind s.m_ServerInstances (GetFilenameName configFilePath) with
  | none =>
    -- Server at config file isn't running
    some (true, s)
  | some process =>
    let stopped : Option (Bool × Launcher) :=
      if process.state = ProcessState.Running then
        let s1 := (s.emit (Effect.processTerminate process.ptr)).emit
          (Effect.launcherLog LOG_LEVEL_INFO "Server process stop request sent successfully")
        match stopLoop waitForFinished process.ptr stopLoopFuel 0 0 [] with
        | none => none
        | some r =>
          let s2 := { s1 with effects := s1.effects ++ r.calls }
          let s3 := s2.emit (Effect.launcherLog LOG_LEVEL_INFO "Server process stopped successfully")
          some (r.forcedShutdown, { s3 with comboBox_LogLevel_enabled := true })
      else some (false, s)
    match stopped with
    | none => none
    | some (forcedShutdown, s4) =>
      let s5 := s4.emit (Effect.processDelete process.ptr)
      let s6 := { s5 with
        m_ServerInstances := mapErase s5.m_ServerInstances (GetFilenameName configFilePath) }
      let s7 : Launcher :=
        if s6.m_RemoteControlServerConnector then
          s6.emit (Effect.sendCommand
            (serverStoppedCommand (GetFilenameName (GetFilenameName configFilePath)))
            s6.connectorIsConnected)
        else s6
      some (!forcedShutdown, { s7 with m_Suffix := [] })

/-- The function `LocalStopServer`. -/
def LocalStopServer (s : Launcher) (waitForFinished : Nat → Bool) : Option (Bool × Launcher) :=
  match mapFind s.m_ServerInstances (GetFilenameName s.m_LocalConfigFile) with
  | none =>
    -- Server at config file isn't running
    some (true, s)
  | some _ =>
    match StopServer s (GetFilenameName s.m_LocalConfigFile) waitForFinished with
    | none => none
    | some (result, s1) => some (result, { s1 with m_LocalConfigFile := "" })

/-- The function `ConnectToDevicesByConfigFile` called with the empty string, which is how
`ServerExecutableFinished` calls it: stop the local server if there is one, then the
disconnect branch. -/
def ConnectToDevicesByConfigFile_disconnect (s : Launcher) (waitForFinished : Nat → Bool) :
    Option Launcher :=
  let stopped : Option Launcher :=
    if s.m_LocalConfigFile ≠ "" then (LocalStopServer s waitForFinished).map Prod.snd
    else some s
  match stopped with
  | none => none
  | some s1 =>
    let s2 := s1.emit (Effect.launcherLog LOG_LEVEL_INFO "Disconnect request successful")
    some { s2 with descriptionSuffix := [], connectionSuccessful := false,
                   connectButtonText := "Launch server" }

/-! ## Process callbacks -/

/-- The values of `QProcess::ProcessError`. -/
inductive ProcessError
  | FailedToStart
  | Crashed
  | Timedout
  | ReadError
  | WriteError
  | UnknownError
  deriving DecidableEq, Repr

/-- The string `ErrorReceived` logs for an error code. -/
def errorString : ProcessError → String
  | .FailedToStart => "FailedToStart"
  | .Crashed => "Crashed"
  | .Timedout => "Timedout"
  | .WriteError => "WriteError"
  | .ReadError => "ReadError"
  | .UnknownError => "UnknownError"

/-- The slot `ErrorReceived`. -/
def ErrorReceived (s : Launcher) (errorCode : ProcessError) : Launcher :=
  let s1 := s.emit (Effect.launcherLog LOG_LEVEL_ERROR
    ("Server process error: " ++ errorString errorCode))
  { s1 with connectionSuccessful := false }

/-- The statement `ServerExecutableFinished` logs first: `LOG_INFO` for return code 0,
`LOG_ERROR` otherwise. -/
def finishedLog (returnCode : Int) : Effect :=
  if returnCode = 0 then Effect.launcherLog LOG_LEVEL_INFO "Server process terminated."
  else Effect.launcherLog LOG_LEVEL_ERROR
    ("Server stopped unexpectedly. Return code: " ++ toString returnCode)

/-- The slot `ServerExecutableFinished`; `sender` is the address of the finished process, that
is `dynamic_cast<QProcess*>(sender())`, with `none` for a null result. -/
def ServerExecutableFinished (s : Launcher) (sender : Option Nat) (returnCode : Int)
    (waitForFinished : Nat → Bool) : Option Launcher :=
  let s1 := s.emit (finishedLog returnCode)
  let found : Option String :=
    match sender with
    | none => none
    | some finishedProcess => mapFindProcess s1.m_ServerInstances finishedProcess
  let configFileName : String := found.getD ""
  let s2 : Launcher :=
    match found with
    | none => s1
    | some key => { s1 with m_ServerInstances := mapErase s1.m_ServerInstances key }
  let reset : Option Launcher :=
    if GetFilenameName s2.m_LocalConfigFile = configFileName then
      match ConnectToDevicesByConfigFile_disconnect s2 waitForFinished with
      | none => none
      | some s3 => some { s3 with comboBox_LogLevel_enabled := true, connectionSuccessful := false }
    else some s2
  match reset with
  | none => none
  | some s4 => SendServerStoppedCommand s4 configFileName

/-! ## Starting a server -/

/-- What happens to the new child during `start` and `waitForFinished(500)`. -/
inductive StartOutcome
  /-- The child is running when the wait times out; no signal was emitted. -/
  | running
  /-- The child is still being started when the wait times out, `state()` is `Starting`; no
  signal was emitted. -/
  | starting
  /-- The executable could not be started: `error(FailedToStart)` is emitted, `finished` is
  not. -/
  | failedToStart
  /-- The child started and exited within the wait: `finished(returnCode)` is emitted, after
  `error(Crashed)` when it crashed. -/
  | exited (returnCode : Int) (crashed : Bool)
  deriving DecidableEq, Repr

/-- The value `logLevelToPlusServer` computed by `StartServer`. -/
def logLevelToPlusServer (comboBoxLogLevel logLevel : Int) : Int :=
  if logLevel = LOG_LEVEL_UNDEFINED then max comboBoxLogLevel LOG_LEVEL_INFO
  else max logLevel LOG_LEVEL_INFO

/-- The function `StartServer`. The argument `outcome` is what the child does during the wait
and `waitForFinished` answers the waits of a `StopServer` run by a slot during the wait. -/
def StartServer (s : Launcher) (configFilePath : String) (logLevel : Int)
    (outcome : StartOutcome) (waitForFinished : Nat → Bool) : Option (Bool × Launcher) :=
  let key := GetFilenameName configFilePath
  let newServerProcess : Nat := s.nextProcess
  let created : QProcess := { ptr := newServerProcess, state := ProcessState.NotRunning }
  let s1 := { s with
    nextProcess := s.nextProcess + 1,
    m_ServerInstances := mapSet s.m_ServerInstances key created }
  let verbose := logLevelToPlusServer s1.comboBox_LogLevel_currentData logLevel
  let s2 := (s1.emit (Effect.launcherLog LOG_LEVEL_INFO "Server process command line")).emit
    (Effect.processStart newServerProcess configFilePath verbose)
  let s3 := s2.emit (Effect.processWaitForFinished newServerProcess 500)
  -- what the child does while the launcher waits, and the slots that run
  let waited : Option Launcher :=
    match outcome with
    | .running =>
      let started : QProcess := { ptr := newServerProcess, state := ProcessState.Running }
      some { s3 with m_ServerInstances := mapSet s3.m_ServerInstances key started }
    | .starting =>
      let pending : QProcess := { ptr := newServerProcess, state := ProcessState.Starting }
      some { s3 with m_ServerInstances := mapSet s3.m_ServerInstances key pending }
    | .failedToStart => some (ErrorReceived s3 ProcessError.FailedToStart)
    | .exited returnCode crashed =>
      let s4 := if crashed then ErrorReceived s3 ProcessError.Crashed else s3
      ServerExecutableFinished s4 (some newServerProcess) returnCode waitForFinished
  match waited with
  | none => none
  | some s5 =>
    if (mapFind s5.m_ServerInstances key).isSome ∧ outcome = StartOutcome.running then
      let s6 := s5.emit (Effect.launcherLog LOG_LEVEL_INFO "Server process started successfully")
      some (true, { s6 with comboBox_LogLevel_enabled := false })
    else
      some (false, s5.emit (Effect.launcherLog LOG_LEVEL_ERROR "Failed to start server process"))

/-! ## Text helpers of the output handler -/

/-- The function `ReplaceStringInPlace` at its one call, with search string `"\r\n"` and
replacement `"\n"`: every occurrence found from left to right is replaced, and the search goes
on behind the replacement. -/
def ReplaceStringInPlace : List Char → List Char
  | [] => []
  | [c] => [c]
  | c :: d :: rest =>
    if c = '\r' ∧ d = '\n' then '\n' :: ReplaceStringInPlace rest
    else c :: ReplaceStringInPlace (d :: rest)

/-- The pieces of a text between the occurrences of a delimiter. -/
def splitOnChar (delim : Char) : List Char → List (List Char)
  | [] => [[]]
  | c :: rest =>
    if c = delim then [] :: splitOnChar delim rest
    else
      match splitOnChar delim rest with
      | [] => [[c]]
      | piece :: pieces => (c :: piece) :: pieces

/-- Modelled from the spec: `igsioCommon::SplitStringIntoTokens(s, delim, elems, false)`, a
library function that is not part of the sources: split on the delimiter and leave out the
empty parts. -/
def SplitStringIntoTokens (s : List Char) (delim : Char) : List (List Char) :=
  (splitOnChar delim s).filter (fun piece => piece ≠ [])

/-- The characters `igsioCommon::Trim` removes. -/
def isTrimmed (c : Char) : Bool := c = ' ' || c = '\t' || c = '\r' || c = '\n'

/-- Modelled from the spec: `igsioCommon::Trim`, a library function that is not part of the
sources: remove the whitespace at the end and at the start. The caller passes a line or a token
of a vector by reference, and the text is trimmed in place. -/
def Trim (str : List Char) : List Char :=
  (str.rdropWhile isTrimmed).dropWhile isTrimmed

/-- ASCII lower case, for `igsioCommon::IsEqualInsensitive`. -/
def lowerAscii (c : Char) : Char :=
  if 'A' ≤ c ∧ c ≤ 'Z' then Char.ofNat (c.toNat + 32) else c

/-- Modelled from the spec: `igsioCommon::IsEqualInsensitive`, a library function that is not
part of the sources: equality of two texts ignoring case. -/
def IsEqualInsensitive (a b : List Char) : Bool :=
  a.map lowerAscii = b.map lowerAscii

/-- Modelled from the spec: `vtkPlusLogger::GetLogLevelType`, a library function that is not
part of the sources: the level a severity name stands for, `LOG_LEVEL_UNDEFINED` for a text
that is no severity name. -/
def GetLogLevelType (name : List Char) : Int :=
  if IsEqualInsensitive name "ERROR".data then LOG_LEVEL_ERROR
  else if IsEqualInsensitive name "WARNING".data then LOG_LEVEL_WARNING
  else if IsEqualInsensitive name "INFO".data then LOG_LEVEL_INFO
  else if IsEqualInsensitive name "DEBUG".data then LOG_LEVEL_DEBUG
  else if IsEqualInsensitive name "TRACE".data then LOG_LEVEL_TRACE
  else LOG_LEVEL_UNDEFINED

/-- The test `hay.find(needle) != std::string::npos`. -/
def hasSubstring : List Char → List Char → Bool
  | [], needle => needle.isEmpty
  | c :: rest, needle => needle.isPrefixOf (c :: rest) || hasSubstring rest needle

/-- The call `str.find_last_of(c)`, with `none` for `npos`. -/
def findLastOf (c : Char) : List Char → Option Nat
  | [] => none
  | x :: rest =>
    match findLastOf c rest with
    | some i => some (i + 1)
    | none => if x = c then some 0 else none

/-- Subtraction of two `size_t` values. -/
def sizeSub (a b : Nat) : Nat := (a + 2 ^ 64 - b % 2 ^ 64) % 2 ^ 64

/-- The call `str.substr(pos, count)`; `none` when it throws `std::out_of_range`. -/
def substr (str : List Char) (pos count : Nat) : Option (List Char) :=
  if str.length < pos then none else some ((str.drop pos).take count)

/-- The digits at the start of a text and their value. -/
def readDigits : List Char → Nat → Nat
  | [], acc => acc
  | c :: rest, acc => if c.isDigit then readDigits rest (10 * acc + (c.toNat - 48)) else acc

/-- The extraction `lineNumberStr >> lineNumber` into an `int` that starts as 0: leading
whitespace, an optional sign and decimal digits; 0 when there is no digit, the nearest `int`
when the value is out of range. -/
def streamReadInt (text : List Char) : Int :=
  let body := text.dropWhile (fun c => c.isWhitespace || c = '\x0b' || c = '\x0c')
  let clamp (v : Int) : Int := max (-(2 ^ 31)) (min (2 ^ 31 - 1) v)
  match body with
  | '-' :: digits => clamp (-(readDigits digits 0 : Int))
  | '+' :: digits => clamp (readDigits digits 0)
  | digits => clamp (readDigits digits 0)

/-! ## Parsing and logging the server output -/

/-- The function `ParseContent`. -/
def ParseContent (s : Launcher) (message : List Char) : Launcher :=
  if hasSubstring message "Plus OpenIGTLink server listening on IPs:".data then
    { s with m_Suffix := s.m_Suffix ++ message ++ ['\n'],
             descriptionSuffix := s.m_Suffix ++ message ++ ['\n'] }
  else if hasSubstring message "Server status: Server(s) are running.".data then
    { s with connectionSuccessful := true, connectButtonText := "Stop server" }
  else if hasSubstring message "Server status: ".data then
    { s with descriptionSuffix := message }
  else s

/-- How a run of the output handler ends: with a state, with an access out of range (an
iterator at `end()` is dereferenced or advanced, `substr` throws), or at the bound on the
number of iterations. -/
inductive Outcome (α : Type)
  | ok (value : α)
  | outOfRange
  | outOfFuel
  deriving DecidableEq, Repr

/-- The loop `for (it = tokens.begin(); it != tokens.end(); ++it)` that removes the empty
tokens: the token at `it` is trimmed in place; an empty one is erased and `it` goes back to
`begin()`, after which the increment of the loop moves it to the second token. When the erased
token was the only one, `it` is `end()` and the increment is out of range. -/
def removeEmptyTokens : Nat → List (List Char) → Nat → Outcome (List (List Char))
  | 0, _, _ => Outcome.outOfFuel
  | fuel + 1, tokens, it =>
    match tokens[it]? with
    | none => Outcome.ok tokens
    | some token =>
      if Trim token = [] then
        if tokens.eraseIdx it = [] then Outcome.outOfRange
        else removeEmptyTokens fuel (tokens.eraseIdx it) 1
      else removeEmptyTokens fuel (tokens.set it (Trim token)) (it + 1)

/-- A bound on the iterations of a loop over a vector of `n` entries that erases entries and
starts again. -/
def eraseLoopFuel (n : Nat) : Nat := (n + 1) * (n + 1)

/-- The local variables `logLevel`, `timeStamp`, `message` and `location` of the branch for a
line that starts with a severity name. -/
structure ParsedLine where
  logLevel : Int
  timeStamp : List Char
  message : List Char
  location : List Char
  deriving DecidableEq, Repr

/-- The four fields taken from the tokens, with the placeholder for a token that is missing. -/
def parseTokens (tokens : List (List Char)) : ParsedLine :=
  { logLevel := GetLogLevelType (tokens.getD 0 []),
    timeStamp := match tokens[1]? with
      | some token => token
      | none => "time???".data,
    message := match tokens[2]? with
      | some token => token
      | none => "message???".data,
    location := match tokens[3]? with
      | some token => token
      | none => "location???".data }

/-- How the body of the loop over the lines ends for one line. -/
inductive LineStep
  /-- The body reached its end; the loop goes on. -/
  | next (s : Launcher)
  /-- The statement `return` after "Cannot parse" left the function. -/
  | returned (s : Launcher)
  /-- An access out of range. -/
  | outOfRange
  /-- The bound on the iterations of the loop over the tokens was reached. -/
  | outOfFuel
  deriving DecidableEq, Repr

/-- The body of the loop over the lines from `std::string line = *lineIt` on: parse and log
one line. -/
def processLine (s : Launcher) (line : List Char) : LineStep :=
  if '|' ∈ line then
    match removeEmptyTokens (eraseLoopFuel (SplitStringIntoTokens line '|').length)
        (SplitStringIntoTokens line '|') 0 with
    | Outcome.outOfFuel => LineStep.outOfFuel
    | Outcome.outOfRange => LineStep.outOfRange
    | Outcome.ok tokens =>
      if tokens.length = 0 then
        LineStep.returned (s.emit (Effect.launcherLog LOG_LEVEL_ERROR
          "Incorrectly formatted message received from server. Cannot parse."))
      else if GetLogLevelType (tokens.getD 0 []) ≠ LOG_LEVEL_UNDEFINED then
        let parsed := parseTokens tokens
        if '(' ∉ parsed.location ∨ ')' ∉ parsed.location then
          -- Malformed server message, print as is
          LineStep.next (s.emit (Effect.logMessage
            { level := parsed.logLevel, message := parsed.message, file := none,
              lineNumber := none, optionalPrefix := none }))
        else
          let lastOpen := (findLastOf '(' parsed.location).getD 0
          let lastClose := (findLastOf ')' parsed.location).getD 0
          match substr parsed.location 4 (sizeSub lastOpen 4),
                substr parsed.location (lastOpen + 1) (sizeSub (sizeSub lastClose lastOpen) 1) with
          | some file, some lineNumberStr =>
            -- Only parse for content if the line was successfully parsed for logging
            let s1 := ParseContent s parsed.message
            LineStep.next (s1.emit (Effect.logMessage
              { level := parsed.logLevel, message := parsed.message, file := some file,
                lineNumber := some (streamReadInt lineNumberStr),
                optionalPrefix := some "SERVER" }))
          | _, _ => LineStep.outOfRange
      else LineStep.next s
  else
    ParseContent (s.emit (Effect.logMessage
      { level := LOG_LEVEL_INFO, message := line, file := none, lineNumber := none,
        optionalPrefix := some "SERVER" })) line |> LineStep.next

/-- The loop `for (lineIt = lines.begin(); lineIt != lines.end(); ++lineIt)`. The line at
`lineIt` is trimmed in place; an empty one is erased and `lineIt` goes back to `begin()`. Then
the line `lineIt` now points at is either kept as the incomplete line or handed on. -/
def linesLoop (logLineIncomplete : Bool) :
    Nat → List (List Char) → Nat → Launcher → Outcome Launcher
  | 0, _, _, _ => Outcome.outOfFuel
  | fuel + 1, lines, lineIt, s =>
    match lines[lineIt]? with
    | none => Outcome.ok s
    | some raw =>
      let lines1 := if Trim raw = [] then lines.eraseIdx lineIt else lines.set lineIt (Trim raw)
      let lineIt1 := if Trim raw = [] then 0 else lineIt
      match lines1[lineIt1]? with
      | none => Outcome.outOfRange
      | some line =>
        if logLineIncomplete ∧ lineIt1 + 1 = lines1.length then
          -- The last line in the string is incomplete
          linesLoop logLineIncomplete fuel lines1 (lineIt1 + 1)
            { s with m_LogIncompleteLine := line }
        else
          match processLine (s.emit (Effect.lineTaken line)) line with
          | LineStep.next s1 => linesLoop logLineIncomplete fuel lines1 (lineIt1 + 1) s1
          | LineStep.returned s1 => Outcome.ok s1
          | LineStep.outOfRange => Outcome.outOfRange
          | LineStep.outOfFuel => Outcome.outOfFuel

/-- The function `SendServerOutputToLogger`; `strData` is the text of the chunk. -/
def SendServerOutputToLogger (s : Launcher) (strData : List Char) : Outcome Launcher :=
  if strData = [] then Outcome.ok s
  else
    -- De-windows-ifiy
    let replaced := ReplaceStringInPlace strData
    -- If there is still an incomplete line, prepend it to the incoming string
    let logString := if s.m_LogIncompleteLine ≠ [] then s.m_LogIncompleteLine ++ replaced
      else replaced
    let s1 := if s.m_LogIncompleteLine ≠ [] then { s with m_LogIncompleteLine := [] } else s
    let logLineIncomplete : Bool := logString.getLast? ≠ some '\n'
    if '\n' ∈ logString then
      linesLoop logLineIncomplete (eraseLoopFuel (SplitStringIntoTokens logString '\n').length)
        (SplitStringIntoTokens logString '\n') 0 s1
    else
      -- No newline. String is incomplete
      Outcome.ok { s1 with m_LogIncompleteLine := logString }

/-- Feed the chunks of child output one after another. -/
def feedChunks : Launcher → List (List Char) → Outcome Launcher
  | s, [] => Outcome.ok s
  | s, chunk :: chunks =>
    match SendServerOutputToLogger s chunk with
    | Outcome.ok s1 => feedChunks s1 chunks
    | Outcome.outOfRange => Outcome.outOfRange
    | Outcome.outOfFuel => Outcome.outOfFuel

/-- The lines handed on to parsing, in order, as the record of calls shows them. -/
def linesTaken : List Effect → List (List Char)
  | [] => []
  | Effect.lineTaken line :: rest => line :: linesTaken rest
  | _ :: rest => linesTaken rest

/-- The log records written for lines of server output, in order. -/
def logRecords : List Effect → List LogRecord
  | [] => []
  | Effect.logMessage record :: rest => record :: logRecords rest
  | _ :: rest => logRecords rest

/-- The tokens that are not empty after trimming, trimmed. -/
def nonEmptyTokens (tokens : List (List Char)) : List (List Char) :=
  (tokens.map Trim).filter (fun token => token ≠ [])

/-- What the chunk boundary property compares with: the segments of the whole text between
newlines, trimmed, without those that are empty after trimming. -/
def trimmedSegments (text : List Char) : List (List Char) :=
  ((splitOnChar '\n' text).map Trim).filter (fun segment => segment ≠ [])

/-! ## The remote control commands -/

/-- A `vtkXMLDataElement`: name, attributes and nested elements. -/
inductive XMLDataElement
  | mk (name : String) (attributes : List (String × String)) (nested : List XMLDataElement)

/-- The call `GetName()`. -/
def XMLDataElement.name : XMLDataElement → String
  | .mk name _ _ => name

/-- The call `GetAttribute(key)`, with `none` for a null pointer. -/
def XMLDataElement.getAttribute : XMLDataElement → String → Option String
  | .mk _ attributes _, key => (attributes.find? (fun a => a.1 = key)).map Prod.snd

/-- The nested elements, in document order. -/
def XMLDataElement.nested : XMLDataElement → List XMLDataElement
  | .mk _ _ nested => nested

/-- What the world outside the launcher answers while one command is handled. -/
structure Environment where
  /-- What the child of a `StartServer` does during the wait. -/
  startOutcome : StartOutcome
  /-- What the waits of a `StopServer` return. -/
  waitForFinished : Nat → Bool
  /-- Whether `vtkDirectory::Open` opens the device set configuration directory. -/
  directoryOpens : Bool
  /-- Whether the `std::fstream` of `AddOrUpdateConfigFile` opens the file for writing. -/
  fileOpens : Bool
  /-- The parser `vtkXMLUtilities::ReadElementFromFile`, on the content of a file. -/
  ReadElementFromFile : List Char → Option XMLDataElement

/-- The call `FileExists` on a file of the device set configuration directory. -/
def FileExists (files : List (String × List Char)) (name : String) : Bool :=
  files.any (fun f => f.1 = name)

/-- The content of a file of the directory. -/
def fileContent (files : List (String × List Char)) (name : String) : Option (List Char) :=
  (files.find? (fun f => f.1 = name)).map Prod.snd

/-- The call `RemoveFile`. -/
def RemoveFile (files : List (String × List Char)) (name : String) : List (String × List Char) :=
  files.filter (fun f => f.1 ≠ name)

/-- Create the file or replace its content. -/
def writeFile (files : List (String × List Char)) (name : String) (content : List Char) :
    List (String × List Char) :=
  RemoveFile files name ++ [(name, content)]

/-- The call `CopyAFile(source, destination)`. -/
def CopyAFile (files : List (String × List Char)) (source destination : String) :
    List (String × List Char) :=
  match fileContent files source with
  | some content => writeFile files destination content
  | none => files

/-- The call `command->GetCommandMetaDataElement(key, value, encoding)`, with `none` for
false. -/
def GetCommandMetaDataElement (command : Command) (key : String) : Option String :=
  (command.commandMetaData.find? (fun m => m.1 = key)).map Prod.snd

/-- The call `command->SetResponseMetaDataElement(key, value)`. -/
def SetResponseMetaDataElement (command : Command) (key value : String) : Command :=
  { command with
    responseMetaData := command.responseMetaData.filter (fun m => m.1 ≠ key) ++ [(key, value)] }

/-- A failure response: `SetSuccessful(false)` and `SetErrorMessage(message)`. -/
def failureResponse (command : Command) (message : String) : Command :=
  { command with successful := false, errorMessage := message }

/-- The function `SendCommandResponse`, followed by the statement every caller has:
`LOG_ERROR("Command received but response could not be sent.")` when it failed. The result is
whether the response was sent. -/
def SendCommandResponse (s : Launcher) (command : Command) : Option (Bool × Launcher) :=
  if s.m_RemoteControlServerConnector then
    let s1 := s.emit (Effect.sendCommandResponse command)
    some (s.connectorSendsResponse,
      if s.connectorSendsResponse then s1
      else
        (s1.emit (Effect.launcherLog LOG_LEVEL_ERROR
          "Unable to send command response to client")).emit
            (Effect.launcherLog LOG_LEVEL_ERROR
              "Command received but response could not be sent."))
  else none

/-- Modelled from the spec: `vtksys::SystemTools::GetFilenameLastExtension`, a library function
that is not part of the sources: the text of the file name from its last dot on, empty when it
has no dot. -/
def GetFilenameLastExtension (filename : String) : String :=
  let name := (GetFilenameName filename).data
  if '.' ∈ name then
    String.mk ('.' :: (name.reverse.takeWhile (fun c => c ≠ '.')).reverse)
  else ""

/-- The function `GetConfigFiles`. -/
def GetConfigFiles (s : Launcher) (env : Environment) (command : Command) : Option Launcher :=
  if env.directoryOpens then
    let names := (s.configFiles.map Prod.fst).filter
      (fun file => IsEqualInsensitive (GetFilenameLastExtension file).data ".xml".data)
    let list := String.join (names.map (fun file => file ++ ";"))
    let response := SetResponseMetaDataElement
      (SetResponseMetaDataElement { command with successful := true } "ConfigFiles" list)
      "Separator" ";"
    (SendCommandResponse s response).map Prod.snd
  else
    (SendCommandResponse s
      (failureResponse command "Unable to open device set directory.")).map Prod.snd

/-- Modelled from the spec: `igsioCommon::ToString<int>`, a library function that is not part
of the sources: the decimal digits of the counter. -/
def ToString (i : Nat) : String := Nat.repr i

/-- The name `oldConfigFile + "[" + ToString(i) + "]"`. -/
def bracketedName (oldConfigFile : String) (i : Nat) : String :=
  oldConfigFile ++ "[" ++ ToString i ++ "]"

/-- The loop `while (FileExists(configFile))` of `AddOrUpdateConfigFile`, entered with an
existing file: the first of the names `old[i]`, `old[i+1]`, … that does not exist. The first
argument bounds the number of iterations; `none` means the bound was reached. -/
def findFreeName (files : List (String × List Char)) (oldConfigFile : String) :
    Nat → Nat → Option String
  | 0, _ => none
  | fuel + 1, i =>
    if FileExists files (bracketedName oldConfigFile i) then
      findFreeName files oldConfigFile fuel (i + 1)
    else some (bracketedName oldConfigFile i)

/-- The function `AddOrUpdateConfigFile`. -/
def AddOrUpdateConfigFile (s : Launcher) (env : Environment) (command : Command) :
    Option Launcher :=
  let hasFilename := GetCommandMetaDataElement command "ConfigFileName"
  let hasFileContent := GetCommandMetaDataElement command "ConfigFileContent"
  -- Check write permissions
  if ¬ s.checkBox_writePermission then
    let s1 := s.emit (Effect.launcherLog LOG_LEVEL_INFO
      "Request from client to add config file, but write permissions not enabled.")
    (SendCommandResponse s1 (failureResponse command "Write permission denied.")).map Prod.snd
  else
    match hasFilename, hasFileContent with
    | some requested, some configFileContent =>
      -- Strip any path sent over
      let stripped := GetFilenameName requested
      -- If filename already exists, check overwrite permissions
      let prepared : Option (String × Launcher) :=
        if FileExists s.configFiles stripped then
          if ¬ s.checkBox_overwritePermission then
            match findFreeName s.configFiles stripped (s.configFiles.length + 1) 0 with
            | none => none
            | some free =>
              some (free, s.emit (Effect.launcherLog LOG_LEVEL_INFO
                "Config file already exists. Changing name."))
          else
            -- Overwrite, backup in case writing of new file fails
            let backedUp := CopyAFile s.configFiles stripped (stripped ++ ".bak")
            some (stripped, { s with configFiles := RemoveFile backedUp stripped })
        else some (stripped, s)
      match prepared with
      | none => none
      | some (configFile, s1) =>
        if ¬ env.fileOpens then
          let restored :=
            if FileExists s1.configFiles (configFile ++ ".bak") then
              -- Restore backup
              CopyAFile s1.configFiles (configFile ++ ".bak") configFile
            else s1.configFiles
          let s2 := { s1 with configFiles := restored }
          match SendCommandResponse s2
              (failureResponse command "Unable to write to device set configuration directory.") with
          | none => none
          | some (true, s3) => some s3
          | some (false, s3) =>
            some { s3 with configFiles := RemoveFile s3.configFiles (configFile ++ ".bak") }
        else
          let written := writeFile s1.configFiles configFile configFileContent.data
          let s2 := { s1 with configFiles := written }
          match SendCommandResponse s2
              (SetResponseMetaDataElement { command with successful := true }
                "ConfigFileName" configFile) with
          | none => none
          | some (_, s3) =>
            some { s3 with configFiles := RemoveFile s3.configFiles (configFile ++ ".bak") }
    | _, _ =>
      (SendCommandResponse s (failureResponse command
        "Required metadata 'ConfigFileName' and/or 'ConfigFileContent' missing.")).map Prod.snd

/-- The function `RemoteStopServer`. The device set configuration path of a file name is the
name itself, relative to the directory. -/
def RemoteStopServer (s : Launcher) (env : Environment) (command : Command) : Option Launcher :=
  match GetCommandMetaDataElement command "ConfigFileName" with
  | none =>
    (SendCommandResponse s (failureResponse command "Config file not specified.")).map Prod.snd
  | some filename =>
    match StopServer s (GetFilenameName filename) env.waitForFinished with
    | none => none
    | some (_, s1) =>
      -- Forced stop or not, the server is down
      (SendCommandResponse s1
        (SetResponseMetaDataElement { command with successful := true }
          "ConfigFileName" filename)).map Prod.snd

/-- Modelled from the spec: `igsioCommon::StringToInt<int>`, a library function that is not
part of the sources: the integer a text spells out, `none` (failure) for the empty text and for
a text that is not an integer as a whole. The value is the one `strtol` gives in base 10, cast
to `int`, with a 64 bit `long`. -/
def StringToInt (text : List Char) : Option Int :=
  let body := text.dropWhile (fun c => c.isWhitespace || c = '\x0b' || c = '\x0c')
  let toInt (v : Int) : Int :=
    (max (-(2 ^ 63)) (min (2 ^ 63 - 1) v) + 2 ^ 31) % 2 ^ 32 - 2 ^ 31
  let digitsOnly (digits : List Char) : Bool := digits ≠ [] && digits.all Char.isDigit
  match body with
  | '-' :: digits =>
    if digitsOnly digits then some (toInt (-(readDigits digits 0 : Int))) else none
  | '+' :: digits => if digitsOnly digits then some (toInt (readDigits digits 0)) else none
  | digits => if digitsOnly digits then some (toInt (readDigits digits 0)) else none

/-- The text one nested element adds to the result of `GetServersFromConfigFile`. -/
def serverEntry (nestedElement : XMLDataElement) : String :=
  if nestedElement.name = "PlusOpenIGTLinkServer" then
    let serverNamePrefix :=
      (match nestedElement.getAttribute "OutputChannelId" with
        | some outputChannelId => outputChannelId
        | none => "PlusOpenIGTLinkServer") ++ ":"
    match nestedElement.getAttribute "ListeningPort" with
    | some port => serverNamePrefix ++ port ++ ";"
    | none => ""
  else ""

/-- The function `GetServersFromConfigFile`. -/
def GetServersFromConfigFile (s : Launcher) (env : Environment) (filename : String) : String :=
  match (fileContent s.configFiles filename).bind env.ReadElementFromFile with
  | some configFileElement => String.join (configFileElement.nested.map serverEntry)
  | none => ""

/-- The function `RemoteStartServer`. -/
def RemoteStartServer (s : Launcher) (env : Environment) (command : Command) : Option Launcher :=
  match GetCommandMetaDataElement command "ConfigFileName" with
  | none =>
    (SendCommandResponse s (failureResponse command "Config file not specified.")).map Prod.snd
  | some filename =>
    let logLevelString := (GetCommandMetaDataElement command "LogLevel").getD ""
    let logLevel := (StringToInt logLevelString.data).getD LOG_LEVEL_INFO
    match StartServer s (GetFilenameName filename) logLevel env.startOutcome
        env.waitForFinished with
    | none => none
    | some (false, s1) =>
      (SendCommandResponse s1
        (failureResponse command "Failed to start server process.")).map Prod.snd
    | some (true, s1) =>
      let servers := GetServersFromConfigFile s1 env filename
      (SendCommandResponse s1
        (SetResponseMetaDataElement
          (SetResponseMetaDataElement { command with successful := true }
            "ConfigFileName" filename)
          "Servers" servers)).map Prod.snd

/-- The function `OnCommandReceivedEvent`. -/
def OnCommandReceivedEvent (s : Launcher) (env : Environment) (command : Command) :
    Option Launcher :=
  let s1 := s.emit (Effect.launcherLog LOG_LEVEL_INFO
    ("Command \"" ++ command.name ++ "\" received."))
  if IsEqualInsensitive command.name.data "GetConfigFiles".data then
    GetConfigFiles s1 env command
  else if IsEqualInsensitive command.name.data "AddConfigFile".data then
    AddOrUpdateConfigFile s1 env command
  else if IsEqualInsensitive command.name.data "StartServer".data then
    RemoteStartServer s1 env command
  else if IsEqualInsensitive command.name.data "StopServer".data then
    RemoteStopServer s1 env command
  else if IsEqualInsensitive command.name.data "LogSubscribe".data then
    let inserted :=
      if command.clientId ∈ s1.m_RemoteControlLogSubscribedClients then
        s1.m_RemoteControlLogSubscribedClients
      else s1.m_RemoteControlLogSubscribedClients ++ [command.clientId]
    some { s1 with m_RemoteControlLogSubscribedClients := inserted }
  else if IsEqualInsensitive command.name.data "LogUnsubscribe".data then
    let erased := s1.m_RemoteControlLogSubscribedClients.filter (fun id => id ≠ command.clientId)
    some { s1 with m_RemoteControlLogSubscribedClients := erased }
  else some s1

/-- The responses sent, in order, as the record of calls shows them. -/
def responsesSent : List Effect → List Command
  | [] => []
  | Effect.sendCommandResponse command :: rest => command :: responsesSent rest
  | _ :: rest => responsesSent rest

/-- An environment in which the child starts and never exits on request, the directory and
the file open, and no file parses. -/
def Environment.plain : Environment :=
  { startOutcome := StartOutcome.running, waitForFinished := fun _ => false,
    directoryOpens := true, fileOpens := true, ReadElementFromFile := fun _ => none }

/-- A command with a name and metadata, from client 7, before any response is filled in. -/
def Command.received (name : String) (commandMetaData : List (String × String)) : Command :=
  { name := name, clientId := 7, commandMetaData := commandMetaData, successful := false,
    errorMessage := "", responseMetaData := [] }

/-! ## Notifications and log forwarding -/

/-- The slot `OnClientDisconnectedEvent`: the subscribed ids that are not among the connected
ones are queued, then each queued id is erased from the set. A null connector is
dereferenced. -/
def OnClientDisconnectedEvent (s : Launcher) : Option Launcher :=
  if s.m_RemoteControlServerConnector then
    let connectedClientIds := s.connectorClientIds
    let unsubscribedClients := s.m_RemoteControlLogSubscribedClients.filter
      (fun clientId => !(connectedClientIds.any (fun entry => entry = clientId)))
    let remaining := unsubscribedClients.foldl
      (fun subscribed clientId => subscribed.filter (fun id => id ≠ clientId))
      s.m_RemoteControlLogSubscribedClients
    some { s with m_RemoteControlLogSubscribedClients := remaining }
  else none

/-- The events the log message callback is called for. -/
inductive LogEvent
  | MessageLogged
  | WideMessageLogged
  /-- Any other event id: the message stays empty. -/
  | other
  deriving DecidableEq, Repr

/-- The command `OnLogEvent` builds for one subscribed client: name `LogMessage`, the client
id, and the metadata `Message`, `LogLevel` and `Origin`. -/
def logMessageCommand (clientId : Int) (message logLevel origin : String) : Command :=
  { name := "LogMessage", clientId := clientId,
    commandMetaData := [("Message", message), ("LogLevel", logLevel), ("Origin", origin)],
    successful := false, errorMessage := "", responseMetaData := [] }

/-- The loop of `OnLogEvent` over the subscribed clients: one `SendCommand` per id. -/
def sendToSubscribers (build : Int → Command) : Launcher → List Int → Option Launcher
  | s, [] => some s
  | s, clientId :: rest =>
    match SendCommand s (build clientId) with
    | none => none
    | some s1 => sendToSubscribers build s1 rest

/-- The callback `OnLogEvent`; `callData` is the text of the logged message. The subscribed
ids are visited in ascending order, the order of a `std::set<int>`. -/
def OnLogEvent (s : Launcher) (event : LogEvent) (callData : List Char) : Option Launcher :=
  -- Return if we are not connected. No client to send log messages to
  if ¬ s.m_RemoteControlServerConnector ∨ ¬ s.connectorIsConnected then some s
  -- Return if the client has not subscribed to log messages
  else if s.m_RemoteControlLogSubscribedClients = [] then some s
  else
    let s1 := s.emit Effect.removeLogObserver
    let logMessage : List Char :=
      match event with
      | LogEvent.MessageLogged => callData
      | LogEvent.WideMessageLogged => callData
      | LogEvent.other => []
    let tokens := SplitStringIntoTokens logMessage '|'
    let forwarded : Option Launcher :=
      if logMessage ≠ [] ∧ tokens.length > 0 then
        let logLevel := String.mk (tokens.getD 0 [])
        let messageOrigin :=
          if tokens.length > 2 ∧ hasSubstring logMessage "SERVER>".data then "SERVER"
          else "LAUNCHER"
        let logMessageString :=
          String.mk ((tokens.drop 1).map (fun token => '|' :: token)).flatten
        sendToSubscribers
          (fun clientId => logMessageCommand clientId logMessageString logLevel messageOrigin)
          s1 (s.m_RemoteControlLogSubscribedClients.insertionSort (fun a b => a ≤ b))
      else some s1
    -- Re-apply the log observers
    forwarded.map (fun s2 =>
      (s2.emit (Effect.addLogObserver false)).emit (Effect.addLogObserver true))

/-- Modelled from the spec: the enumerator `QVariant::Int` of the Qt library, which is what
the expression `currentData().Int` in `SendServerStartedCommand` denotes: the type id of `int`,
a constant that is 2 whatever the variant holds. -/
def QVariant_Int : Nat := 2

/-- The command `SendServerStartedCommand` builds: name `ServerStarted`, metadata `LogLevel`
and `ConfigFileName`, and `Servers` when the configuration file could be read. -/
def serverStartedCommand (logLevelString filename : String) (servers : Option String) :
    Command :=
  { name := "ServerStarted", clientId := 0,
    commandMetaData := [("LogLevel", logLevelString), ("ConfigFileName", filename)] ++
      (match servers with
        | some ports => [("Servers", ports)]
        | none => []),
    successful := false, errorMessage := "", responseMetaData := [] }

/-- The function `SendServerStartedCommand`. The file is read at the path given, the list of
servers from the file of that basename in the device set configuration directory. -/
def SendServerStartedCommand (s : Launcher) (env : Environment) (configFilePath : String) :
    Option Launcher :=
  let filename := GetFilenameName configFilePath
  let logLevelString := ToString QVariant_Int
  let servers : Option String :=
    match (fileContent s.configFiles configFilePath).bind env.ReadElementFromFile with
    | some _ => some (GetServersFromConfigFile s env filename)
    | none => none
  SendCommand s (serverStartedCommand logLevelString filename servers)

/-- Modelled from the spec: the default value of the parameter `logLevel` of `StartServer`,
declared in the header that is not part of the sources: the level Undefined, for which the
level selected in the window is used. -/
def StartServer_defaultLogLevel : Int := LOG_LEVEL_UNDEFINED

/-- The function `LocalStartServer`. -/
def LocalStartServer (s : Launcher) (env : Environment) : Option (Bool × Launcher) :=
  let filename := GetFilenameName s.m_LocalConfigFile
  match StartServer s filename StartServer_defaultLogLevel env.startOutcome
      env.waitForFinished with
  | none => none
  | some (false, s1) => some (false, s1)
  | some (true, s1) =>
    if s1.m_RemoteControlServerConnector then
      (SendServerStartedCommand s1 env s1.m_LocalConfigFile).map (fun s2 => (true, s2))
    else some (true, s1)

/-- The commands handed to `SendCommand`, in order, as the record of calls shows them. -/
def commandsSent : List Effect → List Command
  | [] => []
  | Effect.sendCommand command _ :: rest => command :: commandsSent rest
  | _ :: rest => commandsSent rest

/-- The commands that reached the connector, in order: the calls of `SendCommand` made while
`IsConnected()` held. -/
def commandsDelivered : List Effect → List Command
  | [] => []
  | Effect.sendCommand command true :: rest => command :: commandsDelivered rest
  | _ :: rest => commandsDelivered rest

/-- The `--verbose` values of the processes started, in order. -/
def verbositiesStarted : List Effect → List Int
  | [] => []
  | Effect.processStart _ _ verbose :: rest => verbose :: verbositiesStarted rest
  | _ :: rest => verbositiesStarted rest

/-- What the endpoint list is compared with: the direct child elements that are server
endpoints with a listening port, in document order. -/
def endpointsWithPort (root : XMLDataElement) : List XMLDataElement :=
  root.nested.filter (fun child =>
    child.name = "PlusOpenIGTLinkServer" ∧ (child.getAttribute "ListeningPort").isSome)

/-- The text `prefix:port` of an endpoint, with the fixed name when it has no
`OutputChannelId`. -/
def endpointText (endpoint : XMLDataElement) : String :=
  (endpoint.getAttribute "OutputChannelId").getD "PlusOpenIGTLinkServer" ++ ":" ++
    (endpoint.getAttribute "ListeningPort").getD ""

/-- What the new incomplete-line buffer is compared with: the text after the last newline of a
text, all of the text when it has no newline, nothing when it ends with a newline. -/
def textAfterLastNewline (text : List Char) : List Char :=
  (splitOnChar '\n' text).getLast?.getD []

/-- What the lines handed on are compared with: the lines of a text that end with a newline
and are not empty after trimming, in the order of the text. -/
def completeLines (text : List Char) : List (List Char) :=
  (splitOnChar '\n' text).dropLast.filter (fun line => Trim line ≠ [])

/-! ## Example states -/

/-- The state the constructor leaves when it is not asked to connect: no server, level Info
selected and enabled, the remote control connector created unless the port is disabled, no
client connected yet. -/
def Launcher.initial (remoteControl : Bool) : Launcher :=
  { m_ServerInstances := [], m_LocalConfigFile := "", m_Suffix := [], m_LogIncompleteLine := [],
    m_RemoteControlLogSubscribedClients := [], m_RemoteControlServerConnector := remoteControl,
    connectorIsConnected := false, connectorSendsResponse := true,
    connectorClientIds := [], comboBox_LogLevel_enabled := true,
    comboBox_LogLevel_currentData := LOG_LEVEL_INFO, checkBox_writePermission := false,
    checkBox_overwritePermission := false, connectionSuccessful := false,
    descriptionSuffix := [], connectButtonText := "Launch server",
    nextProcess := 0, configFiles := [], effects := [] }

/-- A launcher that tracks one running server for `setup.xml`, started from the remote control
channel by a client that is still connected, with a status suffix on display. -/
def Launcher.tracking : Launcher :=
  { Launcher.initial true with
    m_ServerInstances := [("setup.xml", { ptr := 0, state := ProcessState.Running })],
    m_Suffix := "listening\n".data, comboBox_LogLevel_enabled := false,
    connectorIsConnected := true, nextProcess := 1 }

/-- A launcher whose local server `setup.xml` is running and connected. -/
def Launcher.trackingLocal : Launcher :=
  { Launcher.tracking with
    m_LocalConfigFile := "config/setup.xml", connectionSuccessful := true,
    connectButtonText := "Stop server" }

/-- A child that never reacts to a termination request. -/
def neverExits : Nat → Bool := fun _ => false

/-- A child that exits during the third wait. -/
def exitsInThirdWait : Nat → Bool := fun i => decide (i = 2)

/-- A launcher whose remote control connector has a client connected. -/
def Launcher.remote : Launcher :=
  { Launcher.initial true with connectorIsConnected := true, connectorClientIds := [7] }

/-- A launcher that allows remote clients to write configuration files, with or without
overwriting, and has the file `a.xml` in the configuration directory. -/
def Launcher.writable (overwrite : Bool) : Launcher :=
  { Launcher.remote with
    checkBox_writePermission := true, checkBox_overwritePermission := overwrite,
    configFiles := [("a.xml", "old".data)] }

/-- A writable launcher without overwrite permission whose directory also holds a file named
`a.xml[0].bak`. -/
def Launcher.writableWithBackup : Launcher :=
  { Launcher.writable false with
    configFiles := [("a.xml", "old".data), ("a.xml[0].bak", "keep".data)] }

/-- The command `AddConfigFile` for `a.xml` with content `new`, sent with a directory in the
name. -/
def Command.addConfigFile : Command :=
  Command.received "AddConfigFile"
    [("ConfigFileName", "dir/a.xml"), ("ConfigFileContent", "new")]

/-- An environment in which the file cannot be opened for writing. -/
def Environment.readOnly : Environment :=
  { Environment.plain with fileOpens := false }

/-- A launcher under remote control with clients 7 and 9 connected and clients 7 and 3
subscribed to the log. -/
def Launcher.subscribed : Launcher :=
  { Launcher.initial true with
    connectorIsConnected := true
    connectorClientIds := [7, 9]
    m_RemoteControlLogSubscribedClients := [7, 3] }

/-- A configuration with one server endpoint, `OutputChannelId` OutputA and `ListeningPort`
18944, next to an element that is no endpoint. -/
def XMLDataElement.singleEndpoint : XMLDataElement :=
  .mk "PlusConfiguration" [("version", "2.1")]
    [.mk "DataCollection" [("StartupDelaySec", "1.0")] [],
     .mk "PlusOpenIGTLinkServer" [("OutputChannelId", "OutputA"), ("ListeningPort", "18944")] []]

/-- A configuration with an endpoint without port between an endpoint with and one without
`OutputChannelId`, and with an endpoint nested one level down. -/
def XMLDataElement.severalEndpoints : XMLDataElement :=
  .mk "PlusConfiguration" []
    [.mk "PlusOpenIGTLinkServer" [("ListeningPort", "18944"), ("OutputChannelId", "OutputA")] [],
     .mk "PlusOpenIGTLinkServer" [("OutputChannelId", "OutputB")] [],
     .mk "DataCollection" [("ListeningPort", "1")]
       [.mk "PlusOpenIGTLinkServer" [("ListeningPort", "18946")] []],
     .mk "PlusOpenIGTLinkServer" [("ListeningPort", "18945")] []]

/-- An environment as `Environment.plain` in which every file parses to the configuration
given. -/
def Environment.parsing (root : XMLDataElement) : Environment :=
  { startOutcome := StartOutcome.running, waitForFinished := fun _ => false,
    directoryOpens := true, fileOpens := true, ReadElementFromFile := fun _ => some root }

/-- A launcher under remote control with the file `setup.xml` in the configuration
directory. -/
def Launcher.withSetup : Launcher :=
  { Launcher.remote with configFiles := [("setup.xml", "<PlusConfiguration/>".data)] }

/-- A launcher under remote control whose local configuration is `setup.xml`, with the level
given selected in the window. -/
def Launcher.withLevel (level : Int) : Launcher :=
  { Launcher.withSetup with
    m_LocalConfigFile := "setup.xml"
    comboBox_LogLevel_currentData := level }

/-! # Properties -/

/-! ## The instance table -/

theorem mapFind_mapErase (m : ServerMap) (key k : String) :
    mapFind (mapErase m key) k = if k = key then none else mapFind m k := by
  induction m with
  | nil => simp [mapErase, mapFind]
  | cons e rest ih =>
    obtain ⟨k', v⟩ := e
    by_cases h1 : k' = key
    · subst h1
      by_cases h2 : k = k'
      · subst h2; simp [mapErase, ih]
      · have h3 : ¬ k' = k := fun h => h2 h.symm
        simp [mapErase, mapFind, ih, h2, h3]
    · by_cases h2 : k = key
      · subst h2; simp [mapErase, mapFind, ih, h1]
      · by_cases h3 : k' = k
        · subst h3; simp [mapErase, mapFind, h1]
        · simp [mapErase, mapFind, ih, h1, h2, h3]

theorem mapFind_mapSet (m : ServerMap) (key k : String) (v : QProcess) :
    mapFind (mapSet m key v) k = if k = key then some v else mapFind m k := by
  by_cases h : k = key
  · subst h; simp [mapSet, mapFind]
  · have h' : ¬ key = k := fun e => h e.symm
    simp [mapSet, mapFind, mapFind_mapErase, h, h']

theorem mapErase_filter_key (m : ServerMap) (key : String) :
    (mapErase m key).filter (fun e => e.1 = key) = [] := by
  induction m with
  | nil => simp [mapErase]
  | cons e rest ih =>
    obtain ⟨k', v⟩ := e
    by_cases h1 : k' = key
    · simp [mapErase, h1, ih]
    · simp [mapErase, h1, ih]

/-! ## The polling loop -/

theorem timeAfter_below : ∀ i < 50, ¬ totalTimeoutSec < timeAfter i := by decide

set_option maxRecDepth 100000 in
theorem timeAfter_fifty : totalTimeoutSec < timeAfter 50 := by decide

/-- From any point before the fiftieth retry the loop returns, with an explicit result. -/
theorem stopLoop_result (w : Nat → Bool) (ptr : Nat) :
    ∀ (fuel waits : Nat) (calls : List Effect), waits < 50 → 50 ≤ waits + fuel →
      ∃ n forced, stopLoop w ptr fuel waits (timeAfter waits) calls =
          some { forcedShutdown := forced, unsuccessfulWaits := waits + n,
                 calls := calls ++ pollingCalls ptr n forced } ∧
        waits + n ≤ 50 ∧
        (∀ i, waits ≤ i → i < waits + n → w i = false) ∧
        (forced = true → waits + n = 50) ∧
        (forced = false → waits + n < 50 ∧ w (waits + n) = true) := by
  intro fuel
  induction fuel with
  | zero => intro waits calls h1 h2; omega
  | succ fuel ih =>
    intro waits calls h1 h2
    by_cases hw : w waits = true
    · refine ⟨0, false, ?_, by omega, ?_, by simp, fun _ => ⟨by omega, by simpa using hw⟩⟩
      · simp [stopLoop, hw, pollingCalls]
      · intro i h3 h4; omega
    · have hw' : w waits = false := by simpa using hw
      by_cases ht : totalTimeoutSec < timeAfter (waits + 1)
      · have h50 : waits + 1 = 50 := by
          by_contra hne
          exact timeAfter_below (waits + 1) (by omega) ht
        refine ⟨1, true, ?_, by omega, ?_, by intro _; exact h50, by simp⟩
        · have ht' : totalTimeoutSec < doubleAdd (timeAfter waits) retryDelayTimeoutSec := ht
          simp [stopLoop, hw', ht', pollingCalls]
        · intro i h3 h4
          have : i = waits := by omega
          subst this; exact hw'
      · have hlt : waits + 1 < 50 := by
          by_contra hge
          have : waits + 1 = 50 := by omega
          rw [this] at ht
          exact ht timeAfter_fifty
        obtain ⟨n, forced, heq, hle, hall, hf, hnf⟩ :=
          ih (waits + 1) (calls ++ [Effect.processWaitForFinished ptr retryDelayMsec] ++
            [Effect.processTerminate ptr]) hlt (by omega)
        refine ⟨n + 1, forced, ?_, by omega, ?_, ?_, ?_⟩
        · have ht' : ¬ totalTimeoutSec < doubleAdd (timeAfter waits) retryDelayTimeoutSec := ht
          have e1 : waits + (n + 1) = waits + 1 + n := by omega
          have heq' : stopLoop w ptr fuel (waits + 1)
              (doubleAdd (timeAfter waits) retryDelayTimeoutSec)
              (calls ++ [Effect.processWaitForFinished ptr retryDelayMsec] ++
                [Effect.processTerminate ptr]) = _ := heq
          simp only [stopLoop, hw', ht', heq', e1]
          simp [pollingCalls]
        · intro i h3 h4
          by_cases hi : i = waits
          · subst hi; exact hw'
          · exact hall i (by omega) (by omega)
        · intro h; have := hf h; omega
        · intro h
          have := hnf h
          have e1 : waits + (n + 1) = waits + 1 + n := by omega
          rw [e1]; exact ⟨by omega, this.2⟩

/-- The polling loop of `StopServer` always returns. -/
theorem stopLoop_total (w : Nat → Bool) (ptr : Nat) :
    ∃ n forced, stopLoop w ptr stopLoopFuel 0 0 [] =
        some { forcedShutdown := forced, unsuccessfulWaits := n,
               calls := pollingCalls ptr n forced } ∧
      n ≤ 50 ∧ (∀ i < n, w i = false) ∧ (forced = true → n = 50) ∧
      (forced = false → n < 50 ∧ w n = true) := by
  obtain ⟨n, forced, heq, hle, hall, hf, hnf⟩ :=
    stopLoop_result w ptr stopLoopFuel 0 [] (by decide) (by decide)
  refine ⟨n, forced, ?_, by omega, ?_, ?_, ?_⟩
  · simpa [timeAfter] using heq
  · intro i hi; exact hall i (by omega) (by omega)
  · intro h; have := hf h; omega
  · intro h; simpa using hnf h

/-! ## `StopServer` -/

/-- The state `StopServer` leaves for a tracked process, given the flag of the combo box and the
calls made while the child was asked to stop. -/
theorem StopServer_running (s : Launcher) (configFilePath : String) (w : Nat → Bool)
    (p : QProcess)
    (htracked : mapFind s.m_ServerInstances (GetFilenameName configFilePath) = some p)
    (hrunning : p.state = ProcessState.Running) :
    ∃ n forced,
      stopLoop w p.ptr stopLoopFuel 0 0 [] =
        some { forcedShutdown := forced, unsuccessfulWaits := n,
               calls := pollingCalls p.ptr n forced } ∧
      n ≤ 50 ∧ (∀ i < n, w i = false) ∧ (forced = true → n = 50) ∧
      (forced = false → n < 50 ∧ w n = true) ∧
      StopServer s configFilePath w = some (!forced,
        { s with
          m_ServerInstances := mapErase s.m_ServerInstances (GetFilenameName configFilePath),
          comboBox_LogLevel_enabled := true,
          m_Suffix := [],
          effects := s.effects ++
            [Effect.processTerminate p.ptr,
             Effect.launcherLog LOG_LEVEL_INFO "Server process stop request sent successfully"] ++
            pollingCalls p.ptr n forced ++
            [Effect.launcherLog LOG_LEVEL_INFO "Server process stopped successfully",
             Effect.processDelete p.ptr] ++
            (if s.m_RemoteControlServerConnector then
              [Effect.sendCommand
                (serverStoppedCommand (GetFilenameName (GetFilenameName configFilePath)))
                s.connectorIsConnected]
             else []) }) := by
  obtain ⟨n, forced, heq, hle, hall, hf, hnf⟩ := stopLoop_total w p.ptr
  refine ⟨n, forced, heq, hle, hall, hf, hnf, ?_⟩
  cases hc : s.m_RemoteControlServerConnector <;>
    simp [StopServer, htracked, hrunning, heq, Launcher.emit, hc]

/-- The state `StopServer` leaves for a tracked process that is not running. -/
theorem StopServer_notRunning (s : Launcher) (configFilePath : String) (w : Nat → Bool)
    (p : QProcess)
    (htracked : mapFind s.m_ServerInstances (GetFilenameName configFilePath) = some p)
    (hstate : p.state ≠ ProcessState.Running) :
    StopServer s configFilePath w = some (true,
      { s with
        m_ServerInstances := mapErase s.m_ServerInstances (GetFilenameName configFilePath),
        m_Suffix := [],
        effects := s.effects ++ [Effect.processDelete p.ptr] ++
          (if s.m_RemoteControlServerConnector then
            [Effect.sendCommand
              (serverStoppedCommand (GetFilenameName (GetFilenameName configFilePath)))
              s.connectorIsConnected]
           else []) }) := by
  cases hc : s.m_RemoteControlServerConnector <;>
    simp [StopServer, htracked, hstate, Launcher.emit, hc]

/-- Whatever the table holds, `StopServer` returns and leaves the key untracked; when the key
was tracked the status suffix is empty afterwards. -/
theorem StopServer_untracks (s : Launcher) (configFilePath : String) (w : Nat → Bool) :
    ∃ result s', StopServer s configFilePath w = some (result, s') ∧
      (∀ key, mapFind s'.m_ServerInstances key =
        if key = GetFilenameName configFilePath then none
        else mapFind s.m_ServerInstances key) ∧
      ((mapFind s.m_ServerInstances (GetFilenameName configFilePath)).isSome →
        s'.m_Suffix = []) := by
  cases htracked : mapFind s.m_ServerInstances (GetFilenameName configFilePath) with
  | none =>
    refine ⟨true, s, by simp [StopServer, htracked], ?_, by simp⟩
    intro key
    by_cases hk : key = GetFilenameName configFilePath
    · subst hk; simp [htracked]
    · simp [hk]
  | some p =>
    by_cases hrunning : p.state = ProcessState.Running
    · obtain ⟨n, forced, -, -, -, -, -, heq⟩ := StopServer_running s configFilePath w p htracked hrunning
      exact ⟨_, _, heq, fun key => by simp [mapFind_mapErase], by simp⟩
    · exact ⟨_, _, StopServer_notRunning s configFilePath w p htracked hrunning,
        fun key => by simp [mapFind_mapErase], by simp⟩

/-! ## `ServerExecutableFinished` and `StartServer` -/

theorem mapFindProcess_of_tracked (m : ServerMap) (key : String) (p : QProcess)
    (htracked : mapFind m key = some p)
    (honly : ∀ e ∈ m, e.2.ptr = p.ptr → e.1 = key) :
    mapFindProcess m p.ptr = some key := by
  induction m with
  | nil => simp [mapFind] at htracked
  | cons e rest ih =>
    obtain ⟨k, v⟩ := e
    by_cases hv : v.ptr = p.ptr
    · have hk : k = key := honly (k, v) (by simp) hv
      simp [mapFindProcess, hv, hk]
    · have hk : ¬ k = key := by
        intro hk
        simp [mapFind, hk] at htracked
        exact hv (by rw [htracked])
      simp only [mapFind, hk, if_false] at htracked
      simp only [mapFindProcess, hv, if_false]
      exact ih htracked (fun e he => honly e (by simp [he]))

/-- The state `ServerExecutableFinished` leaves when the sender is in the table under `key`
and the remote control connector exists. -/
theorem ServerExecutableFinished_found (s : Launcher) (ptr : Nat) (returnCode : Int)
    (w : Nat → Bool) (key : String)
    (hfound : mapFindProcess s.m_ServerInstances ptr = some key)
    (hconn : s.m_RemoteControlServerConnector = true) :
    ServerExecutableFinished s (some ptr) returnCode w = some
      (if GetFilenameName s.m_LocalConfigFile = key then
        { s with
          m_ServerInstances := mapErase s.m_ServerInstances key,
          descriptionSuffix := [],
          connectionSuccessful := false,
          connectButtonText := "Launch server",
          comboBox_LogLevel_enabled := true,
          effects := s.effects ++
            [finishedLog returnCode,
             Effect.launcherLog LOG_LEVEL_INFO "Disconnect request successful",
             Effect.sendCommand (serverStoppedCommand key) s.connectorIsConnected] }
       else
        { s with
          m_ServerInstances := mapErase s.m_ServerInstances key,
          effects := s.effects ++
            [finishedLog returnCode,
             Effect.sendCommand (serverStoppedCommand key) s.connectorIsConnected] }) := by
  by_cases hlocal : GetFilenameName s.m_LocalConfigFile = key
  · subst hlocal
    by_cases hempty : s.m_LocalConfigFile = ""
    · simp [ServerExecutableFinished, hfound, hconn, hempty, Launcher.emit,
        ConnectToDevicesByConfigFile_disconnect, SendServerStoppedCommand,
        SendCommand]
    · simp [ServerExecutableFinished, hfound, hconn, hempty, Launcher.emit,
        ConnectToDevicesByConfigFile_disconnect, SendServerStoppedCommand,
        SendCommand, LocalStopServer, mapFind_mapErase]
  · simp [ServerExecutableFinished, hfound, hconn, hlocal, Launcher.emit,
      SendServerStoppedCommand, SendCommand]

/-- A null connector is dereferenced when the finished process is reported. -/
theorem ServerExecutableFinished_null (s : Launcher) (ptr : Nat) (returnCode : Int)
    (w : Nat → Bool) (key : String)
    (hfound : mapFindProcess s.m_ServerInstances ptr = some key)
    (hconn : s.m_RemoteControlServerConnector = false) :
    ServerExecutableFinished s (some ptr) returnCode w = none := by
  by_cases hlocal : GetFilenameName s.m_LocalConfigFile = key
  · subst hlocal
    by_cases hempty : s.m_LocalConfigFile = ""
    · simp [ServerExecutableFinished, hfound, hconn, hempty, Launcher.emit,
        ConnectToDevicesByConfigFile_disconnect, SendServerStoppedCommand,
        SendCommand]
    · simp [ServerExecutableFinished, hfound, hconn, hempty, Launcher.emit,
        ConnectToDevicesByConfigFile_disconnect, SendServerStoppedCommand,
        SendCommand, LocalStopServer, mapFind_mapErase]
  · simp [ServerExecutableFinished, hfound, hconn, hlocal, Launcher.emit,
      SendServerStoppedCommand, SendCommand]

theorem StartServer_running (s : Launcher) (configFilePath : String) (logLevel : Int)
    (w : Nat → Bool) :
    StartServer s configFilePath logLevel StartOutcome.running w = some (true,
      { s with
        nextProcess := s.nextProcess + 1,
        m_ServerInstances :=
          mapSet (mapSet s.m_ServerInstances (GetFilenameName configFilePath)
              { ptr := s.nextProcess, state := ProcessState.NotRunning })
            (GetFilenameName configFilePath)
            { ptr := s.nextProcess, state := ProcessState.Running },
        comboBox_LogLevel_enabled := false,
        effects := s.effects ++
          [Effect.launcherLog LOG_LEVEL_INFO "Server process command line",
           Effect.processStart s.nextProcess configFilePath
             (logLevelToPlusServer s.comboBox_LogLevel_currentData logLevel),
           Effect.processWaitForFinished s.nextProcess 500,
           Effect.launcherLog LOG_LEVEL_INFO "Server process started successfully"] }) := by
  simp [StartServer, Launcher.emit, mapFind_mapSet]

theorem StartServer_starting (s : Launcher) (configFilePath : String) (logLevel : Int)
    (w : Nat → Bool) :
    StartServer s configFilePath logLevel StartOutcome.starting w = some (false,
      { s with
        nextProcess := s.nextProcess + 1,
        m_ServerInstances :=
          mapSet (mapSet s.m_ServerInstances (GetFilenameName configFilePath)
              { ptr := s.nextProcess, state := ProcessState.NotRunning })
            (GetFilenameName configFilePath)
            { ptr := s.nextProcess, state := ProcessState.Starting },
        effects := s.effects ++
          [Effect.launcherLog LOG_LEVEL_INFO "Server process command line",
           Effect.processStart s.nextProcess configFilePath
             (logLevelToPlusServer s.comboBox_LogLevel_currentData logLevel),
           Effect.processWaitForFinished s.nextProcess 500,
           Effect.launcherLog LOG_LEVEL_ERROR "Failed to start server process"] }) := by
  simp [StartServer, Launcher.emit]

theorem StartServer_failedToStart (s : Launcher) (configFilePath : String) (logLevel : Int)
    (w : Nat → Bool) :
    StartServer s configFilePath logLevel StartOutcome.failedToStart w = some (false,
      { s with
        nextProcess := s.nextProcess + 1,
        m_ServerInstances :=
          mapSet s.m_ServerInstances (GetFilenameName configFilePath)
            { ptr := s.nextProcess, state := ProcessState.NotRunning },
        connectionSuccessful := false,
        effects := s.effects ++
          [Effect.launcherLog LOG_LEVEL_INFO "Server process command line",
           Effect.processStart s.nextProcess configFilePath
             (logLevelToPlusServer s.comboBox_LogLevel_currentData logLevel),
           Effect.processWaitForFinished s.nextProcess 500,
           Effect.launcherLog LOG_LEVEL_ERROR "Server process error: FailedToStart",
           Effect.launcherLog LOG_LEVEL_ERROR "Failed to start server process"] }) := by
  simp [StartServer, Launcher.emit, ErrorReceived, errorString]

theorem StartServer_exited (s : Launcher) (configFilePath : String) (logLevel : Int)
    (returnCode : Int) (crashed : Bool) (w : Nat → Bool) :
    (s.m_RemoteControlServerConnector = false ∧
      StartServer s configFilePath logLevel (StartOutcome.exited returnCode crashed) w = none) ∨
    (s.m_RemoteControlServerConnector = true ∧
      ∃ s' rest, StartServer s configFilePath logLevel (StartOutcome.exited returnCode crashed) w =
          some (false, s') ∧
        mapFind s'.m_ServerInstances (GetFilenameName configFilePath) = none ∧
        s'.effects = s.effects ++
          [Effect.launcherLog LOG_LEVEL_INFO "Server process command line",
           Effect.processStart s.nextProcess configFilePath
             (logLevelToPlusServer s.comboBox_LogLevel_currentData logLevel),
           Effect.processWaitForFinished s.nextProcess 500] ++ rest ∧
        (∀ e ∈ rest, (∃ level message, e = Effect.launcherLog level message) ∨
          ∃ command connected, e = Effect.sendCommand command connected) ∧
        s'.m_RemoteControlServerConnector = true) := by
  cases hconn : s.m_RemoteControlServerConnector
  · left
    refine ⟨rfl, ?_⟩
    cases crashed
    · simp only [StartServer]
      rw [ServerExecutableFinished_null _ _ _ _ (GetFilenameName configFilePath)
        (by simp [mapSet, mapFindProcess, Launcher.emit]) (by simp [Launcher.emit, hconn])]
    · simp only [StartServer]
      rw [ServerExecutableFinished_null _ _ _ _ (GetFilenameName configFilePath)
        (by simp [mapSet, mapFindProcess, Launcher.emit, ErrorReceived])
        (by simp [Launcher.emit, ErrorReceived, hconn])]
  · right
    refine ⟨rfl, ?_⟩
    cases crashed
    · simp only [StartServer]
      rw [ServerExecutableFinished_found _ _ _ _ (GetFilenameName configFilePath)
        (by simp [mapSet, mapFindProcess, Launcher.emit]) (by simp [Launcher.emit, hconn])]
      by_cases hlocal : GetFilenameName s.m_LocalConfigFile = GetFilenameName configFilePath
      · simp [Launcher.emit, hlocal, mapFind_mapErase, finishedLog]
        split <;> simp <;> cases s.connectorIsConnected <;> simp [hconn]
      · simp [Launcher.emit, hlocal, mapFind_mapErase, finishedLog]
        split <;> simp <;> cases s.connectorIsConnected <;> simp [hconn]
    · simp only [StartServer]
      rw [ServerExecutableFinished_found _ _ _ _ (GetFilenameName configFilePath)
        (by simp [mapSet, mapFindProcess, Launcher.emit, ErrorReceived])
        (by simp [Launcher.emit, ErrorReceived, hconn])]
      by_cases hlocal : GetFilenameName s.m_LocalConfigFile = GetFilenameName configFilePath
      · simp [Launcher.emit, hlocal, mapFind_mapErase, finishedLog, ErrorReceived]
        split <;> simp <;> cases s.connectorIsConnected <;> simp [hconn]
      · simp [Launcher.emit, hlocal, mapFind_mapErase, finishedLog, ErrorReceived]
        split <;> simp <;> cases s.connectorIsConnected <;> simp [hconn]

/-! ## Claims on the process supervisor -/

/-- C1. `StopServer` on a tracked configuration returns, removes exactly the key of that
configuration from the instance table (every other key keeps its entry) and leaves the status
suffix empty, whatever the child does when asked to stop, so for the clean result as for the
forced one; and after a `StartServer` that returned success, `StopServer` on the same
configuration leaves the table without the key. -/
theorem StopServer_removes_instance (s : Launcher) (configFilePath : String) (w : Nat → Bool) :
    (∀ p, mapFind s.m_ServerInstances (GetFilenameName configFilePath) = some p →
      ∃ result s', StopServer s configFilePath w = some (result, s') ∧
        (∀ key, mapFind s'.m_ServerInstances key =
          if key = GetFilenameName configFilePath then none
          else mapFind s.m_ServerInstances key) ∧
        s'.m_Suffix = []) ∧
    (∀ logLevel outcome w1 s1,
      StartServer s configFilePath logLevel outcome w1 = some (true, s1) →
      ∃ result s2, StopServer s1 configFilePath w = some (result, s2) ∧
        mapFind s2.m_ServerInstances (GetFilenameName configFilePath) = none ∧
        s2.m_Suffix = []) := by
  constructor
  · intro p htracked
    obtain ⟨result, s', heq, htable, hsuffix⟩ := StopServer_untracks s configFilePath w
    exact ⟨result, s', heq, htable, hsuffix (by simp [htracked])⟩
  · intro logLevel outcome w1 s1 hstart
    have htracked : (mapFind s1.m_ServerInstances (GetFilenameName configFilePath)).isSome := by
      cases outcome with
      | running =>
        rw [StartServer_running] at hstart
        simp only [Option.some.injEq, Prod.mk.injEq, true_and] at hstart
        subst hstart
        simp [mapFind_mapSet]
      | starting =>
        rw [StartServer_starting] at hstart
        simp at hstart
      | failedToStart =>
        rw [StartServer_failedToStart] at hstart
        simp at hstart
      | exited returnCode crashed =>
        rcases StartServer_exited s configFilePath logLevel returnCode crashed w1 with
          ⟨-, hnone⟩ | ⟨-, s', rest, hsome, -⟩
        · rw [hnone] at hstart; simp at hstart
        · rw [hsome] at hstart; simp at hstart
    obtain ⟨result, s2, heq, htable, hsuffix⟩ := StopServer_untracks s1 configFilePath w
    exact ⟨result, s2, heq, by simpa using htable (GetFilenameName configFilePath),
      hsuffix htracked⟩

/-- C1, on an example: the tracked server `setup.xml` is stopped by force, and stopped after
being started again. -/
theorem StopServer_removes_instance_witness :
    (∃ result s', StopServer Launcher.tracking "config/setup.xml" neverExits =
        some (result, s') ∧
      (∀ key, mapFind s'.m_ServerInstances key =
        if key = GetFilenameName "config/setup.xml" then none
        else mapFind Launcher.tracking.m_ServerInstances key) ∧
      s'.m_Suffix = []) ∧
    (∃ s1, StartServer Launcher.tracking "config/setup.xml" LOG_LEVEL_INFO
        StartOutcome.running neverExits = some (true, s1) ∧
      ∃ result s2, StopServer s1 "config/setup.xml" neverExits = some (result, s2) ∧
        mapFind s2.m_ServerInstances (GetFilenameName "config/setup.xml") = none ∧
        s2.m_Suffix = []) :=
  ⟨(StopServer_removes_instance Launcher.tracking "config/setup.xml" neverExits).1
      { ptr := 0, state := ProcessState.Running } (by decide),
   ⟨_, StartServer_running _ _ _ _,
    (StopServer_removes_instance Launcher.tracking "config/setup.xml" neverExits).2
      LOG_LEVEL_INFO StartOutcome.running neverExits _ (StartServer_running _ _ _ _)⟩⟩

/-- C2, as the code has it: `StartServer` makes no check of the instance table. With the new
child running after the wait it returns success and the basename is assigned the newly created
process, in place of any instance registered before; the table then holds exactly one entry for
the basename and every other key keeps its entry. -/
theorem StartServer_replaces_instance (s : Launcher) (configFilePath : String) (logLevel : Int)
    (w : Nat → Bool) :
    ∃ s', StartServer s configFilePath logLevel StartOutcome.running w = some (true, s') ∧
      mapFind s'.m_ServerInstances (GetFilenameName configFilePath) =
        some { ptr := s.nextProcess, state := ProcessState.Running } ∧
      (s'.m_ServerInstances.filter (fun e => e.1 = GetFilenameName configFilePath)).length = 1 ∧
      ∀ key, key ≠ GetFilenameName configFilePath →
        mapFind s'.m_ServerInstances key = mapFind s.m_ServerInstances key := by
  refine ⟨_, StartServer_running s configFilePath logLevel w, ?_, ?_, ?_⟩
  · simp [mapFind_mapSet]
  · simp [mapSet, mapErase, mapErase_filter_key]
  · intro key hkey
    simp [mapFind_mapSet, hkey]

/-- C2 fails as stated: with `setup.xml` tracked as process 0, `StartServer` on the same
configuration returns success and the key then holds the new process 1. -/
theorem StartServer_tracked_not_rejected :
    mapFind Launcher.tracking.m_ServerInstances (GetFilenameName "config/setup.xml") =
      some { ptr := 0, state := ProcessState.Running } ∧
    (StartServer Launcher.tracking "config/setup.xml" LOG_LEVEL_INFO StartOutcome.running
        neverExits).map (fun r => (r.1, mapFind r.2.m_ServerInstances "setup.xml")) =
      some (true, some { ptr := 1, state := ProcessState.Running }) := by
  decide

/-- C7. `StopServer` on a configuration whose basename is not tracked returns success and the
state is the one before the call, so the instance table, the status suffix, the enabled flag of
the log level selector and the record of calls (no termination request, no `ServerStopped`
command) are unchanged; a second call does the same. -/
theorem StopServer_untracked_noop (s : Launcher) (configFilePath : String) (w w' : Nat → Bool)
    (huntracked : mapFind s.m_ServerInstances (GetFilenameName configFilePath) = none) :
    StopServer s configFilePath w = some (true, s) ∧
    (StopServer s configFilePath w).bind (fun r => StopServer r.2 configFilePath w') =
      some (true, s) := by
  have h : ∀ v, StopServer s configFilePath v = some (true, s) := by
    intro v; simp [StopServer, huntracked]
  simp [h]

/-- C7, on an example: stopping `setup.xml` on a launcher that tracks nothing. -/
theorem StopServer_untracked_noop_witness :
    mapFind (Launcher.initial true).m_ServerInstances (GetFilenameName "config/setup.xml") =
      none ∧
    StopServer (Launcher.initial true) "config/setup.xml" neverExits =
      some (true, Launcher.initial true) ∧
    (StopServer (Launcher.initial true) "config/setup.xml" neverExits).bind
        (fun r => StopServer r.2 "config/setup.xml" exitsInThirdWait) =
      some (true, Launcher.initial true) :=
  ⟨by decide,
   StopServer_untracked_noop (Launcher.initial true) "config/setup.xml" neverExits
     exitsInThirdWait (by decide)⟩

/-- C8. When a tracked process, held by no other entry of the table, is reported finished
with any return code and the remote control connector exists, `ServerExecutableFinished`
returns, the key of the process is removed from the instance table and no other key changes,
and the calls it adds are log statements followed by exactly one `SendCommand`, of the command
with the name `ServerStopped` and the key as its one metadata element `ConfigFileName`; when
the key is the basename of the local configuration the connection flag is reset. -/
theorem ServerExecutableFinished_untracks_and_notifies (s : Launcher) (key : String)
    (p : QProcess) (returnCode : Int) (w : Nat → Bool)
    (hconn : s.m_RemoteControlServerConnector = true)
    (htracked : mapFind s.m_ServerInstances key = some p)
    (honly : ∀ e ∈ s.m_ServerInstances, e.2.ptr = p.ptr → e.1 = key) :
    ∃ s' logs, ServerExecutableFinished s (some p.ptr) returnCode w = some s' ∧
      (∀ k, mapFind s'.m_ServerInstances k =
        if k = key then none else mapFind s.m_ServerInstances k) ∧
      s'.effects = s.effects ++ logs ++
        [Effect.sendCommand
          { name := "ServerStopped", clientId := 0,
            commandMetaData := [("ConfigFileName", key)],
            successful := false, errorMessage := "", responseMetaData := [] }
          s.connectorIsConnected] ∧
      (∀ e ∈ logs, ∃ level message, e = Effect.launcherLog level message) ∧
      (GetFilenameName s.m_LocalConfigFile = key → s'.connectionSuccessful = false) := by
  have hfound := mapFindProcess_of_tracked s.m_ServerInstances key p htracked honly
  by_cases hlocal : GetFilenameName s.m_LocalConfigFile = key
  · refine ⟨_, [finishedLog returnCode,
      Effect.launcherLog LOG_LEVEL_INFO "Disconnect request successful"],
      ServerExecutableFinished_found s p.ptr returnCode w key hfound hconn, ?_, ?_, ?_, ?_⟩
    · intro k; simp [hlocal, mapFind_mapErase]
    · simp [hlocal, serverStoppedCommand]
    · intro e he
      simp only [List.mem_cons, List.mem_singleton, List.not_mem_nil, or_false] at he
      rcases he with rfl | rfl
      · unfold finishedLog; split <;> exact ⟨_, _, rfl⟩
      · exact ⟨_, _, rfl⟩
    · intro _; simp [hlocal]
  · refine ⟨_, [finishedLog returnCode],
      ServerExecutableFinished_found s p.ptr returnCode w key hfound hconn, ?_, ?_, ?_, ?_⟩
    · intro k; simp [hlocal, mapFind_mapErase]
    · simp [hlocal, serverStoppedCommand]
    · intro e he
      simp only [List.mem_singleton] at he
      subst he
      unfold finishedLog; split <;> exact ⟨_, _, rfl⟩
    · intro h; exact absurd h hlocal

/-- C8, on an example: the local server `setup.xml` exits with code 1. -/
theorem ServerExecutableFinished_untracks_and_notifies_witness :
    ∃ s' logs, ServerExecutableFinished Launcher.trackingLocal (some 0) 1 neverExits = some s' ∧
      (∀ k, mapFind s'.m_ServerInstances k =
        if k = "setup.xml" then none else mapFind Launcher.trackingLocal.m_ServerInstances k) ∧
      s'.effects = Launcher.trackingLocal.effects ++ logs ++
        [Effect.sendCommand
          { name := "ServerStopped", clientId := 0,
            commandMetaData := [("ConfigFileName", "setup.xml")],
            successful := false, errorMessage := "", responseMetaData := [] }
          Launcher.trackingLocal.connectorIsConnected] ∧
      (∀ e ∈ logs, ∃ level message, e = Effect.launcherLog level message) ∧
      (GetFilenameName Launcher.trackingLocal.m_LocalConfigFile = "setup.xml" →
        s'.connectionSuccessful = false) :=
  ServerExecutableFinished_untracks_and_notifies Launcher.trackingLocal "setup.xml"
    { ptr := 0, state := ProcessState.Running } 1 neverExits (by decide) (by decide)
    (by decide)

/-- C10. For a tracked running child, whatever it answers to the waits, the polling loop of
`StopServer` returns after `n` waits of 300 ms that returned false, with `n` at most 50 and so
at most 51, each followed by a new termination request. `StopServer` returns false exactly when
no wait succeeded before the accumulated time exceeded 15 s, and exactly then the kill is among
the calls of the loop; otherwise the wait after the `n` unsuccessful ones succeeded and it
returns true. -/
theorem StopServer_polling_bounded (s : Launcher) (configFilePath : String) (w : Nat → Bool)
    (p : QProcess)
    (htracked : mapFind s.m_ServerInstances (GetFilenameName configFilePath) = some p)
    (hrunning : p.state = ProcessState.Running) :
    ∃ n forced s',
      stopLoop w p.ptr stopLoopFuel 0 0 [] =
        some { forcedShutdown := forced, unsuccessfulWaits := n,
               calls := pollingCalls p.ptr n forced } ∧
      StopServer s configFilePath w = some (!forced, s') ∧
      s'.effects = s.effects ++
        [Effect.processTerminate p.ptr,
         Effect.launcherLog LOG_LEVEL_INFO "Server process stop request sent successfully"] ++
        pollingCalls p.ptr n forced ++
        [Effect.launcherLog LOG_LEVEL_INFO "Server process stopped successfully",
         Effect.processDelete p.ptr] ++
        (if s.m_RemoteControlServerConnector then
          [Effect.sendCommand
            (serverStoppedCommand (GetFilenameName (GetFilenameName configFilePath)))
            s.connectorIsConnected]
         else []) ∧
      n ≤ 50 ∧ n ≤ 51 ∧
      (∀ i < n, w i = false) ∧
      (forced = true ↔ ((∀ i < n, w i = false) ∧ totalTimeoutSec < timeAfter n)) ∧
      (forced = true ↔ Effect.processKill p.ptr ∈ pollingCalls p.ptr n forced) ∧
      (forced = false → w n = true) := by
  obtain ⟨n, forced, hloop, hle, hall, hf, hnf, heq⟩ :=
    StopServer_running s configFilePath w p htracked hrunning
  refine ⟨n, forced, _, hloop, heq, rfl, hle, by omega, hall, ?_, ?_, fun h => (hnf h).2⟩
  · constructor
    · intro h
      have h50 := hf h
      subst h50
      exact ⟨hall, timeAfter_fifty⟩
    · rintro ⟨-, ht⟩
      cases hforced : forced with
      | true => rfl
      | false => exact absurd ht (timeAfter_below n (hnf hforced).1)
  · have hkill : ∀ m : Nat, ∀ b : Bool,
        (Effect.processKill p.ptr ∈ pollingCalls p.ptr m b ↔ b = true) := by
      intro m b
      induction m with
      | zero => cases b <;> simp [pollingCalls]
      | succ m ih => simp [pollingCalls, ih]
    exact (hkill n forced).symm

/-- C10, on an example: a child that never exits is killed after 50 unsuccessful waits, one
that exits during the third wait is not. -/
theorem StopServer_polling_bounded_witness :
    (∃ s', StopServer Launcher.tracking "config/setup.xml" neverExits = some (false, s')) ∧
    (∃ n forced s', StopServer Launcher.tracking "config/setup.xml" exitsInThirdWait =
        some (!forced, s') ∧ n ≤ 51 ∧ (forced = true ↔
          ((∀ i < n, exitsInThirdWait i = false) ∧ totalTimeoutSec < timeAfter n)) ∧
        (forced = false → exitsInThirdWait n = true)) := by
  constructor
  · obtain ⟨n, forced, s', -, heq, -, -, -, hall, hiff, -, hnf⟩ :=
      StopServer_polling_bounded Launcher.tracking "config/setup.xml" neverExits
        { ptr := 0, state := ProcessState.Running } (by decide) (by decide)
    cases hforced : forced with
    | true => exact ⟨s', by simpa [hforced] using heq⟩
    | false => exact absurd (hnf hforced) (by simp [neverExits])
  · obtain ⟨n, forced, s', -, heq, -, -, h51, -, hiff, -, hnf⟩ :=
      StopServer_polling_bounded Launcher.tracking "config/setup.xml" exitsInThirdWait
        { ptr := 0, state := ProcessState.Running } (by decide) (by decide)
    exact ⟨n, forced, s', heq, h51, hiff, hnf⟩

/-! ## The loop over the tokens -/

theorem Trim_idempotent (str : List Char) : Trim (Trim str) = Trim str := by
  unfold Trim
  have hsuffix : (str.rdropWhile isTrimmed).dropWhile isTrimmed <:+ str.rdropWhile isTrimmed :=
    List.dropWhile_suffix _
  have hright : (((str.rdropWhile isTrimmed).dropWhile isTrimmed).rdropWhile isTrimmed) =
      (str.rdropWhile isTrimmed).dropWhile isTrimmed := by
    rw [List.rdropWhile_eq_self_iff]
    intro hne
    rw [hsuffix.getLast hne]
    exact List.rdropWhile_last_not _ _ _
  rw [hright, List.dropWhile_idempotent]

theorem nonEmptyTokens_append (a b : List (List Char)) :
    nonEmptyTokens (a ++ b) = nonEmptyTokens a ++ nonEmptyTokens b := by
  simp [nonEmptyTokens]

theorem nonEmptyTokens_of_trimmed (tokens : List (List Char))
    (h : ∀ x ∈ tokens, Trim x = x ∧ x ≠ []) : nonEmptyTokens tokens = tokens := by
  induction tokens with
  | nil => rfl
  | cons x rest ih =>
    have hx := h x (by simp)
    have hrest := ih (fun y hy => h y (by simp [hy]))
    unfold nonEmptyTokens at hrest ⊢
    simp only [List.map_cons, hx.1]
    rw [List.filter_cons_of_pos (by simpa using hx.2), hrest]

theorem getElem?_append_length (pre post : List (List Char)) :
    (pre ++ post)[pre.length]? = post[0]? := by
  rw [List.getElem?_append_right (le_refl _)]
  simp

theorem eraseIdx_append_length (pre post : List (List Char)) (x : List Char) :
    (pre ++ x :: post).eraseIdx pre.length = pre ++ post := by
  induction pre with
  | nil => rfl
  | cons a pre ih => simp [List.eraseIdx, ih]

theorem set_append_length (pre post : List (List Char)) (x y : List Char) :
    (pre ++ x :: post).set pre.length y = pre ++ y :: post := by
  induction pre with
  | nil => rfl
  | cons a pre ih => simp [List.set, ih]

/-- With the tokens before the iterator trimmed and not empty, and at least one of them, the
loop ends with all the tokens trimmed and the empty ones removed. -/
theorem removeEmptyTokens_from (fuel : Nat) :
    ∀ (pre post : List (List Char)), pre ≠ [] → (∀ x ∈ pre, Trim x = x ∧ x ≠ []) →
      (pre.length + post.length) * (pre.length + post.length + 1) + post.length < fuel →
      removeEmptyTokens fuel (pre ++ post) pre.length = Outcome.ok (pre ++ nonEmptyTokens post) := by
  induction fuel with
  | zero => intro pre post _ _ h; omega
  | succ fuel ih =>
    intro pre post hpre hclean hfuel
    cases post with
    | nil => simp [removeEmptyTokens, nonEmptyTokens]
    | cons token post =>
      have hget : (pre ++ token :: post)[pre.length]? = some token := by
        rw [getElem?_append_length]; simp
      by_cases hblank : Trim token = []
      · obtain ⟨a, tail, rfl⟩ := List.exists_cons_of_ne_nil hpre
        have herase := eraseIdx_append_length (a :: tail) post token
        have hne : (a :: tail) ++ post ≠ [] := by simp
        have hrec := ih [a] (tail ++ post) (by simp) (fun x hx => hclean x (by
          simp only [List.mem_singleton] at hx; simp [hx])) (by
            simp only [List.length_cons, List.length_append, List.length_nil] at hfuel ⊢
            have e : (tail.length + 1 + (post.length + 1)) * (tail.length + 1 + (post.length + 1) + 1)
                = (0 + 1 + (tail.length + post.length)) * (0 + 1 + (tail.length + post.length) + 1)
                  + 2 * (tail.length + post.length + 2) := by ring
            omega)
        have htail : nonEmptyTokens tail = tail :=
          nonEmptyTokens_of_trimmed tail (fun x hx => hclean x (by simp [hx]))
        have hresult : nonEmptyTokens (token :: post) = nonEmptyTokens post := by
          simp [nonEmptyTokens, hblank]
        simp only [removeEmptyTokens, hget, hblank, if_true, herase, hne, if_false]
        have hrec' : removeEmptyTokens fuel (a :: tail ++ post) 1 =
            Outcome.ok ([a] ++ nonEmptyTokens (tail ++ post)) := by simpa using hrec
        rw [hrec', nonEmptyTokens_append, htail, hresult]
        simp
      · have hset := set_append_length pre post token (Trim token)
        have hrec := ih (pre ++ [Trim token]) post (by simp) (fun x hx => by
          rcases List.mem_append.1 hx with h | h
          · exact hclean x h
          · simp only [List.mem_singleton] at h
            subst h
            exact ⟨Trim_idempotent token, hblank⟩) (by
            simp only [List.length_cons, List.length_append, List.length_nil] at hfuel ⊢
            have e : (pre.length + (0 + 1) + post.length) = (pre.length + (post.length + 1)) := by
              omega
            rw [e]; omega)
        have hresult : nonEmptyTokens (token :: post) = Trim token :: nonEmptyTokens post := by
          simp [nonEmptyTokens, hblank]
        simp only [removeEmptyTokens, hget, hblank, if_false, hset]
        have hrec' : removeEmptyTokens fuel (pre ++ Trim token :: post) (pre.length + 1) =
            Outcome.ok (pre ++ [Trim token] ++ nonEmptyTokens post) := by
          simpa using hrec
        rw [hrec', hresult]
        simp

/-- When the first token is not empty after trimming, the loop over the tokens of a line ends
with all the tokens trimmed and the empty ones removed. -/
theorem removeEmptyTokens_first_kept (first : List Char) (rest : List (List Char))
    (hfirst : Trim first ≠ []) :
    removeEmptyTokens (eraseLoopFuel (first :: rest).length) (first :: rest) 0 =
      Outcome.ok (nonEmptyTokens (first :: rest)) := by
  have hfuel : eraseLoopFuel (first :: rest).length =
      (rest.length * (rest.length + 4) + 3) + 1 := by
    simp only [eraseLoopFuel, List.length_cons]; ring
  have hrec := removeEmptyTokens_from (rest.length * (rest.length + 4) + 3) [Trim first] rest
    (by simp) (fun x hx => by
      simp only [List.mem_singleton] at hx
      subst hx
      exact ⟨Trim_idempotent first, hfirst⟩) (by
      simp only [List.length_cons, List.length_nil]
      have e : (0 + 1 + rest.length) * (0 + 1 + rest.length + 1) =
          rest.length * (rest.length + 4) + 2 - rest.length := by
        have : (0 + 1 + rest.length) * (0 + 1 + rest.length + 1) + rest.length =
          rest.length * (rest.length + 4) + 2 := by ring
        omega
      have e2 : rest.length ≤ rest.length * (rest.length + 4) := by nlinarith
      omega)
  rw [hfuel, removeEmptyTokens]
  simp only [List.getElem?_cons_zero, hfirst, if_false, List.set_cons_zero]
  have hrec' : removeEmptyTokens (rest.length * (rest.length + 4) + 3) (Trim first :: rest) 1 =
      Outcome.ok ([Trim first] ++ nonEmptyTokens rest) := by simpa using hrec
  rw [hrec']
  simp [nonEmptyTokens, hfirst]

/-! ## Claims on the output handler -/

/-- C4 fails on the code: the chunks `"x\n "` and `"y\n"` are not empty, start from an empty
incomplete-line buffer and end with a newline. Fed one after the other, the lines handed on are
`x` and `xy`; the whole text `"x\n y\n"` fed at once, like its segments that are not empty
after trimming, gives `x` and `y`. -/
theorem SendServerOutputToLogger_chunk_boundary :
    (Launcher.initial true).m_LogIncompleteLine = [] ∧
    (match feedChunks (Launcher.initial true) ["x\n ".data, "y\n".data] with
      | Outcome.ok s => linesTaken s.effects
      | _ => []) = ["x".data, "xy".data] ∧
    (match feedChunks (Launcher.initial true) ["x\n y\n".data] with
      | Outcome.ok s => linesTaken s.effects
      | _ => []) = ["x".data, "y".data] ∧
    trimmedSegments ("x\n ".data ++ "y\n".data) = ["x".data, "y".data] ∧
    (match SendServerOutputToLogger (Launcher.initial true) "x\n ".data with
      | Outcome.ok s => s.m_LogIncompleteLine
      | _ => []) = "x".data := by
  decide

/-- C5 fails on the code for a line with a separator: the complete line `foo|bar`, whose first
token is no severity name, is handed on and no record is logged for it, while the line `foo`
without separator is logged once at level Info with origin `SERVER`. -/
theorem SendServerOutputToLogger_unknown_severity :
    GetLogLevelType "foo".data = LOG_LEVEL_UNDEFINED ∧
    (match SendServerOutputToLogger (Launcher.initial true) "foo|bar\n".data with
      | Outcome.ok s => some (linesTaken s.effects, logRecords s.effects)
      | _ => none) = some (["foo|bar".data], []) ∧
    (match SendServerOutputToLogger (Launcher.initial true) "foo\n".data with
      | Outcome.ok s => some (linesTaken s.effects, logRecords s.effects)
      | _ => none) =
      some (["foo".data],
        [{ level := LOG_LEVEL_INFO, message := "foo".data, file := none, lineNumber := none,
           optionalPrefix := some "SERVER" }]) := by
  decide

/-- C6. For a line with a separator whose first token is a severity name and that has at most
three tokens that are not empty after trimming, `processLine` takes the level from the first
token, the time stamp from the second token or `time???`, the message from the third or
`message???` and the location `location???`, and the calls it adds are exactly one
`LogMessage` at that level with that message; the state is otherwise unchanged. -/
theorem processLine_missing_fields (s : Launcher) (line first : List Char)
    (rest : List (List Char))
    (hsep : '|' ∈ line)
    (hsplit : SplitStringIntoTokens line '|' = first :: rest)
    (hlevel : GetLogLevelType (Trim first) ≠ LOG_LEVEL_UNDEFINED)
    (hcount : (nonEmptyTokens (first :: rest)).length ≤ 3) :
    parseTokens (nonEmptyTokens (first :: rest)) =
      { logLevel := GetLogLevelType (Trim first),
        timeStamp := ((nonEmptyTokens (first :: rest))[1]?).getD "time???".data,
        message := ((nonEmptyTokens (first :: rest))[2]?).getD "message???".data,
        location := "location???".data } ∧
    processLine s line = LineStep.next (s.emit (Effect.logMessage
      { level := GetLogLevelType (Trim first),
        message := ((nonEmptyTokens (first :: rest))[2]?).getD "message???".data,
        file := none, lineNumber := none, optionalPrefix := none })) := by
  have hfirst : Trim first ≠ [] := by
    intro h
    rw [h] at hlevel
    exact hlevel (by decide)
  have htokens : nonEmptyTokens (first :: rest) = Trim first :: nonEmptyTokens rest := by
    simp [nonEmptyTokens, hfirst]
  have hthird : (nonEmptyTokens (first :: rest))[3]? = none := by
    rw [List.getElem?_eq_none_iff]; omega
  have hparsed : parseTokens (nonEmptyTokens (first :: rest)) =
      { logLevel := GetLogLevelType (Trim first),
        timeStamp := ((nonEmptyTokens (first :: rest))[1]?).getD "time???".data,
        message := ((nonEmptyTokens (first :: rest))[2]?).getD "message???".data,
        location := "location???".data } := by
    unfold parseTokens
    rw [hthird]
    congr 1
    · rw [htokens]; rfl
    · cases (nonEmptyTokens (first :: rest))[1]? <;> rfl
    · cases (nonEmptyTokens (first :: rest))[2]? <;> rfl
  refine ⟨hparsed, ?_⟩
  have hlevel' : GetLogLevelType ((nonEmptyTokens (first :: rest)).getD 0 []) ≠
      LOG_LEVEL_UNDEFINED := by
    rw [htokens]; simpa using hlevel
  have hlength : (nonEmptyTokens (first :: rest)).length ≠ 0 := by
    rw [htokens]; simp
  have hlocation : '(' ∉ "location???".data := by decide
  unfold processLine
  rw [if_pos hsep, hsplit, removeEmptyTokens_first_kept first rest hfirst]
  simp only [hlength, if_false, hlevel', ne_eq, not_false_eq_true, if_true, hparsed,
    hlocation, true_or]

/-- C6, on an example: the line `|warning|12.5` has a level and a time stamp only. -/
theorem processLine_missing_fields_witness :
    parseTokens (nonEmptyTokens ["warning".data, "12.5".data]) =
      { logLevel := GetLogLevelType (Trim "warning".data),
        timeStamp := ((nonEmptyTokens ["warning".data, "12.5".data])[1]?).getD "time???".data,
        message := ((nonEmptyTokens ["warning".data, "12.5".data])[2]?).getD "message???".data,
        location := "location???".data } ∧
    processLine (Launcher.initial true) "|warning|12.5".data =
      LineStep.next ((Launcher.initial true).emit (Effect.logMessage
        { level := GetLogLevelType (Trim "warning".data),
          message := ((nonEmptyTokens ["warning".data, "12.5".data])[2]?).getD "message???".data,
          file := none, lineNumber := none, optionalPrefix := none })) :=
  processLine_missing_fields (Launcher.initial true) "|warning|12.5".data "warning".data
    ["12.5".data] (by decide) (by decide) (by decide) (by decide)

/-! ## Free names for configuration files -/

theorem digitChar_isDigit (k : Nat) (hk : k < 10) :
    (Nat.digitChar k).isDigit = true ∧ (Nat.digitChar k).toNat - 48 = k := by
  interval_cases k <;> decide

theorem readDigits_append (pre rest : List Char) (acc : Nat)
    (hpre : ∀ c ∈ pre, c.isDigit = true) :
    readDigits (pre ++ rest) acc = readDigits rest (readDigits pre acc) := by
  induction pre generalizing acc with
  | nil => rfl
  | cons c pre ih =>
    have hc := hpre c (by simp)
    simp only [List.cons_append, readDigits, hc, if_true]
    exact ih _ (fun d hd => hpre d (by simp [hd]))

theorem toDigitsCore_value (fuel : Nat) :
    ∀ (n : Nat) (ds : List Char), n < fuel →
      ∃ pre, Nat.toDigitsCore 10 fuel n ds = pre ++ ds ∧ (∀ c ∈ pre, c.isDigit = true) ∧
        readDigits pre 0 = n := by
  induction fuel with
  | zero => intro n ds h; omega
  | succ fuel ih =>
    intro n ds hn
    have hdigit := digitChar_isDigit (n % 10) (Nat.mod_lt _ (by decide))
    by_cases hsmall : n / 10 = 0
    · refine ⟨[Nat.digitChar (n % 10)], by simp [Nat.toDigitsCore, hsmall], ?_, ?_⟩
      · intro c hc
        simp only [List.mem_singleton] at hc
        subst hc; exact hdigit.1
      · simp only [readDigits, hdigit.1, if_true, hdigit.2]
        omega
    · obtain ⟨pre, heq, hall, hval⟩ := ih (n / 10) (Nat.digitChar (n % 10) :: ds) (by omega)
      refine ⟨pre ++ [Nat.digitChar (n % 10)], by simp [Nat.toDigitsCore, hsmall, heq], ?_, ?_⟩
      · intro c hc
        rcases List.mem_append.1 hc with h | h
        · exact hall c h
        · simp only [List.mem_singleton] at h
          subst h; exact hdigit.1
      · rw [readDigits_append pre _ 0 hall, hval]
        simp only [readDigits, hdigit.1, if_true, hdigit.2]
        omega

theorem ToString_injective (i j : Nat) (h : ToString i = ToString j) : i = j := by
  have hdata : Nat.toDigits 10 i = Nat.toDigits 10 j := by
    have := congrArg String.data h
    simpa [ToString, Nat.repr, List.asString] using this
  obtain ⟨pi, hi, -, hvi⟩ := toDigitsCore_value (i + 1) i [] (by omega)
  obtain ⟨pj, hj, -, hvj⟩ := toDigitsCore_value (j + 1) j [] (by omega)
  simp only [List.append_nil] at hi hj
  unfold Nat.toDigits at hdata
  rw [hi, hj] at hdata
  rw [← hvi, ← hvj, hdata]

theorem bracketedName_injective (oldConfigFile : String) :
    Function.Injective (bracketedName oldConfigFile) := by
  intro i j h
  apply ToString_injective
  have hdata := congrArg String.data h
  simp only [bracketedName, String.data_append] at hdata
  have h1 := List.append_cancel_right hdata
  have h2 := List.append_cancel_left h1
  exact String.ext h2

/-- Among the names `old[0]`, …, `old[n]` one is free in a directory of `n` files. -/
theorem exists_free_name (files : List (String × List Char)) (oldConfigFile : String) :
    ∃ j, j < files.length + 1 ∧ FileExists files (bracketedName oldConfigFile j) = false := by
  by_contra hnone
  push_neg at hnone
  have hsub : (List.range (files.length + 1)).map (bracketedName oldConfigFile) ⊆
      files.map Prod.fst := by
    intro name hname
    obtain ⟨j, hj, rfl⟩ := List.mem_map.1 hname
    have hex := hnone j (List.mem_range.1 hj)
    simp only [ne_eq, Bool.not_eq_false] at hex
    unfold FileExists at hex
    obtain ⟨f, hf, hfe⟩ := List.any_eq_true.1 hex
    exact List.mem_map.2 ⟨f, hf, by simpa using hfe⟩
  have hnodup : ((List.range (files.length + 1)).map (bracketedName oldConfigFile)).Nodup :=
    (List.nodup_range _).map (bracketedName_injective oldConfigFile)
  have hle := (List.subperm_of_subset hnodup hsub).length_le
  simp at hle

/-- The search for a free name ends within the bound, at the first free name. -/
theorem findFreeName_first (files : List (String × List Char)) (oldConfigFile : String) :
    ∀ (fuel i j : Nat), i ≤ j → j < i + fuel →
      FileExists files (bracketedName oldConfigFile j) = false →
      (∀ k, i ≤ k → k < j → FileExists files (bracketedName oldConfigFile k) = true) →
      findFreeName files oldConfigFile fuel i = some (bracketedName oldConfigFile j) := by
  intro fuel
  induction fuel with
  | zero => intro i j h1 h2; omega
  | succ fuel ih =>
    intro i j h1 h2 hfree hbelow
    by_cases hij : i = j
    · subst hij
      simp [findFreeName, hfree]
    · have hex := hbelow i (le_refl _) (by omega)
      simp only [findFreeName, hex, if_true]
      exact ih (i + 1) j (by omega) (by omega) hfree (fun k hk1 hk2 => hbelow k (by omega) hk2)

theorem findFreeName_total (files : List (String × List Char)) (oldConfigFile : String) :
    ∃ j, findFreeName files oldConfigFile (files.length + 1) 0 =
        some (bracketedName oldConfigFile j) ∧
      FileExists files (bracketedName oldConfigFile j) = false ∧
      ∀ k < j, FileExists files (bracketedName oldConfigFile k) = true := by
  have hex : ∃ j, FileExists files (bracketedName oldConfigFile j) = false := by
    obtain ⟨j, -, hj⟩ := exists_free_name files oldConfigFile
    exact ⟨j, hj⟩
  have hfind := Nat.find_spec hex
  have hmin : ∀ k < Nat.find hex, FileExists files (bracketedName oldConfigFile k) = true := by
    intro k hk
    have := Nat.find_min hex hk
    simpa using this
  obtain ⟨j, hj, hjfree⟩ := exists_free_name files oldConfigFile
  have hle : Nat.find hex ≤ j := Nat.find_min' hex hjfree
  exact ⟨Nat.find hex, findFreeName_first files oldConfigFile _ 0 _ (Nat.zero_le _) (by omega)
    hfind (fun k _ hk => hmin k hk), hfind, hmin⟩

/-! ## Responses to remote control commands -/

theorem responsesSent_append (a b : List Effect) :
    responsesSent (a ++ b) = responsesSent a ++ responsesSent b := by
  induction a with
  | nil => rfl
  | cons e a ih => cases e <;> simp [responsesSent, ih]

theorem responsesSent_eq_nil (l : List Effect)
    (h : ∀ e ∈ l, ∀ command, e ≠ Effect.sendCommandResponse command) : responsesSent l = [] := by
  induction l with
  | nil => rfl
  | cons e l ih =>
    have he := h e (by simp)
    have hl := ih (fun e' he' => h e' (by simp [he']))
    cases e <;> simp_all [responsesSent]

theorem responsesSent_pollingCalls (ptr n : Nat) (forced : Bool) :
    responsesSent (pollingCalls ptr n forced) = [] := by
  induction n with
  | zero => cases forced <;> simp [pollingCalls, responsesSent]
  | succ n ih => simp [pollingCalls, responsesSent, ih]

theorem isEqualInsensitive_exclusive (a b c : List Char)
    (hab : IsEqualInsensitive a b = true)
    (hbc : b.map lowerAscii ≠ c.map lowerAscii) : IsEqualInsensitive a c = false := by
  simp only [IsEqualInsensitive, decide_eq_true_eq, decide_eq_false_iff_not] at hab ⊢
  rw [hab]; exact hbc

/-- With the connector present `SendCommandResponse` adds one response to the record. -/
theorem SendCommandResponse_sends (s : Launcher) (command : Command)
    (hconn : s.m_RemoteControlServerConnector = true) :
    ∃ s', SendCommandResponse s command = some (s.connectorSendsResponse, s') ∧
      responsesSent s'.effects = responsesSent s.effects ++ [command] ∧
      s'.m_ServerInstances = s.m_ServerInstances := by
  cases hsend : s.connectorSendsResponse <;>
    simp [SendCommandResponse, hconn, hsend, Launcher.emit, responsesSent_append, responsesSent]

/-- The call `StopServer` returns and sends no response. -/
theorem StopServer_channel (s : Launcher) (configFilePath : String) (w : Nat → Bool) :
    ∃ result s', StopServer s configFilePath w = some (result, s') ∧
      s'.m_RemoteControlServerConnector = s.m_RemoteControlServerConnector ∧
      responsesSent s'.effects = responsesSent s.effects := by
  cases htracked : mapFind s.m_ServerInstances (GetFilenameName configFilePath) with
  | none => exact ⟨true, s, by simp [StopServer, htracked], rfl, rfl⟩
  | some p =>
    by_cases hrunning : p.state = ProcessState.Running
    · obtain ⟨n, forced, -, -, -, -, -, heq⟩ :=
        StopServer_running s configFilePath w p htracked hrunning
      refine ⟨_, _, heq, rfl, ?_⟩
      cases s.m_RemoteControlServerConnector <;>
        simp [responsesSent_append, responsesSent_pollingCalls, responsesSent]
    · refine ⟨_, _, StopServer_notRunning s configFilePath w p htracked hrunning, rfl, ?_⟩
      cases s.m_RemoteControlServerConnector <;>
        simp [responsesSent_append, responsesSent]

/-- With the connector present the call `StartServer` returns and sends no response. -/
theorem StartServer_channel (s : Launcher) (configFilePath : String) (logLevel : Int)
    (outcome : StartOutcome) (w : Nat → Bool)
    (hconn : s.m_RemoteControlServerConnector = true) :
    ∃ result s', StartServer s configFilePath logLevel outcome w = some (result, s') ∧
      s'.m_RemoteControlServerConnector = true ∧
      responsesSent s'.effects = responsesSent s.effects := by
  cases outcome with
  | running =>
    exact ⟨_, _, StartServer_running s configFilePath logLevel w, hconn,
      by simp [responsesSent_append, responsesSent]⟩
  | starting =>
    exact ⟨_, _, StartServer_starting s configFilePath logLevel w, hconn,
      by simp [responsesSent_append, responsesSent]⟩
  | failedToStart =>
    exact ⟨_, _, StartServer_failedToStart s configFilePath logLevel w, hconn,
      by simp [responsesSent_append, responsesSent]⟩
  | exited returnCode crashed =>
    rcases StartServer_exited s configFilePath logLevel returnCode crashed w with
      ⟨hnull, -⟩ | ⟨-, s', rest, hsome, -, heff, hrest, hconn'⟩
    · rw [hconn] at hnull; exact absurd hnull (by simp)
    · refine ⟨_, s', hsome, hconn', ?_⟩
      have hnone : responsesSent rest = [] := by
        apply responsesSent_eq_nil
        intro e he command hc
        rcases hrest e he with ⟨_, _, h⟩ | ⟨_, _, h⟩ <;> rw [h] at hc <;> cases hc
      rw [heff]
      simp [responsesSent_append, responsesSent, hnone]

theorem SendCommandResponse_responds (s s0 : Launcher) (response command : Command)
    (hconn : s.m_RemoteControlServerConnector = true)
    (heffects : responsesSent s.effects = responsesSent s0.effects)
    (hname : response.name = command.name) (hid : response.clientId = command.clientId) :
    ∃ r, ((SendCommandResponse s response).map Prod.snd).map
          (fun s' => responsesSent s'.effects) = some (responsesSent s0.effects ++ [r]) ∧
      r.name = command.name ∧ r.clientId = command.clientId := by
  obtain ⟨s', heq, hresp, -⟩ := SendCommandResponse_sends s response hconn
  exact ⟨response, by simp [heq, hresp, heffects], hname, hid⟩

theorem GetConfigFiles_responds (s : Launcher) (env : Environment) (command : Command)
    (hconn : s.m_RemoteControlServerConnector = true) :
    ∃ r, (GetConfigFiles s env command).map (fun s' => responsesSent s'.effects) =
        some (responsesSent s.effects ++ [r]) ∧
      r.name = command.name ∧ r.clientId = command.clientId := by
  unfold GetConfigFiles
  cases env.directoryOpens
  · exact SendCommandResponse_responds s s _ command hconn rfl rfl rfl
  · exact SendCommandResponse_responds s s _ command hconn rfl rfl rfl

theorem AddOrUpdateConfigFile_responds (s : Launcher) (env : Environment) (command : Command)
    (hconn : s.m_RemoteControlServerConnector = true) :
    ∃ r, (AddOrUpdateConfigFile s env command).map (fun s' => responsesSent s'.effects) =
        some (responsesSent s.effects ++ [r]) ∧
      r.name = command.name ∧ r.clientId = command.clientId := by
  cases hs : s.connectorSendsResponse <;> cases hw : s.checkBox_writePermission
  all_goals first
    | (refine ⟨failureResponse command "Write permission denied.", ?_, rfl, rfl⟩
       simp [AddOrUpdateConfigFile, hw, hs, SendCommandResponse, hconn, Launcher.emit,
         responsesSent_append, responsesSent]
       done)
    | skip
  all_goals
    cases hn : GetCommandMetaDataElement command "ConfigFileName" with
    | none =>
      refine ⟨failureResponse command
        "Required metadata 'ConfigFileName' and/or 'ConfigFileContent' missing.", ?_, rfl, rfl⟩
      simp [AddOrUpdateConfigFile, hw, hs, hn, SendCommandResponse, hconn, Launcher.emit,
        responsesSent_append, responsesSent]
    | some requested =>
      cases hc : GetCommandMetaDataElement command "ConfigFileContent" with
      | none =>
        refine ⟨failureResponse command
          "Required metadata 'ConfigFileName' and/or 'ConfigFileContent' missing.", ?_, rfl, rfl⟩
        simp [AddOrUpdateConfigFile, hw, hs, hn, hc, SendCommandResponse, hconn, Launcher.emit,
          responsesSent_append, responsesSent]
      | some content =>
        obtain ⟨j, hfree, -, -⟩ := findFreeName_total s.configFiles (GetFilenameName requested)
        cases hex : FileExists s.configFiles (GetFilenameName requested) <;>
          cases ho : s.checkBox_overwritePermission <;>
          cases hf : env.fileOpens <;>
          simp [AddOrUpdateConfigFile, hw, hs, hn, hc, hex, ho, hf, hfree, SendCommandResponse,
            hconn, Launcher.emit, responsesSent_append, responsesSent, failureResponse,
            SetResponseMetaDataElement]

theorem RemoteStopServer_responds (s : Launcher) (env : Environment) (command : Command)
    (hconn : s.m_RemoteControlServerConnector = true) :
    ∃ r, (RemoteStopServer s env command).map (fun s' => responsesSent s'.effects) =
        some (responsesSent s.effects ++ [r]) ∧
      r.name = command.name ∧ r.clientId = command.clientId := by
  unfold RemoteStopServer
  cases hn : GetCommandMetaDataElement command "ConfigFileName" with
  | none => exact SendCommandResponse_responds s s _ command hconn rfl rfl rfl
  | some filename =>
    obtain ⟨result, s1, heq, hconn1, heff⟩ :=
      StopServer_channel s (GetFilenameName filename) env.waitForFinished
    simp only [heq]
    exact SendCommandResponse_responds s1 s _ command (by rw [hconn1, hconn]) heff rfl rfl

theorem RemoteStartServer_responds (s : Launcher) (env : Environment) (command : Command)
    (hconn : s.m_RemoteControlServerConnector = true) :
    ∃ r, (RemoteStartServer s env command).map (fun s' => responsesSent s'.effects) =
        some (responsesSent s.effects ++ [r]) ∧
      r.name = command.name ∧ r.clientId = command.clientId := by
  unfold RemoteStartServer
  cases hn : GetCommandMetaDataElement command "ConfigFileName" with
  | none => exact SendCommandResponse_responds s s _ command hconn rfl rfl rfl
  | some filename =>
    obtain ⟨result, s1, heq, hconn1, heff⟩ :=
      StartServer_channel s (GetFilenameName filename)
        ((StringToInt ((GetCommandMetaDataElement command "LogLevel").getD "").data).getD
          LOG_LEVEL_INFO) env.startOutcome env.waitForFinished hconn
    simp only [heq]
    cases result
    · exact SendCommandResponse_responds s1 s _ command hconn1 heff rfl rfl
    · exact SendCommandResponse_responds s1 s _ command hconn1 heff rfl rfl

/-! ## Claims on the command dispatcher -/

/-- C3, as the code has it: with the remote control connector present, a command named,
ignoring case, `GetConfigFiles`, `AddConfigFile`, `StartServer` or `StopServer` is handled to
the end with exactly one response sent, a response to that command, whatever the state, the
metadata and the answers of the world; a command named `LogSubscribe` or `LogUnsubscribe` is
handled to the end with no response sent. -/
theorem OnCommandReceivedEvent_responses (s : Launcher) (env : Environment) (command : Command)
    (hconn : s.m_RemoteControlServerConnector = true) :
    ((IsEqualInsensitive command.name.data "GetConfigFiles".data = true ∨
        IsEqualInsensitive command.name.data "AddConfigFile".data = true ∨
        IsEqualInsensitive command.name.data "StartServer".data = true ∨
        IsEqualInsensitive command.name.data "StopServer".data = true) →
      ∃ s' r, OnCommandReceivedEvent s env command = some s' ∧
        responsesSent s'.effects = responsesSent s.effects ++ [r] ∧
        r.name = command.name ∧ r.clientId = command.clientId) ∧
    ((IsEqualInsensitive command.name.data "LogSubscribe".data = true ∨
        IsEqualInsensitive command.name.data "LogUnsubscribe".data = true) →
      ∃ s', OnCommandReceivedEvent s env command = some s' ∧
        responsesSent s'.effects = responsesSent s.effects) := by
  have hlog : responsesSent (s.emit (Effect.launcherLog LOG_LEVEL_INFO
      ("Command \"" ++ command.name ++ "\" received."))).effects = responsesSent s.effects := by
    simp [Launcher.emit, responsesSent_append, responsesSent]
  have hconn' : (s.emit (Effect.launcherLog LOG_LEVEL_INFO
      ("Command \"" ++ command.name ++ "\" received."))).m_RemoteControlServerConnector = true :=
    hconn
  have hfinish : ∀ (o : Option Launcher),
      (∃ r, o.map (fun s' => responsesSent s'.effects) =
          some (responsesSent (s.emit (Effect.launcherLog LOG_LEVEL_INFO
            ("Command \"" ++ command.name ++ "\" received."))).effects ++ [r]) ∧
        r.name = command.name ∧ r.clientId = command.clientId) →
      ∃ s' r, o = some s' ∧ responsesSent s'.effects = responsesSent s.effects ++ [r] ∧
        r.name = command.name ∧ r.clientId = command.clientId := by
    intro o ⟨r, hmap, hname, hid⟩
    obtain ⟨s', hs', heff⟩ := Option.map_eq_some'.1 hmap
    exact ⟨s', r, hs', by rw [heff, hlog], hname, hid⟩
  constructor
  · rintro (h | h | h | h)
    · have heq : OnCommandReceivedEvent s env command =
          GetConfigFiles (s.emit (Effect.launcherLog LOG_LEVEL_INFO
            ("Command \"" ++ command.name ++ "\" received."))) env command := by
        simp [OnCommandReceivedEvent, h]
      rw [heq]
      exact hfinish _ (GetConfigFiles_responds _ env command hconn')
    · have h1 := isEqualInsensitive_exclusive _ _ "GetConfigFiles".data h (by decide)
      have heq : OnCommandReceivedEvent s env command =
          AddOrUpdateConfigFile (s.emit (Effect.launcherLog LOG_LEVEL_INFO
            ("Command \"" ++ command.name ++ "\" received."))) env command := by
        simp [OnCommandReceivedEvent, h, h1]
      rw [heq]
      exact hfinish _ (AddOrUpdateConfigFile_responds _ env command hconn')
    · have h1 := isEqualInsensitive_exclusive _ _ "GetConfigFiles".data h (by decide)
      have h2 := isEqualInsensitive_exclusive _ _ "AddConfigFile".data h (by decide)
      have heq : OnCommandReceivedEvent s env command =
          RemoteStartServer (s.emit (Effect.launcherLog LOG_LEVEL_INFO
            ("Command \"" ++ command.name ++ "\" received."))) env command := by
        simp [OnCommandReceivedEvent, h, h1, h2]
      rw [heq]
      exact hfinish _ (RemoteStartServer_responds _ env command hconn')
    · have h1 := isEqualInsensitive_exclusive _ _ "GetConfigFiles".data h (by decide)
      have h2 := isEqualInsensitive_exclusive _ _ "AddConfigFile".data h (by decide)
      have h3 := isEqualInsensitive_exclusive _ _ "StartServer".data h (by decide)
      have heq : OnCommandReceivedEvent s env command =
          RemoteStopServer (s.emit (Effect.launcherLog LOG_LEVEL_INFO
            ("Command \"" ++ command.name ++ "\" received."))) env command := by
        simp [OnCommandReceivedEvent, h, h1, h2, h3]
      rw [heq]
      exact hfinish _ (RemoteStopServer_responds _ env command hconn')
  · rintro (h | h)
    · have h1 := isEqualInsensitive_exclusive _ _ "GetConfigFiles".data h (by decide)
      have h2 := isEqualInsensitive_exclusive _ _ "AddConfigFile".data h (by decide)
      have h3 := isEqualInsensitive_exclusive _ _ "StartServer".data h (by decide)
      have h4 := isEqualInsensitive_exclusive _ _ "StopServer".data h (by decide)
      simp only [OnCommandReceivedEvent, h, h1, h2, h3, h4, if_true, Bool.false_eq_true,
        if_false]
      exact ⟨_, rfl, hlog⟩
    · have h1 := isEqualInsensitive_exclusive _ _ "GetConfigFiles".data h (by decide)
      have h2 := isEqualInsensitive_exclusive _ _ "AddConfigFile".data h (by decide)
      have h3 := isEqualInsensitive_exclusive _ _ "StartServer".data h (by decide)
      have h4 := isEqualInsensitive_exclusive _ _ "StopServer".data h (by decide)
      have h5 := isEqualInsensitive_exclusive _ _ "LogSubscribe".data h (by decide)
      simp only [OnCommandReceivedEvent, h, h1, h2, h3, h4, h5, if_true, Bool.false_eq_true,
        if_false]
      exact ⟨_, rfl, hlog⟩

/-- C3, on examples: a `StopServer` command without metadata gets one response, a
`LogUnsubscribe` command gets none. -/
theorem OnCommandReceivedEvent_responses_witness :
    (∃ s' r, OnCommandReceivedEvent (Launcher.initial true) Environment.plain
        (Command.received "stopserver" []) = some s' ∧
      responsesSent s'.effects = responsesSent (Launcher.initial true).effects ++ [r] ∧
      r.name = "stopserver" ∧ r.clientId = 7) ∧
    (∃ s', OnCommandReceivedEvent (Launcher.initial true) Environment.plain
        (Command.received "LogUnsubscribe" []) = some s' ∧
      responsesSent s'.effects = responsesSent (Launcher.initial true).effects) :=
  ⟨(OnCommandReceivedEvent_responses (Launcher.initial true) Environment.plain
      (Command.received "stopserver" []) rfl).1 (by decide),
   (OnCommandReceivedEvent_responses (Launcher.initial true) Environment.plain
      (Command.received "LogUnsubscribe" []) rfl).2 (by decide)⟩

/-- C3 fails as stated: the command `LogSubscribe` from client 7 is handled to the end, the
client is subscribed, and no response is sent for it. -/
theorem OnCommandReceivedEvent_LogSubscribe_silent :
    IsEqualInsensitive "LogSubscribe".data "LogSubscribe".data = true ∧
    (OnCommandReceivedEvent (Launcher.initial true) Environment.plain
        (Command.received "LogSubscribe" [])).map
      (fun s => (responsesSent s.effects, s.m_RemoteControlLogSubscribedClients)) =
      some ([], [7]) := by
  decide

/-! ## The files of the configuration directory -/

theorem FileExists_eq_isSome (files : List (String × List Char)) (name : String) :
    FileExists files name = (fileContent files name).isSome := by
  induction files with
  | nil => rfl
  | cons f files ih =>
    by_cases h : f.1 = name
    · simp [FileExists, fileContent, h]
    · simp only [FileExists, fileContent] at ih ⊢
      simp [h, ih]

theorem RemoveFile_cons (f : String × List Char) (files : List (String × List Char))
    (removed : String) :
    RemoveFile (f :: files) removed =
      if f.1 = removed then RemoveFile files removed else f :: RemoveFile files removed := by
  by_cases h : f.1 = removed <;> simp [RemoveFile, h]

theorem fileContent_cons (f : String × List Char) (files : List (String × List Char))
    (name : String) :
    fileContent (f :: files) name = if f.1 = name then some f.2 else fileContent files name := by
  by_cases h : f.1 = name <;> simp [fileContent, h]

theorem fileContent_RemoveFile (files : List (String × List Char)) (removed name : String) :
    fileContent (RemoveFile files removed) name =
      if name = removed then none else fileContent files name := by
  induction files with
  | nil => simp [RemoveFile, fileContent]
  | cons f files ih =>
    rw [RemoveFile_cons, fileContent_cons]
    by_cases h1 : f.1 = removed
    · rw [if_pos h1, ih]
      by_cases h2 : name = removed
      · rw [if_pos h2, if_pos h2]
      · have h3 : ¬ f.1 = name := fun h => h2 (h ▸ h1)
        rw [if_neg h2, if_neg h2, if_neg h3]
    · rw [if_neg h1, fileContent_cons, ih]
      by_cases h2 : f.1 = name
      · have h3 : ¬ name = removed := fun h => h1 (h2 ▸ h)
        rw [if_pos h2, if_neg h3, if_pos h2]
      · rw [if_neg h2, if_neg h2]

theorem fileContent_append_single (files : List (String × List Char)) (added name : String)
    (content : List Char) :
    fileContent (files ++ [(added, content)]) name =
      match fileContent files name with
      | some found => some found
      | none => if added = name then some content else none := by
  induction files with
  | nil =>
    by_cases h : added = name <;> simp [fileContent, h]
  | cons f files ih =>
    simp only [fileContent] at ih ⊢
    by_cases h : f.1 = name
    · simp [h]
    · simpa [h] using ih

theorem fileContent_writeFile (files : List (String × List Char)) (written name : String)
    (content : List Char) :
    fileContent (writeFile files written content) name =
      if name = written then some content else fileContent files name := by
  unfold writeFile
  rw [fileContent_append_single, fileContent_RemoveFile]
  by_cases h : name = written
  · subst h; simp
  · have h' : ¬ written = name := fun e => h e.symm
    simp only [h, if_false, h']
    cases fileContent files name <;> rfl

theorem backup_name_ne (name : String) : name ++ ".bak" ≠ name := by
  intro h
  have hlen := congrArg String.length h
  simp at hlen
  exact absurd hlen (by decide)

theorem backup_name_ne' (name : String) : name ≠ name ++ ".bak" :=
  fun h => backup_name_ne name h.symm

/-! ## Claims on the configuration file store and on missing metadata -/

/-- C11. A `StartServer` or `StopServer` command without `ConfigFileName` metadata is answered,
by `RemoteStartServer` and `RemoteStopServer` alike and through the dispatcher, with one
response that has `Successful` false and the error message "Config file not specified."; the
state afterwards is the one before but for the record of calls, which gains that response and
log statements only, so the instance table is unchanged and no process is started or
stopped. -/
theorem Remote_commands_without_ConfigFileName (s : Launcher) (env : Environment)
    (command : Command)
    (hconn : s.m_RemoteControlServerConnector = true)
    (hmissing : GetCommandMetaDataElement command "ConfigFileName" = none) :
    (failureResponse command "Config file not specified.").successful = false ∧
    (failureResponse command "Config file not specified.").errorMessage =
      "Config file not specified." ∧
    RemoteStartServer s env command = some { s with effects := s.effects ++
      [Effect.sendCommandResponse (failureResponse command "Config file not specified.")] ++
      (if s.connectorSendsResponse then []
       else [Effect.launcherLog LOG_LEVEL_ERROR "Unable to send command response to client",
             Effect.launcherLog LOG_LEVEL_ERROR
               "Command received but response could not be sent."]) } ∧
    RemoteStopServer s env command = RemoteStartServer s env command ∧
    ((IsEqualInsensitive command.name.data "StartServer".data = true ∨
        IsEqualInsensitive command.name.data "StopServer".data = true) →
      OnCommandReceivedEvent s env command = some { s with effects := s.effects ++
        [Effect.launcherLog LOG_LEVEL_INFO ("Command \"" ++ command.name ++ "\" received."),
         Effect.sendCommandResponse (failureResponse command "Config file not specified.")] ++
        (if s.connectorSendsResponse then []
         else [Effect.launcherLog LOG_LEVEL_ERROR "Unable to send command response to client",
               Effect.launcherLog LOG_LEVEL_ERROR
                 "Command received but response could not be sent."]) }) := by
  refine ⟨rfl, rfl, ?_, ?_, ?_⟩
  · cases hs : s.connectorSendsResponse <;>
      simp [RemoteStartServer, hmissing, SendCommandResponse, hconn, hs, Launcher.emit]
  · simp [RemoteStartServer, RemoteStopServer, hmissing]
  · rintro (h | h)
    · have h1 := isEqualInsensitive_exclusive _ _ "GetConfigFiles".data h (by decide)
      have h2 := isEqualInsensitive_exclusive _ _ "AddConfigFile".data h (by decide)
      cases hs : s.connectorSendsResponse <;>
        simp [OnCommandReceivedEvent, h, h1, h2, RemoteStartServer, hmissing,
          SendCommandResponse, hconn, hs, Launcher.emit]
    · have h1 := isEqualInsensitive_exclusive _ _ "GetConfigFiles".data h (by decide)
      have h2 := isEqualInsensitive_exclusive _ _ "AddConfigFile".data h (by decide)
      have h3 := isEqualInsensitive_exclusive _ _ "StartServer".data h (by decide)
      cases hs : s.connectorSendsResponse <;>
        simp [OnCommandReceivedEvent, h, h1, h2, h3, RemoteStopServer, hmissing,
          SendCommandResponse, hconn, hs, Launcher.emit]

/-- C11, on an example: a `StopServer` command without metadata while `setup.xml` is
tracked. -/
theorem Remote_commands_without_ConfigFileName_witness :
    (OnCommandReceivedEvent Launcher.tracking Environment.plain
        (Command.received "StopServer" [])).map
      (fun s => (s.m_ServerInstances, responsesSent s.effects)) =
      some (Launcher.tracking.m_ServerInstances,
        [failureResponse (Command.received "StopServer" []) "Config file not specified."]) := by
  have h := (Remote_commands_without_ConfigFileName Launcher.tracking Environment.plain
    (Command.received "StopServer" []) (by decide) (by decide)).2.2.2.2 (Or.inr (by decide))
  rw [h]
  decide

/-- C14. With the write permission box unchecked `AddOrUpdateConfigFile` answers any command,
whatever its metadata, with one response that has `Successful` false and the error message
"Write permission denied."; the files of the configuration directory are the ones before the
call, and the rest of the state changes in the record of calls only. -/
theorem AddOrUpdateConfigFile_write_denied (s : Launcher) (env : Environment)
    (command : Command)
    (hconn : s.m_RemoteControlServerConnector = true)
    (hdenied : s.checkBox_writePermission = false) :
    ∃ s', AddOrUpdateConfigFile s env command = some s' ∧
      s'.configFiles = s.configFiles ∧
      s' = { s with effects := s'.effects } ∧
      responsesSent s'.effects = responsesSent s.effects ++
        [{ command with successful := false, errorMessage := "Write permission denied." }] := by
  cases hs : s.connectorSendsResponse <;>
    simp [AddOrUpdateConfigFile, hdenied, SendCommandResponse, hconn, hs, Launcher.emit,
      responsesSent_append, responsesSent, failureResponse]

/-- C14, on an example: the command for `a.xml` on a launcher that allows no writing. -/
theorem AddOrUpdateConfigFile_write_denied_witness :
    ∃ s', AddOrUpdateConfigFile Launcher.remote Environment.plain Command.addConfigFile =
        some s' ∧
      s'.configFiles = Launcher.remote.configFiles ∧
      s' = { Launcher.remote with effects := s'.effects } ∧
      responsesSent s'.effects = responsesSent Launcher.remote.effects ++
        [{ Command.addConfigFile with
            successful := false, errorMessage := "Write permission denied." }] :=
  AddOrUpdateConfigFile_write_denied Launcher.remote Environment.plain Command.addConfigFile
    (by decide) (by decide)

/-- C16. With write and overwrite permission, for a command that names an existing file and
carries a new content, `AddOrUpdateConfigFile` returns. When the file cannot be opened for
writing, the file holds its original content afterwards and the one response sent is the
command with `Successful` false and the error message "Unable to write to device set
configuration directory."; when it opens, the file holds the new content, the `.bak` copy does
not exist and the one response sent is the command with `Successful` true and the name of the
file as the response metadata `ConfigFileName`. -/
theorem AddOrUpdateConfigFile_overwrite (s : Launcher) (env : Environment) (command : Command)
    (requested newContent : String) (original : List Char)
    (hconn : s.m_RemoteControlServerConnector = true)
    (hwrite : s.checkBox_writePermission = true)
    (hoverwrite : s.checkBox_overwritePermission = true)
    (hname : GetCommandMetaDataElement command "ConfigFileName" = some requested)
    (hcontent : GetCommandMetaDataElement command "ConfigFileContent" = some newContent)
    (hexists : fileContent s.configFiles (GetFilenameName requested) = some original) :
    ∃ s', AddOrUpdateConfigFile s env command = some s' ∧
      (env.fileOpens = false →
        fileContent s'.configFiles (GetFilenameName requested) = some original ∧
        responsesSent s'.effects = responsesSent s.effects ++
          [{ command with
              successful := false,
              errorMessage := "Unable to write to device set configuration directory." }]) ∧
      (env.fileOpens = true →
        fileContent s'.configFiles (GetFilenameName requested) = some newContent.data ∧
        FileExists s'.configFiles (GetFilenameName requested ++ ".bak") = false ∧
        responsesSent s'.effects = responsesSent s.effects ++
          [{ command with
              successful := true,
              responseMetaData :=
                command.responseMetaData.filter (fun m => m.1 ≠ "ConfigFileName") ++
                  [("ConfigFileName", GetFilenameName requested)] }]) := by
  have hfile : FileExists s.configFiles (GetFilenameName requested) = true := by
    rw [FileExists_eq_isSome, hexists]; rfl
  have hne := backup_name_ne (GetFilenameName requested)
  have hne' := backup_name_ne' (GetFilenameName requested)
  cases hf : env.fileOpens <;> cases hs : s.connectorSendsResponse <;>
    simp [AddOrUpdateConfigFile, hwrite, hoverwrite, hname, hcontent, hfile, hf, hs,
      SendCommandResponse, hconn, Launcher.emit, responsesSent_append, responsesSent,
      failureResponse, SetResponseMetaDataElement, CopyAFile, hexists, FileExists_eq_isSome,
      fileContent_RemoveFile, fileContent_writeFile, hne, hne']

/-- C16, on an example: `a.xml` with content `old` is to be replaced by `new`, once with a
directory that cannot be written and once with one that can. -/
theorem AddOrUpdateConfigFile_overwrite_witness :
    (∃ s', AddOrUpdateConfigFile (Launcher.writable true) Environment.readOnly
        Command.addConfigFile = some s' ∧
      fileContent s'.configFiles "a.xml" = some "old".data ∧
      (responsesSent s'.effects).map (fun r => (r.name, r.successful, r.errorMessage)) =
        [("AddConfigFile", false,
          "Unable to write to device set configuration directory.")]) ∧
    (∃ s', AddOrUpdateConfigFile (Launcher.writable true) Environment.plain
        Command.addConfigFile = some s' ∧
      fileContent s'.configFiles "a.xml" = some "new".data ∧
      FileExists s'.configFiles "a.xml.bak" = false ∧
      (responsesSent s'.effects).map (fun r => (r.name, r.successful, r.responseMetaData)) =
        [("AddConfigFile", true, [("ConfigFileName", "a.xml")])]) := by
  constructor
  · obtain ⟨s', heq, hfail, -⟩ := AddOrUpdateConfigFile_overwrite (Launcher.writable true)
      Environment.readOnly Command.addConfigFile "dir/a.xml" "new" "old".data
      (by decide) (by decide) (by decide) (by decide) (by decide) (by decide)
    obtain ⟨hfile, hresp⟩ := hfail (by decide)
    exact ⟨s', heq, hfile, by rw [hresp]; decide⟩
  · obtain ⟨s', heq, -, hok⟩ := AddOrUpdateConfigFile_overwrite (Launcher.writable true)
      Environment.plain Command.addConfigFile "dir/a.xml" "new" "old".data
      (by decide) (by decide) (by decide) (by decide) (by decide) (by decide)
    obtain ⟨hfile, hbak, hresp⟩ := hok (by decide)
    exact ⟨s', heq, hfile, hbak, by rw [hresp]; decide⟩

/-- Without overwrite permission and with a file that opens, a command that names an existing
file is written to the first free name `name[j]`: that file holds the new content, the response
reports that name, and every file other than `name[j]` and `name[j].bak` is as before. -/
theorem AddOrUpdateConfigFile_renames (s : Launcher) (env : Environment) (command : Command)
    (requested newContent : String)
    (hconn : s.m_RemoteControlServerConnector = true)
    (hwrite : s.checkBox_writePermission = true)
    (hoverwrite : s.checkBox_overwritePermission = false)
    (hname : GetCommandMetaDataElement command "ConfigFileName" = some requested)
    (hcontent : GetCommandMetaDataElement command "ConfigFileContent" = some newContent)
    (hexists : FileExists s.configFiles (GetFilenameName requested) = true)
    (hopens : env.fileOpens = true) :
    ∃ j s', AddOrUpdateConfigFile s env command = some s' ∧
      FileExists s.configFiles (bracketedName (GetFilenameName requested) j) = false ∧
      (∀ k < j, FileExists s.configFiles (bracketedName (GetFilenameName requested) k) = true) ∧
      fileContent s'.configFiles (bracketedName (GetFilenameName requested) j) =
        some newContent.data ∧
      fileContent s'.configFiles (bracketedName (GetFilenameName requested) j ++ ".bak") =
        none ∧
      (∀ name, name ≠ bracketedName (GetFilenameName requested) j →
        name ≠ bracketedName (GetFilenameName requested) j ++ ".bak" →
        fileContent s'.configFiles name = fileContent s.configFiles name) ∧
      responsesSent s'.effects = responsesSent s.effects ++
        [SetResponseMetaDataElement { command with successful := true }
          "ConfigFileName" (bracketedName (GetFilenameName requested) j)] := by
  obtain ⟨j, hfind, hfree, hbelow⟩ :=
    findFreeName_total s.configFiles (GetFilenameName requested)
  have hne := backup_name_ne (bracketedName (GetFilenameName requested) j)
  have hne' := backup_name_ne' (bracketedName (GetFilenameName requested) j)
  refine ⟨j, ?_⟩
  cases hs : s.connectorSendsResponse <;>
    simp [AddOrUpdateConfigFile, hwrite, hoverwrite, hname, hcontent, hexists, hopens,
      hfind, SendCommandResponse, hconn, hs, Launcher.emit, responsesSent_append, responsesSent,
      fileContent_RemoveFile, fileContent_writeFile, hne, hne', hfree] <;>
    exact ⟨hbelow, fun name h1 h2 => by simp [h1, h2]⟩

/-- C15 fails on the code in one case: with write permission and no overwrite permission, in a
directory that holds `a.xml` and a file named `a.xml[0].bak`, the command for `a.xml` writes
the new content to `a.xml[0]` and reports that name, and the file `a.xml[0].bak`, which existed
before, is removed. Without such a file two commands in a row create `a.xml[0]` and then
`a.xml[1]` next to the unchanged `a.xml`. -/
theorem AddOrUpdateConfigFile_removes_stale_backup :
    fileContent Launcher.writableWithBackup.configFiles "a.xml[0].bak" = some "keep".data ∧
    (AddOrUpdateConfigFile Launcher.writableWithBackup Environment.plain
        Command.addConfigFile).map
      (fun s => (s.configFiles,
        (responsesSent s.effects).map (fun r => r.responseMetaData))) =
      some ([("a.xml", "old".data), ("a.xml[0]", "new".data)],
        [[("ConfigFileName", "a.xml[0]")]]) ∧
    ((AddOrUpdateConfigFile (Launcher.writable false) Environment.plain
        Command.addConfigFile).bind
      (fun s => AddOrUpdateConfigFile s Environment.plain Command.addConfigFile)).map
      (fun s => s.configFiles) =
      some [("a.xml", "old".data), ("a.xml[0]", "new".data), ("a.xml[1]", "new".data)] := by
  decide

/-! ## Claims on the log subscriptions -/

/-- Erasing the ids of a list from a set, one after the other, keeps the ids that are not in
the list. -/
theorem mem_foldl_erase (unsubscribed : List Int) (subscribed : List Int) (id : Int) :
    id ∈ unsubscribed.foldl
        (fun subscribed clientId => subscribed.filter (fun id => id ≠ clientId)) subscribed ↔
      id ∈ subscribed ∧ id ∉ unsubscribed := by
  induction unsubscribed generalizing subscribed with
  | nil => simp
  | cons clientId rest ih =>
    rw [List.foldl_cons, ih]
    simp only [List.mem_filter, List.mem_cons, not_or, decide_eq_true_eq]
    tauto

/-- Erasing ids from a set gives a sublist of it. -/
theorem foldl_erase_sublist (unsubscribed : List Int) (subscribed : List Int) :
    List.Sublist (unsubscribed.foldl
      (fun subscribed clientId => subscribed.filter (fun id => id ≠ clientId)) subscribed)
      subscribed := by
  induction unsubscribed generalizing subscribed with
  | nil => simp
  | cons clientId rest ih =>
    rw [List.foldl_cons]
    exact (ih _).trans (List.filter_sublist _)

/-- With a remote control connector `OnClientDisconnectedEvent` erases from the subscription
set the subscribed ids that are not in the list of connected clients. -/
theorem OnClientDisconnectedEvent_connector (s : Launcher)
    (hconn : s.m_RemoteControlServerConnector = true) :
    OnClientDisconnectedEvent s = some { s with
      m_RemoteControlLogSubscribedClients :=
        (s.m_RemoteControlLogSubscribedClients.filter
          (fun clientId => !(s.connectorClientIds.any (fun entry => entry = clientId)))).foldl
          (fun subscribed clientId => subscribed.filter (fun id => id ≠ clientId))
          s.m_RemoteControlLogSubscribedClients } := by
  simp only [OnClientDisconnectedEvent, hconn, if_true]

/-- C12. With a remote control connector, `OnClientDisconnectedEvent` returns, and the
subscription set afterwards holds exactly the ids that were subscribed and are in the list of
connected client ids: a subscribed id that is not connected is removed, a subscribed id that is
connected is kept, no id is added (the new set is a sublist of the old one), and nothing else
in the state changes. -/
theorem OnClientDisconnectedEvent_intersects (s : Launcher)
    (hconn : s.m_RemoteControlServerConnector = true) :
    ∃ s', OnClientDisconnectedEvent s = some s' ∧
      (∀ id, id ∈ s'.m_RemoteControlLogSubscribedClients ↔
        id ∈ s.m_RemoteControlLogSubscribedClients ∧ id ∈ s.connectorClientIds) ∧
      List.Sublist s'.m_RemoteControlLogSubscribedClients
        s.m_RemoteControlLogSubscribedClients ∧
      s' = { s with
        m_RemoteControlLogSubscribedClients := s'.m_RemoteControlLogSubscribedClients } := by
  refine ⟨_, OnClientDisconnectedEvent_connector s hconn, ?_, ?_, rfl⟩
  · intro id
    simp only [mem_foldl_erase, List.mem_filter, Bool.not_eq_true', List.any_eq_false,
      decide_eq_true_eq, not_and, not_forall, Classical.not_not]
    constructor
    · rintro ⟨hmem, hkeep⟩
      obtain ⟨entry, hentry, heq⟩ := hkeep hmem
      exact ⟨hmem, heq ▸ hentry⟩
    · rintro ⟨hmem, hconnected⟩
      exact ⟨hmem, fun _ => ⟨id, hconnected, rfl⟩⟩
  · exact foldl_erase_sublist _ _

/-- C12, on an example: clients 7 and 3 are subscribed, clients 7 and 9 are connected. -/
theorem OnClientDisconnectedEvent_intersects_witness :
    ∃ s', OnClientDisconnectedEvent Launcher.subscribed = some s' ∧
      (∀ id, id ∈ s'.m_RemoteControlLogSubscribedClients ↔
        id ∈ Launcher.subscribed.m_RemoteControlLogSubscribedClients ∧
          id ∈ Launcher.subscribed.connectorClientIds) ∧
      List.Sublist s'.m_RemoteControlLogSubscribedClients
        Launcher.subscribed.m_RemoteControlLogSubscribedClients ∧
      s' = { Launcher.subscribed with
        m_RemoteControlLogSubscribedClients := s'.m_RemoteControlLogSubscribedClients } :=
  OnClientDisconnectedEvent_intersects Launcher.subscribed (by decide)

theorem commandsDelivered_append (a b : List Effect) :
    commandsDelivered (a ++ b) = commandsDelivered a ++ commandsDelivered b := by
  induction a with
  | nil => rfl
  | cons e a ih =>
    cases e with
    | sendCommand command connected => cases connected <;> simp [commandsDelivered, ih]
    | _ => simp [commandsDelivered, ih]

theorem commandsDelivered_map (build : Int → Command) (ids : List Int) :
    commandsDelivered (ids.map (fun id => Effect.sendCommand (build id) true)) =
      ids.map build := by
  induction ids with
  | nil => rfl
  | cons id ids ih => simp [commandsDelivered, ih]

/-- With a connector the loop over the subscribed clients hands one command per id to
`SendCommand`, in the order of the ids. -/
theorem sendToSubscribers_connector (build : Int → Command) (ids : List Int) (s : Launcher)
    (hconn : s.m_RemoteControlServerConnector = true) :
    sendToSubscribers build s ids = some { s with
      effects := s.effects ++
        ids.map (fun id => Effect.sendCommand (build id) s.connectorIsConnected) } := by
  induction ids generalizing s with
  | nil => simp [sendToSubscribers]
  | cons id ids ih =>
    simp only [sendToSubscribers, SendCommand, hconn, if_true]
    rw [ih (s.emit (Effect.sendCommand (build id) s.connectorIsConnected)) hconn]
    simp [Launcher.emit, hconn]

/-- A command named `LogSubscribe`, in any case of the letters, inserts the id of its client
into the subscription set. -/
theorem LogSubscribe_inserts (s : Launcher) (env : Environment) (command : Command)
    (h : IsEqualInsensitive command.name.data "LogSubscribe".data = true) :
    OnCommandReceivedEvent s env command = some { s with
      m_RemoteControlLogSubscribedClients :=
        if command.clientId ∈ s.m_RemoteControlLogSubscribedClients then
          s.m_RemoteControlLogSubscribedClients
        else s.m_RemoteControlLogSubscribedClients ++ [command.clientId],
      effects := s.effects ++ [Effect.launcherLog LOG_LEVEL_INFO
        ("Command \"" ++ command.name ++ "\" received.")] } := by
  have h1 := isEqualInsensitive_exclusive _ _ "GetConfigFiles".data h (by decide)
  have h2 := isEqualInsensitive_exclusive _ _ "AddConfigFile".data h (by decide)
  have h3 := isEqualInsensitive_exclusive _ _ "StartServer".data h (by decide)
  have h4 := isEqualInsensitive_exclusive _ _ "StopServer".data h (by decide)
  simp only [OnCommandReceivedEvent, h, h1, h2, h3, h4, if_true, Bool.false_eq_true,
    if_false, Launcher.emit]

/-- A command named `LogUnsubscribe`, in any case of the letters, erases the id of its client
from the subscription set. -/
theorem LogUnsubscribe_erases (s : Launcher) (env : Environment) (command : Command)
    (h : IsEqualInsensitive command.name.data "LogUnsubscribe".data = true) :
    OnCommandReceivedEvent s env command = some { s with
      m_RemoteControlLogSubscribedClients :=
        s.m_RemoteControlLogSubscribedClients.filter (fun id => id ≠ command.clientId),
      effects := s.effects ++ [Effect.launcherLog LOG_LEVEL_INFO
        ("Command \"" ++ command.name ++ "\" received.")] } := by
  have h1 := isEqualInsensitive_exclusive _ _ "GetConfigFiles".data h (by decide)
  have h2 := isEqualInsensitive_exclusive _ _ "AddConfigFile".data h (by decide)
  have h3 := isEqualInsensitive_exclusive _ _ "StartServer".data h (by decide)
  have h4 := isEqualInsensitive_exclusive _ _ "StopServer".data h (by decide)
  have h5 := isEqualInsensitive_exclusive _ _ "LogSubscribe".data h (by decide)
  simp only [OnCommandReceivedEvent, h, h1, h2, h3, h4, h5, if_true, Bool.false_eq_true,
    if_false, Launcher.emit]

/-- With connector and connection, a message event and a message that is not empty and has a
token, `OnLogEvent` sends the `LogMessage` command to the subscribed ids in ascending order,
between the removal and the renewal of the log observers. -/
theorem OnLogEvent_connected (s : Launcher) (event : LogEvent) (callData : List Char)
    (hconn : s.m_RemoteControlServerConnector = true)
    (hconnected : s.connectorIsConnected = true)
    (hsubscribed : s.m_RemoteControlLogSubscribedClients ≠ [])
    (hevent : event ≠ LogEvent.other)
    (hmessage : callData ≠ [])
    (htokens : SplitStringIntoTokens callData '|' ≠ []) :
    OnLogEvent s event callData = some { s with
      effects := s.effects ++ [Effect.removeLogObserver] ++
        (s.m_RemoteControlLogSubscribedClients.insertionSort (fun a b => a ≤ b)).map
          (fun id => Effect.sendCommand
            (logMessageCommand id
              (String.mk (((SplitStringIntoTokens callData '|').drop 1).map
                (fun token => '|' :: token)).flatten)
              (String.mk ((SplitStringIntoTokens callData '|').getD 0 []))
              (if (SplitStringIntoTokens callData '|').length > 2 ∧
                  hasSubstring callData "SERVER>".data then "SERVER" else "LAUNCHER")) true) ++
        [Effect.addLogObserver false, Effect.addLogObserver true] } := by
  have hlen : 0 < (SplitStringIntoTokens callData '|').length := List.length_pos.2 htokens
  have hsend := sendToSubscribers_connector
    (fun clientId => logMessageCommand clientId
      (String.mk (((SplitStringIntoTokens callData '|').drop 1).map
        (fun token => '|' :: token)).flatten)
      (String.mk ((SplitStringIntoTokens callData '|').getD 0 []))
      (if (SplitStringIntoTokens callData '|').length > 2 ∧
          hasSubstring callData "SERVER>".data then "SERVER" else "LAUNCHER"))
    (s.m_RemoteControlLogSubscribedClients.insertionSort (fun a b => a ≤ b))
    (s.emit Effect.removeLogObserver) hconn
  cases event with
  | other => exact absurd rfl hevent
  | MessageLogged =>
    simp only [OnLogEvent]
    rw [if_neg (by simp [hconn, hconnected]), if_neg hsubscribed, if_pos ⟨hmessage, hlen⟩, hsend]
    simp [Launcher.emit, hconnected, hconn]
  | WideMessageLogged =>
    simp only [OnLogEvent]
    rw [if_neg (by simp [hconn, hconnected]), if_neg hsubscribed, if_pos ⟨hmessage, hlen⟩, hsend]
    simp [Launcher.emit, hconnected, hconn]

/-- In a list without repetition an id occurs once when it is a member, else not at all. -/
theorem length_filter_eq_of_nodup (ids : List Int) (clientId : Int) (hnodup : ids.Nodup) :
    (ids.filter (fun id => id = clientId)).length = if clientId ∈ ids then 1 else 0 := by
  induction ids with
  | nil => simp
  | cons id ids ih =>
    have hparts := List.nodup_cons.1 hnodup
    by_cases h : id = clientId
    · subst h
      have hnot : id ∉ ids := hparts.1
      have hrest := ih hparts.2
      rw [if_neg hnot] at hrest
      simp [List.filter_cons, hrest]
    · have hne : ¬ clientId = id := fun h' => h h'.symm
      simp [List.filter_cons, h, hne, ih hparts.2]

/-- C13. With connector and connection, for a message event whose text is not empty and has
a token between the bars, `OnLogEvent` returns and changes the record of calls only; the
commands it delivers to the connector are all named `LogMessage` and carry the same `Message`,
`LogLevel` and `Origin`, and among them there is exactly one for a subscribed client id and
none for any other id (the subscription set has no repetition, as a set). A command named
`LogSubscribe` makes the id of its client a member of the set and no other id; a command named
`LogUnsubscribe` takes the id of its client out of the set and no other id. -/
theorem OnLogEvent_one_message_per_subscriber (s : Launcher) (event : LogEvent)
    (callData : List Char)
    (hconn : s.m_RemoteControlServerConnector = true)
    (hconnected : s.connectorIsConnected = true)
    (hnodup : s.m_RemoteControlLogSubscribedClients.Nodup)
    (hevent : event ≠ LogEvent.other)
    (hmessage : callData ≠ [])
    (htokens : SplitStringIntoTokens callData '|' ≠ []) :
    (∃ s' sent message logLevel origin,
      OnLogEvent s event callData = some s' ∧
      s' = { s with effects := s'.effects } ∧
      commandsDelivered s'.effects = commandsDelivered s.effects ++ sent ∧
      (∀ command ∈ sent, command.name = "LogMessage" ∧
        command.commandMetaData =
          [("Message", message), ("LogLevel", logLevel), ("Origin", origin)]) ∧
      (∀ clientId, (sent.filter (fun command => command.clientId = clientId)).length =
        if clientId ∈ s.m_RemoteControlLogSubscribedClients then 1 else 0)) ∧
    (∀ env command, IsEqualInsensitive command.name.data "LogSubscribe".data = true →
      ∃ s', OnCommandReceivedEvent s env command = some s' ∧
        s'.m_RemoteControlLogSubscribedClients.Nodup ∧
        ∀ id, id ∈ s'.m_RemoteControlLogSubscribedClients ↔
          id = command.clientId ∨ id ∈ s.m_RemoteControlLogSubscribedClients) ∧
    (∀ env command, IsEqualInsensitive command.name.data "LogUnsubscribe".data = true →
      ∃ s', OnCommandReceivedEvent s env command = some s' ∧
        s'.m_RemoteControlLogSubscribedClients.Nodup ∧
        ∀ id, id ∈ s'.m_RemoteControlLogSubscribedClients ↔
          id ≠ command.clientId ∧ id ∈ s.m_RemoteControlLogSubscribedClients) := by
  refine ⟨?_, ?_, ?_⟩
  · by_cases hsubscribed : s.m_RemoteControlLogSubscribedClients = []
    · refine ⟨s, [], "", "", "", ?_, rfl, by simp, by simp, by simp [hsubscribed]⟩
      simp only [OnLogEvent]
      rw [if_neg (by simp [hconn, hconnected]), if_pos hsubscribed]
    · refine ⟨_,
        (s.m_RemoteControlLogSubscribedClients.insertionSort (fun a b => a ≤ b)).map
          (fun id => logMessageCommand id
            (String.mk (((SplitStringIntoTokens callData '|').drop 1).map
              (fun token => '|' :: token)).flatten)
            (String.mk ((SplitStringIntoTokens callData '|').getD 0 []))
            (if (SplitStringIntoTokens callData '|').length > 2 ∧
                hasSubstring callData "SERVER>".data then "SERVER" else "LAUNCHER")),
        String.mk (((SplitStringIntoTokens callData '|').drop 1).map
          (fun token => '|' :: token)).flatten,
        String.mk ((SplitStringIntoTokens callData '|').getD 0 []),
        (if (SplitStringIntoTokens callData '|').length > 2 ∧
            hasSubstring callData "SERVER>".data then "SERVER" else "LAUNCHER"),
        OnLogEvent_connected s event callData hconn hconnected hsubscribed hevent hmessage
          htokens, rfl, ?_, ?_, ?_⟩
      · rw [commandsDelivered_append, commandsDelivered_append, commandsDelivered_append,
          commandsDelivered_map]
        simp [commandsDelivered]
      · intro command hmem
        obtain ⟨id, -, rfl⟩ := List.mem_map.1 hmem
        exact ⟨rfl, rfl⟩
      · intro clientId
        rw [List.filter_map, List.length_map,
          ← length_filter_eq_of_nodup _ clientId hnodup]
        exact ((List.perm_insertionSort _ _).filter _).length_eq
  · intro env command h
    refine ⟨_, LogSubscribe_inserts s env command h, ?_, ?_⟩
    · by_cases hmem : command.clientId ∈ s.m_RemoteControlLogSubscribedClients
      · simpa [hmem] using hnodup
      · simp only [hmem, if_false]
        exact List.Nodup.append hnodup (List.nodup_singleton _) (by simpa using hmem)
    · intro id
      by_cases hmem : command.clientId ∈ s.m_RemoteControlLogSubscribedClients
      · simp only [hmem, if_true]
        constructor
        · exact Or.inr
        · rintro (rfl | h') <;> assumption
      · simp only [hmem, if_false, List.mem_append, List.mem_singleton]
        tauto
  · intro env command h
    refine ⟨_, LogUnsubscribe_erases s env command h, hnodup.filter _, ?_⟩
    intro id
    simp only [List.mem_filter, decide_eq_true_eq]
    tauto

/-- C13, on an example: clients 7 and 3 are subscribed and a line of the server is logged. -/
theorem OnLogEvent_one_message_per_subscriber_witness :
    ∃ s' sent message logLevel origin,
      OnLogEvent Launcher.subscribed LogEvent.MessageLogged "INFO|t|SERVER> up|x".data =
        some s' ∧
      s' = { Launcher.subscribed with effects := s'.effects } ∧
      commandsDelivered s'.effects = commandsDelivered Launcher.subscribed.effects ++ sent ∧
      (∀ command ∈ sent, command.name = "LogMessage" ∧
        command.commandMetaData =
          [("Message", message), ("LogLevel", logLevel), ("Origin", origin)]) ∧
      (∀ clientId, (sent.filter (fun command => command.clientId = clientId)).length =
        if clientId ∈ Launcher.subscribed.m_RemoteControlLogSubscribedClients then 1 else 0) :=
  (OnLogEvent_one_message_per_subscriber Launcher.subscribed LogEvent.MessageLogged
    "INFO|t|SERVER> up|x".data (by decide) (by decide) (by decide) (by decide) (by decide)
    (by decide)).1

/-- The scenario of a subscription: client 7 sends `LogSubscribe`, then a line of the server
is logged: the connector gets one `LogMessage` command, for client 7, with origin `SERVER`. -/
theorem LogSubscribe_then_OnLogEvent :
    ((OnCommandReceivedEvent Launcher.remote Environment.plain
        (Command.received "LogSubscribe" [])).bind
      (fun s => OnLogEvent s LogEvent.MessageLogged "INFO|t|SERVER> up|x".data)).map
      (fun s => commandsDelivered s.effects) =
      some [logMessageCommand 7 "|t|SERVER> up|x" "INFO" "SERVER"] := by
  decide

/-! ## Claims on the notification of a started server -/

/-- Joining the texts of a list after a first text. -/
theorem foldl_append_eq_join (l : List String) (acc : String) :
    l.foldl (fun r s => r ++ s) acc = acc ++ String.join l := by
  induction l generalizing acc with
  | nil => simp [String.join]
  | cons x l ih =>
    rw [List.foldl_cons, ih]
    simp only [String.join, List.foldl_cons]
    rw [ih ("" ++ x)]
    simp [String.append_assoc]
    rfl

theorem join_cons (x : String) (l : List String) :
    String.join (x :: l) = x ++ String.join l := by
  simp only [String.join, List.foldl_cons]
  rw [foldl_append_eq_join]
  simp [String.join]

/-- The texts `serverEntry` adds for the nested elements are, joined, the texts
`prefix:port;` of the endpoints with a port. -/
theorem join_serverEntry (nested : List XMLDataElement) :
    String.join (nested.map serverEntry) =
      String.join ((nested.filter (fun child =>
        child.name = "PlusOpenIGTLinkServer" ∧
          (child.getAttribute "ListeningPort").isSome)).map
        (fun endpoint => endpointText endpoint ++ ";")) := by
  induction nested with
  | nil => rfl
  | cons child rest ih =>
    rw [List.map_cons, join_cons, ih]
    by_cases hname : child.name = "PlusOpenIGTLinkServer"
    · cases hport : child.getAttribute "ListeningPort" with
      | none => simp [List.filter_cons, serverEntry, hname, hport]
      | some port =>
        cases hid : child.getAttribute "OutputChannelId" <;>
          simp [List.filter_cons, serverEntry, hname, hport, hid, join_cons, endpointText]
        rfl
    · simp [List.filter_cons, serverEntry, hname]

/-- C17, as the code has it: for a file of the directory that parses, the result of
`GetServersFromConfigFile` is the texts `prefix:port` of the direct child elements named
`PlusOpenIGTLinkServer` that have a `ListeningPort`, in document order, each followed by a
semicolon, also the last one; the prefix is the `OutputChannelId` when present and
`PlusOpenIGTLinkServer` otherwise. -/
theorem GetServersFromConfigFile_terminated (s : Launcher) (env : Environment)
    (filename : String) (content : List Char) (root : XMLDataElement)
    (hfile : fileContent s.configFiles filename = some content)
    (hparsed : env.ReadElementFromFile content = some root) :
    GetServersFromConfigFile s env filename =
      String.join ((endpointsWithPort root).map (fun endpoint => endpointText endpoint ++ ";")) := by
  simp only [GetServersFromConfigFile, hfile, Option.some_bind, hparsed, endpointsWithPort]
  exact join_serverEntry root.nested

/-- C17, as the code has it, on a configuration with three endpoints at the top, one of them
without port, and one nested deeper. -/
theorem GetServersFromConfigFile_terminated_witness :
    GetServersFromConfigFile Launcher.withSetup
        (Environment.parsing XMLDataElement.severalEndpoints) "setup.xml" =
      String.join ((endpointsWithPort XMLDataElement.severalEndpoints).map
        (fun endpoint => endpointText endpoint ++ ";")) :=
  GetServersFromConfigFile_terminated Launcher.withSetup
    (Environment.parsing XMLDataElement.severalEndpoints) "setup.xml"
    "<PlusConfiguration/>".data XMLDataElement.severalEndpoints (by decide) rfl

/-- C17 as stated fails: for the configuration with the single endpoint OutputA on port 18944
the result is `OutputA:18944;`, with a semicolon at the end, and this is the `Servers` value of
the response to `StartServer`; with several endpoints every entry ends in a semicolon. -/
theorem GetServersFromConfigFile_trailing_semicolon :
    GetServersFromConfigFile Launcher.withSetup
        (Environment.parsing XMLDataElement.singleEndpoint) "setup.xml" = "OutputA:18944;" ∧
    GetServersFromConfigFile Launcher.withSetup
        (Environment.parsing XMLDataElement.singleEndpoint) "setup.xml" ≠ "OutputA:18944" ∧
    (RemoteStartServer Launcher.withSetup (Environment.parsing XMLDataElement.singleEndpoint)
        (Command.received "StartServer" [("ConfigFileName", "setup.xml")])).map
      (fun s => (responsesSent s.effects).map (fun r => (r.successful, r.responseMetaData))) =
      some [(true, [("ConfigFileName", "setup.xml"), ("Servers", "OutputA:18944;")])] ∧
    GetServersFromConfigFile Launcher.withSetup
        (Environment.parsing XMLDataElement.severalEndpoints) "setup.xml" =
      "OutputA:18944;PlusOpenIGTLinkServer:18945;" := by
  decide

theorem commandsSent_append (a b : List Effect) :
    commandsSent (a ++ b) = commandsSent a ++ commandsSent b := by
  induction a with
  | nil => rfl
  | cons e a ih => cases e <;> simp [commandsSent, ih]

theorem verbositiesStarted_append (a b : List Effect) :
    verbositiesStarted (a ++ b) = verbositiesStarted a ++ verbositiesStarted b := by
  induction a with
  | nil => rfl
  | cons e a ih => cases e <;> simp [verbositiesStarted, ih]

/-- C18 fails on the code: whatever level is selected in the window, the local start launches
the child with the larger of that level and Info, and the `ServerStarted` command that follows
carries the `LogLevel` text `2`, the value of the enumerator `QVariant::Int`: with Debug
selected the child runs with verbosity 4 and the notification says 2, with Info selected the
child runs with 3 and the notification says 2. -/
theorem LocalStartServer_reports_enumerator (level : Int) :
    (LocalStartServer (Launcher.withLevel level) Environment.plain).map
      (fun r => (r.1, verbositiesStarted r.2.effects,
        (commandsSent r.2.effects).map (fun c => (c.name, c.commandMetaData)))) =
      some (true, [max level LOG_LEVEL_INFO],
        [("ServerStarted", [("LogLevel", "2"), ("ConfigFileName", "setup.xml")])]) ∧
    max LOG_LEVEL_DEBUG LOG_LEVEL_INFO = 4 ∧ max LOG_LEVEL_INFO LOG_LEVEL_INFO = 3 ∧
    ∀ selected : Int, ToString (max selected LOG_LEVEL_INFO).toNat ≠ "2" := by
  refine ⟨?_, by decide, by decide, ?_⟩
  · simp only [LocalStartServer, Environment.plain, StartServer_running]
    simp [Launcher.withLevel, Launcher.withSetup, Launcher.remote, Launcher.initial,
      SendServerStartedCommand, SendCommand, Launcher.emit, verbositiesStarted_append,
      verbositiesStarted, commandsSent_append, commandsSent, serverStartedCommand,
      logLevelToPlusServer, StartServer_defaultLogLevel]
    decide
  · intro selected h
    have hinj := ToString_injective _ _ (h.trans (by decide : "2" = ToString 2))
    have hle : LOG_LEVEL_INFO ≤ max selected LOG_LEVEL_INFO := le_max_right _ _
    simp only [LOG_LEVEL_INFO] at hle hinj
    omega

/-! ## Claims on the bounds and on the incomplete line of the output handler -/

/-- C19 fails on the code for each of the three kinds of chunk it names. For the chunk `" \n"`
the only line is erased and the iterator, now `end()` of an empty vector, is dereferenced. For
`"| |\n"` the only token is erased and the iterator, now `end()`, is incremented. For
`"INFO|t|m|()\n"` the location `()` has two characters and `substr(4, ...)` starts behind its
end. In each case the call does not run to completion within the bounds. -/
theorem SendServerOutputToLogger_out_of_range :
    SendServerOutputToLogger (Launcher.initial true) " \n".data = Outcome.outOfRange ∧
    SendServerOutputToLogger (Launcher.initial true) "| |\n".data = Outcome.outOfRange ∧
    SendServerOutputToLogger (Launcher.initial true) "INFO|t|m|()\n".data =
      Outcome.outOfRange ∧
    GetLogLevelType "INFO".data = LOG_LEVEL_INFO ∧
    "()".data.length < 4 := by
  decide

/-- A chunk that is not empty and, with the incomplete line before it, has no newline: the
call returns and the new incomplete line is the old one followed by the chunk, and nothing
else changes. -/
theorem SendServerOutputToLogger_no_newline (s : Launcher) (strData : List Char)
    (hchunk : strData ≠ [])
    (hnone : '\n' ∉ s.m_LogIncompleteLine ++ ReplaceStringInPlace strData) :
    SendServerOutputToLogger s strData = Outcome.ok { s with
      m_LogIncompleteLine := s.m_LogIncompleteLine ++ ReplaceStringInPlace strData } := by
  by_cases hbuffer : s.m_LogIncompleteLine = []
  · have hnone' : '\n' ∉ ReplaceStringInPlace strData := by simpa [hbuffer] using hnone
    simp [SendServerOutputToLogger, hchunk, hbuffer, hnone']
  · simp [SendServerOutputToLogger, hchunk, hbuffer, hnone]

/-- C20 fails on the code when the text after the last newline is blank or ends in a blank.
For the chunk `"x\n "` and an empty buffer the text after the last newline is one blank; the
call hands on the line `x` and leaves `x`, not the blank, as the new incomplete line. For the
chunk `"x\nfoo "` the text after the last newline is `foo` and a blank, and the new incomplete
line is `foo` without the blank. For the chunk `abc` without newline the new incomplete line
is `abc`, and for `"x\n"` it is empty. -/
theorem SendServerOutputToLogger_incomplete_line :
    textAfterLastNewline "x\n ".data = " ".data ∧
    (match SendServerOutputToLogger (Launcher.initial true) "x\n ".data with
      | Outcome.ok s => some (s.m_LogIncompleteLine, linesTaken s.effects)
      | _ => none) = some ("x".data, ["x".data]) ∧
    textAfterLastNewline "x\nfoo ".data = "foo ".data ∧
    (match SendServerOutputToLogger (Launcher.initial true) "x\nfoo ".data with
      | Outcome.ok s => some (s.m_LogIncompleteLine, linesTaken s.effects)
      | _ => none) = some ("foo".data, ["x".data]) ∧
    (match SendServerOutputToLogger (Launcher.initial true) "abc".data with
      | Outcome.ok s => some (s.m_LogIncompleteLine, linesTaken s.effects)
      | _ => none) = some (textAfterLastNewline "abc".data, []) ∧
    (match SendServerOutputToLogger (Launcher.initial true) "x\n".data with
      | Outcome.ok s => some (s.m_LogIncompleteLine, linesTaken s.effects)
      | _ => none) = some (textAfterLastNewline "x\n".data, ["x".data]) := by
  decide

/-! ## Claims on the lines handed on by the output handler -/

/-- C21 fails on the code: for the chunk `" \n \nx\n"` the first blank line is erased and the
iterator goes back to `begin()`, where the second blank line now stands; that line is handed on
without a second test, logged at level Info and passed to `ParseContent`, although it is empty
after trimming. -/
theorem SendServerOutputToLogger_blank_line_handed_on :
    Trim " ".data = [] ∧
    (match SendServerOutputToLogger (Launcher.initial true) " \n \nx\n".data with
      | Outcome.ok s => some (linesTaken s.effects, logRecords s.effects)
      | _ => none) =
      some ([" ".data, "x".data],
        [{ level := LOG_LEVEL_INFO, message := " ".data, file := none, lineNumber := none,
           optionalPrefix := some "SERVER" },
         { level := LOG_LEVEL_INFO, message := "x".data, file := none, lineNumber := none,
           optionalPrefix := some "SERVER" }]) := by
  decide

/-- C22 fails on the code: for the chunk `"a\n \nb\n"` and an empty buffer the complete lines
that are not blank are `a` and `b`; the call hands on `a`, `a`, `b`, the line `a` twice, since
the erasure of the blank line sends the iterator back to the first line. For the chunk
`"a\nb\n \n"` it hands on `a`, `b`, `a`, `b`. Without a blank line, as in `"a\n\nb\n"`, the
lines handed on are the complete lines. -/
theorem SendServerOutputToLogger_line_handed_on_twice :
    completeLines "a\n \nb\n".data = ["a".data, "b".data] ∧
    (match SendServerOutputToLogger (Launcher.initial true) "a\n \nb\n".data with
      | Outcome.ok s => some (linesTaken s.effects, s.m_LogIncompleteLine)
      | _ => none) = some (["a".data, "a".data, "b".data], []) ∧
    completeLines "a\nb\n \n".data = ["a".data, "b".data] ∧
    (match SendServerOutputToLogger (Launcher.initial true) "a\nb\n \n".data with
      | Outcome.ok s => some (linesTaken s.effects, s.m_LogIncompleteLine)
      | _ => none) = some (["a".data, "b".data, "a".data, "b".data], []) ∧
    (match SendServerOutputToLogger (Launcher.initial true) "a\n\nb\n".data with
      | Outcome.ok s => some (linesTaken s.effects, s.m_LogIncompleteLine)
      | _ => none) = some (completeLines "a\n\nb\n".data, []) := by
  decide

/-! ## Claims on the lines with a severity name -/

theorem logRecords_append (a b : List Effect) :
    logRecords (a ++ b) = logRecords a ++ logRecords b := by
  induction a with
  | nil => rfl
  | cons e a ih => cases e <;> simp [logRecords, ih]

/-- For a line with a separator whose first token is a severity name and whose location, the
fourth token or the placeholder, lacks one of the parentheses, the body of the loop makes one
`LogMessage` call at the level of the first token with the message, the third token or the
placeholder, and no file, and does nothing else. -/
theorem processLine_unparsed_location (s : Launcher) (line first : List Char)
    (rest : List (List Char))
    (hsep : '|' ∈ line)
    (hsplit : SplitStringIntoTokens line '|' = first :: rest)
    (hlevel : GetLogLevelType (Trim first) ≠ LOG_LEVEL_UNDEFINED)
    (hlocation : '(' ∉ (parseTokens (nonEmptyTokens (first :: rest))).location ∨
      ')' ∉ (parseTokens (nonEmptyTokens (first :: rest))).location) :
    processLine s line = LineStep.next (s.emit (Effect.logMessage
      { level := GetLogLevelType (Trim first),
        message := ((nonEmptyTokens (first :: rest))[2]?).getD "message???".data,
        file := none, lineNumber := none, optionalPrefix := none })) := by
  have hfirst : Trim first ≠ [] := by
    intro h
    rw [h] at hlevel
    exact hlevel (by decide)
  have htokens : nonEmptyTokens (first :: rest) = Trim first :: nonEmptyTokens rest := by
    simp [nonEmptyTokens, hfirst]
  have hlevel' : GetLogLevelType ((nonEmptyTokens (first :: rest)).getD 0 []) ≠
      LOG_LEVEL_UNDEFINED := by
    rw [htokens]; simpa using hlevel
  have hlength : (nonEmptyTokens (first :: rest)).length ≠ 0 := by
    rw [htokens]; simp
  have hparsedLevel : (parseTokens (nonEmptyTokens (first :: rest))).logLevel =
      GetLogLevelType (Trim first) := by
    unfold parseTokens
    rw [htokens]; rfl
  have hparsedMessage : (parseTokens (nonEmptyTokens (first :: rest))).message =
      ((nonEmptyTokens (first :: rest))[2]?).getD "message???".data := by
    unfold parseTokens
    cases (nonEmptyTokens (first :: rest))[2]? <;> rfl
  unfold processLine
  rw [if_pos hsep, hsplit, removeEmptyTokens_first_kept first rest hfirst]
  simp only [hlength, if_false, hlevel', ne_eq, not_false_eq_true, if_true]
  rw [if_pos hlocation, hparsedLevel, hparsedMessage]

/-- C23. For a line with a separator whose first token is a severity name and whose fourth
token, the location, lacks `(` or lacks `)`, the body of the loop over the lines goes on to the
next line after exactly one `LogMessage` call: at the level of the first token, with the third
token as the message, without file, line number or prefix. `ParseContent` is not run: the
state changes in the record of calls only, so the status suffix, the suffix shown and the
connection flag are the ones before the line. -/
theorem processLine_malformed_location (s : Launcher) (line first message location : List Char)
    (rest : List (List Char))
    (hsep : '|' ∈ line)
    (hsplit : SplitStringIntoTokens line '|' = first :: rest)
    (hlevel : GetLogLevelType (Trim first) ≠ LOG_LEVEL_UNDEFINED)
    (hmessage : (nonEmptyTokens (first :: rest))[2]? = some message)
    (htoken : (nonEmptyTokens (first :: rest))[3]? = some location)
    (hmalformed : '(' ∉ location ∨ ')' ∉ location) :
    ∃ s', processLine s line = LineStep.next s' ∧
      logRecords s'.effects = logRecords s.effects ++
        [{ level := GetLogLevelType (Trim first), message := message, file := none,
           lineNumber := none, optionalPrefix := none }] ∧
      s' = { s with effects := s'.effects } ∧
      s'.m_Suffix = s.m_Suffix ∧ s'.descriptionSuffix = s.descriptionSuffix ∧
      s'.connectionSuccessful = s.connectionSuccessful := by
  have hparsed : (parseTokens (nonEmptyTokens (first :: rest))).location = location := by
    unfold parseTokens
    rw [htoken]
  have hstep := processLine_unparsed_location s line first rest hsep hsplit hlevel
    (by rw [hparsed]; exact hmalformed)
  rw [hmessage] at hstep
  refine ⟨_, hstep, ?_, rfl, rfl, rfl, rfl⟩
  simp [Launcher.emit, logRecords_append, logRecords]

/-- C23, on an example: a line at level Info whose message is the status phrase and whose
location has no parenthesis; the message is logged and the connection flag stays as it was,
while `ParseContent` on that message would set it. -/
theorem processLine_malformed_location_witness :
    (∃ s', processLine (Launcher.initial true)
        "INFO|t|Server status: Server(s) are running.|nowhere".data = LineStep.next s' ∧
      logRecords s'.effects = logRecords (Launcher.initial true).effects ++
        [{ level := GetLogLevelType (Trim "INFO".data),
           message := "Server status: Server(s) are running.".data, file := none,
           lineNumber := none, optionalPrefix := none }] ∧
      s' = { Launcher.initial true with effects := s'.effects } ∧
      s'.m_Suffix = (Launcher.initial true).m_Suffix ∧
      s'.descriptionSuffix = (Launcher.initial true).descriptionSuffix ∧
      s'.connectionSuccessful = (Launcher.initial true).connectionSuccessful) ∧
    (Launcher.initial true).connectionSuccessful = false ∧
    (ParseContent (Launcher.initial true)
      "Server status: Server(s) are running.".data).connectionSuccessful = true :=
  ⟨processLine_malformed_location (Launcher.initial true)
      "INFO|t|Server status: Server(s) are running.|nowhere".data "INFO".data
      "Server status: Server(s) are running.".data "nowhere".data
      ["t".data, "Server status: Server(s) are running.".data, "nowhere".data]
      (by decide) (by decide) (by decide) (by decide) (by decide) (by decide),
    by decide, by decide⟩

/-- C26. For a line with a separator whose first token is a severity name and that has fewer
than four tokens that are not empty after trimming, the location is the placeholder
`location???`, which has no parenthesis, so the body of the loop logs the message and does not
run `ParseContent`: the state changes in the record of calls only, by one `LogMessage` call,
and the connection flag, the status suffix and the suffix shown are the ones before, whatever
the message says. -/
theorem processLine_short_line_not_sniffed (s : Launcher) (line first : List Char)
    (rest : List (List Char))
    (hsep : '|' ∈ line)
    (hsplit : SplitStringIntoTokens line '|' = first :: rest)
    (hlevel : GetLogLevelType (Trim first) ≠ LOG_LEVEL_UNDEFINED)
    (hcount : (nonEmptyTokens (first :: rest)).length < 4) :
    (parseTokens (nonEmptyTokens (first :: rest))).location = "location???".data ∧
    '(' ∉ "location???".data ∧ ')' ∉ "location???".data ∧
    ∃ s' record, processLine s line = LineStep.next s' ∧
      s'.effects = s.effects ++ [Effect.logMessage record] ∧
      record.message = (parseTokens (nonEmptyTokens (first :: rest))).message ∧
      s' = { s with effects := s'.effects } ∧
      s'.connectionSuccessful = s.connectionSuccessful ∧
      s'.m_Suffix = s.m_Suffix ∧ s'.descriptionSuffix = s.descriptionSuffix ∧
      s'.connectButtonText = s.connectButtonText := by
  have hnone : (nonEmptyTokens (first :: rest))[3]? = none := by
    rw [List.getElem?_eq_none_iff]; omega
  have hparsed : (parseTokens (nonEmptyTokens (first :: rest))).location =
      "location???".data := by
    unfold parseTokens
    rw [hnone]
  have hmessage : (parseTokens (nonEmptyTokens (first :: rest))).message =
      ((nonEmptyTokens (first :: rest))[2]?).getD "message???".data := by
    unfold parseTokens
    cases (nonEmptyTokens (first :: rest))[2]? <;> rfl
  have hstep := processLine_unparsed_location s line first rest hsep hsplit hlevel
    (by rw [hparsed]; exact Or.inl (by decide))
  refine ⟨hparsed, by decide, by decide, _, _, hstep, rfl, ?_, rfl, rfl, rfl, rfl, rfl⟩
  rw [hmessage]

/-- C26, on an example: the line `INFO|12.5|Server status: Server(s) are running.` has no
location token; the connection flag, false before, is false afterwards, while `ParseContent`
on the message would set it. -/
theorem processLine_short_line_not_sniffed_witness :
    (∃ s' record, processLine (Launcher.initial true)
        "INFO|12.5|Server status: Server(s) are running.".data = LineStep.next s' ∧
      s'.effects = (Launcher.initial true).effects ++ [Effect.logMessage record] ∧
      record.message = "Server status: Server(s) are running.".data ∧
      s'.connectionSuccessful = false) ∧
    (ParseContent (Launcher.initial true)
      "Server status: Server(s) are running.".data).connectionSuccessful = true := by
  obtain ⟨-, -, -, s', record, hstep, heffects, hmessage, -, hflag, -⟩ :=
    processLine_short_line_not_sniffed (Launcher.initial true)
      "INFO|12.5|Server status: Server(s) are running.".data "INFO".data
      ["12.5".data, "Server status: Server(s) are running.".data]
      (by decide) (by decide) (by decide) (by decide)
  exact ⟨⟨s', record, hstep, heffects, hmessage.trans (by decide), hflag.trans (by decide)⟩,
    by decide⟩

/-! ## Claims on the content of the messages -/

/-- C24. A message that contains `Server status: Server(s) are running.`, letter for letter,
and not the listening announcement makes `ParseContent` set the connection flag and the text
of the button and nothing else: the status suffix and the suffix shown are the ones before. A
message that contains none of the three phrases leaves the state as it is. -/
theorem ParseContent_running (s : Launcher) (message : List Char) :
    (hasSubstring message "Server status: Server(s) are running.".data = true →
      hasSubstring message "Plus OpenIGTLink server listening on IPs:".data = false →
      ParseContent s message =
        { s with connectionSuccessful := true, connectButtonText := "Stop server" } ∧
      (ParseContent s message).connectionSuccessful = true ∧
      (ParseContent s message).m_Suffix = s.m_Suffix ∧
      (ParseContent s message).descriptionSuffix = s.descriptionSuffix) ∧
    (hasSubstring message "Plus OpenIGTLink server listening on IPs:".data = false →
      hasSubstring message "Server status: Server(s) are running.".data = false →
      hasSubstring message "Server status: ".data = false →
      ParseContent s message = s) := by
  constructor
  · intro hrunning hlistening
    have heq : ParseContent s message =
        { s with connectionSuccessful := true, connectButtonText := "Stop server" } := by
      simp [ParseContent, hrunning, hlistening]
    rw [heq]
    exact ⟨rfl, rfl, rfl, rfl⟩
  · intro hlistening hrunning hstatus
    simp [ParseContent, hrunning, hlistening, hstatus]

/-- C24, on examples: the status phrase inside a longer message sets the flag of a launcher
whose flag is off and keeps its suffix; the same phrase in lower case letters contains none of
the three phrases and changes nothing. -/
theorem ParseContent_running_witness :
    ((ParseContent (Launcher.initial true)
        "SERVER> Server status: Server(s) are running.".data).connectionSuccessful = true ∧
      (ParseContent (Launcher.initial true)
        "SERVER> Server status: Server(s) are running.".data).m_Suffix =
        (Launcher.initial true).m_Suffix) ∧
    (Launcher.initial true).connectionSuccessful = false ∧
    ParseContent (Launcher.initial true) "server status: server(s) are running.".data =
      Launcher.initial true :=
  ⟨⟨((ParseContent_running (Launcher.initial true)
        "SERVER> Server status: Server(s) are running.".data).1 (by decide) (by decide)).2.1,
    ((ParseContent_running (Launcher.initial true)
        "SERVER> Server status: Server(s) are running.".data).1 (by decide) (by decide)).2.2.1⟩,
   by decide,
   (ParseContent_running (Launcher.initial true)
      "server status: server(s) are running.".data).2 (by decide) (by decide) (by decide)⟩

/-- A run of `ParseContent` over messages that all contain the listening announcement appends
each message and a newline to the status suffix, shows the suffix after the last one, and
changes nothing else. -/
theorem ParseContent_foldl_listening (messages : List (List Char)) (s : Launcher)
    (hall : ∀ message ∈ messages,
      hasSubstring message "Plus OpenIGTLink server listening on IPs:".data = true) :
    messages.foldl ParseContent s = { s with
      m_Suffix := s.m_Suffix ++ (messages.map (fun message => message ++ ['\n'])).flatten,
      descriptionSuffix :=
        if messages = [] then s.descriptionSuffix
        else s.m_Suffix ++ (messages.map (fun message => message ++ ['\n'])).flatten } := by
  induction messages generalizing s with
  | nil => simp
  | cons message rest ih =>
    have hmessage := hall message (by simp)
    have hrest : ∀ m ∈ rest,
        hasSubstring m "Plus OpenIGTLink server listening on IPs:".data = true :=
      fun m hm => hall m (by simp [hm])
    rw [List.foldl_cons, ih _ hrest]
    by_cases hnil : rest = []
    · subst hnil
      simp [ParseContent, hmessage]
    · simp [ParseContent, hmessage, hnil, List.append_assoc]

/-- C25. Starting from an empty status suffix, `ParseContent` run over the messages
`m1 .. mn`, each of which contains the listening announcement, leaves the status suffix
`m1 ++ newline ++ .. ++ mn ++ newline`, in the order of the messages; with at least one
message this is also the suffix shown; the connection flag and the text of the button are the
ones before the sequence. -/
theorem ParseContent_listening_sequence (s : Launcher) (messages : List (List Char))
    (hempty : s.m_Suffix = [])
    (hall : ∀ message ∈ messages,
      hasSubstring message "Plus OpenIGTLink server listening on IPs:".data = true) :
    (messages.foldl ParseContent s).m_Suffix =
      (messages.map (fun message => message ++ ['\n'])).flatten ∧
    (messages ≠ [] → (messages.foldl ParseContent s).descriptionSuffix =
      (messages.map (fun message => message ++ ['\n'])).flatten) ∧
    (messages.foldl ParseContent s).connectionSuccessful = s.connectionSuccessful ∧
    (messages.foldl ParseContent s).connectButtonText = s.connectButtonText := by
  rw [ParseContent_foldl_listening messages s hall]
  refine ⟨by simp [hempty], ?_, rfl, rfl⟩
  intro hne
  simp [hempty, hne]

/-- C25, on an example: two announcements, for the ports 18944 and 18945. -/
theorem ParseContent_listening_sequence_witness :
    (["Plus OpenIGTLink server listening on IPs: 127.0.0.1 -- port 18944".data,
      "Plus OpenIGTLink server listening on IPs: 127.0.0.1 -- port 18945".data].foldl
        ParseContent (Launcher.initial true)).m_Suffix =
      ("Plus OpenIGTLink server listening on IPs: 127.0.0.1 -- port 18944\n" ++
       "Plus OpenIGTLink server listening on IPs: 127.0.0.1 -- port 18945\n").data ∧
    (["Plus OpenIGTLink server listening on IPs: 127.0.0.1 -- port 18944".data,
      "Plus OpenIGTLink server listening on IPs: 127.0.0.1 -- port 18945".data].foldl
        ParseContent (Launcher.initial true)).connectionSuccessful =
      (Launcher.initial true).connectionSuccessful := by
  have h := ParseContent_listening_sequence (Launcher.initial true)
    ["Plus OpenIGTLink server listening on IPs: 127.0.0.1 -- port 18944".data,
     "Plus OpenIGTLink server listening on IPs: 127.0.0.1 -- port 18945".data]
    (by decide) (by decide)
  exact ⟨h.1.trans (by decide), h.2.2.1⟩

/-! ## Claim on the entry left by a failed start -/

/-- C27. When the child is still starting after the wait, or failed to start so that only
`ErrorReceived` ran, `StartServer` returns false and the table holds the new process, which is
not running, under the basename of the configuration; the other keys are as before. A
`StopServer` on that key afterwards finds it tracked: it returns true, deletes that process
and leaves the key untracked. -/
theorem StartServer_failure_keeps_entry (s : Launcher) (configFilePath : String)
    (logLevel : Int) (outcome : StartOutcome) (w w' : Nat → Bool)
    (houtcome : outcome = StartOutcome.starting ∨ outcome = StartOutcome.failedToStart) :
    ∃ s' process, StartServer s configFilePath logLevel outcome w = some (false, s') ∧
      mapFind s'.m_ServerInstances (GetFilenameName configFilePath) = some process ∧
      process.ptr = s.nextProcess ∧ process.state ≠ ProcessState.Running ∧
      (∀ key, key ≠ GetFilenameName configFilePath →
        mapFind s'.m_ServerInstances key = mapFind s.m_ServerInstances key) ∧
      ∃ s'', StopServer s' configFilePath w' = some (true, s'') ∧
        Effect.processDelete process.ptr ∈ s''.effects ∧
        mapFind s''.m_ServerInstances (GetFilenameName configFilePath) = none := by
  rcases houtcome with h | h
  · subst h
    have htracked : mapFind (mapSet (mapSet s.m_ServerInstances (GetFilenameName configFilePath)
          { ptr := s.nextProcess, state := ProcessState.NotRunning })
        (GetFilenameName configFilePath)
        { ptr := s.nextProcess, state := ProcessState.Starting })
        (GetFilenameName configFilePath) =
        some { ptr := s.nextProcess, state := ProcessState.Starting } := by
      simp [mapFind_mapSet]
    refine ⟨_, { ptr := s.nextProcess, state := ProcessState.Starting },
      StartServer_starting s configFilePath logLevel w, htracked, rfl, by simp, ?_, ?_⟩
    · intro key hkey
      simp [mapFind_mapSet, hkey]
    · refine ⟨_, StopServer_notRunning _ configFilePath w' _ htracked (by simp), ?_, ?_⟩
      · simp
      · simp [mapFind_mapErase]
  · subst h
    have htracked : mapFind (mapSet s.m_ServerInstances (GetFilenameName configFilePath)
          { ptr := s.nextProcess, state := ProcessState.NotRunning })
        (GetFilenameName configFilePath) =
        some { ptr := s.nextProcess, state := ProcessState.NotRunning } := by
      simp [mapFind_mapSet]
    refine ⟨_, { ptr := s.nextProcess, state := ProcessState.NotRunning },
      StartServer_failedToStart s configFilePath logLevel w, htracked, rfl, by simp, ?_, ?_⟩
    · intro key hkey
      simp [mapFind_mapSet, hkey]
    · refine ⟨_, StopServer_notRunning _ configFilePath w' _ htracked (by simp), ?_, ?_⟩
      · simp
      · simp [mapFind_mapErase]

/-- C27, on an example: the executable for `setup.xml` fails to start. -/
theorem StartServer_failure_keeps_entry_witness :
    ∃ s' process, StartServer (Launcher.initial true) "setup.xml" LOG_LEVEL_INFO
        StartOutcome.failedToStart neverExits = some (false, s') ∧
      mapFind s'.m_ServerInstances (GetFilenameName "setup.xml") = some process ∧
      process.ptr = (Launcher.initial true).nextProcess ∧
      process.state ≠ ProcessState.Running ∧
      (∀ key, key ≠ GetFilenameName "setup.xml" →
        mapFind s'.m_ServerInstances key =
          mapFind (Launcher.initial true).m_ServerInstances key) ∧
      ∃ s'', StopServer s' "setup.xml" neverExits = some (true, s'') ∧
        Effect.processDelete process.ptr ∈ s''.effects ∧
        mapFind s''.m_ServerInstances (GetFilenameName "setup.xml") = none :=
  StartServer_failure_keeps_entry (Launcher.initial true) "setup.xml" LOG_LEVEL_INFO
    StartOutcome.failedToStart neverExits neverExits (Or.inr rfl)

end PlusServerLauncher
